import Mathlib

/-!
# RxTrainer: a shallow embedding of the reactor simulation and its checked properties

The C++ sources (`ProtectiveActionLogic.cpp`, `CoolantLoop.cpp`, `CoolantChunk.cpp`,
`CoreElement.cpp`, `Core.cpp`, `MainSimulation.cpp`) are transcribed as pure Lean
functions over explicit state records.

Modelling conventions
* `double` is modelled by the exact rationals `ℚ`: every arithmetic operation is the
  exact one, and there is no NaN or infinity.  The one place where the rounding of a
  `double` operation decides a discrete outcome, the conversion
  `static_cast<int>(insertionDepth * zSize)`, is modelled with the rounding: `toDouble`
  is the conversion to the nearest binary64 number, ties to even.
* `int` is modelled by `Nat` / `Int` without wrap-around (signed overflow is undefined
  in C++; the grids of the program are tiny).
* `std::vector` / `std::deque` are `List`s.  An indexed write `v[i] = ...` is
  `List.modify` / `List.set` at `i`, an indexed read is `v[i]?`.  An access outside
  `[0, size)` is undefined behaviour in C++; in the model such a write changes nothing
  and such a read yields no element.  Theorems that depend on accesses being in range
  carry the hypotheses that make them so.
* `#pragma omp parallel for` loops are modelled as the sequential loop in source order.
* `numEnergyGroups` comes from `Constants.h`, which is not part of the available
  sources: it is a parameter `G` of the element constructors.  `Core` additionally has
  its own data member `numEnergyGroups`, which the constructor never assigns; it is a
  field of the `Core` record.
-/

set_option autoImplicit false

namespace RxTrainer

/-! ## ProtectiveActionLogic -/

/-- State of `class ProtectiveActionLogic` (the unused `responseTime` is omitted). -/
structure ProtectiveActionLogic where
  scramInitiated : Bool
deriving DecidableEq, Repr

namespace ProtectiveActionLogic

/-- Constructor `ProtectiveActionLogic::ProtectiveActionLogic()`. -/
def new : ProtectiveActionLogic := { scramInitiated := false }

/-- Constant `temperatureThreshold` of `evaluateConditions`. -/
def temperatureThreshold : ℚ := 2000

/-- Constant `flowRateThreshold` of `evaluateConditions`. -/
def flowRateThreshold : ℚ := 1 / 2

/-- Method `ProtectiveActionLogic::evaluateConditions`. -/
def evaluateConditions (p : ProtectiveActionLogic) (coreTemperature coolantFlowRate : ℚ) :
    ProtectiveActionLogic :=
  if coreTemperature ≥ temperatureThreshold ∨ coolantFlowRate ≤ flowRateThreshold then
    { p with scramInitiated := true }
  else p

/-- Method `ProtectiveActionLogic::isScramInitiated`. -/
def isScramInitiated (p : ProtectiveActionLogic) : Bool := p.scramInitiated

/-- A sequence of `evaluateConditions` calls, one per `(temperature, flow)` sample. -/
def evaluateAll (p : ProtectiveActionLogic) (samples : List (ℚ × ℚ)) : ProtectiveActionLogic :=
  samples.foldl (fun q s => q.evaluateConditions s.1 s.2) p

end ProtectiveActionLogic

/-! ## CoolantChunk and CoolantLoop -/

/-- State of `class CoolantChunk`. -/
structure CoolantChunk where
  temperature : ℚ
deriving DecidableEq, Repr

namespace CoolantChunk

/-- Method `CoolantChunk::absorbHeat`: `temperature += heatEnergy / (mass * 4200)`. -/
def absorbHeat (c : CoolantChunk) (heatEnergy : ℚ) : CoolantChunk :=
  let specificHeatCapacity : ℚ := 4200
  let mass : ℚ := 1
  let deltaT := heatEnergy / (mass * specificHeatCapacity)
  { c with temperature := c.temperature + deltaT }

end CoolantChunk

/-- State of `class CoolantLoop`: the leak flag and the deque of chunks (front first). -/
structure CoolantLoop where
  hasLeak : Bool
  chunks : List CoolantChunk
deriving DecidableEq, Repr

namespace CoolantLoop

/-- Constructor `CoolantLoop::CoolantLoop(int chunkCount)`. -/
def new (chunkCount : Int) : CoolantLoop :=
  { hasLeak := false, chunks := List.replicate chunkCount.toNat { temperature := 300 } }

/-- Method `CoolantLoop::setLeak`. -/
def setLeak (l : CoolantLoop) (cond : Bool) : CoolantLoop := { l with hasLeak := cond }

/-- Method `CoolantLoop::getChunkCount`. -/
def getChunkCount (l : CoolantLoop) : Nat := l.chunks.length

/-- Method `CoolantLoop::advanceLoop`: `pop_back` when leaking and non-empty, then, when
non-empty, `front` / `pop_front` / `push_back`. -/
def advanceLoop (l : CoolantLoop) : CoolantLoop :=
  let afterLeak :=
    if l.hasLeak && !l.chunks.isEmpty then l.chunks.dropLast else l.chunks
  let afterFlow :=
    match afterLeak with
    | [] => []
    | frontChunk :: rest => rest ++ [frontChunk]
  { l with chunks := afterFlow }

/-- Method `CoolantLoop::updateCoolantChunks`. -/
def updateCoolantChunks (l : CoolantLoop) : CoolantLoop :=
  let heatLossPerChunk : ℚ := 5000
  { l with chunks := l.chunks.map (fun chunk => chunk.absorbHeat (-heatLossPerChunk)) }

/-- The reference step in the words of the specification: drop the tail chunk if
`hasLeak` and the sequence is non-empty, then move the head chunk to the tail. -/
def advanceLoopReference (l : CoolantLoop) : CoolantLoop :=
  let dropped := if l.hasLeak = true ∧ l.chunks ≠ [] then l.chunks.take (l.chunks.length - 1)
                 else l.chunks
  { hasLeak := l.hasLeak, chunks := dropped.drop 1 ++ dropped.take 1 }

end CoolantLoop

/-! ## Loops and indexed accesses -/

/-- Values taken by `v` in `for (int v = lo; v < hi; ++v)`. -/
def upTo (lo hi : Int) : List Int :=
  (List.range (hi - lo).toNat).map (fun (k : Nat) => lo + (k : Int))

/-- Values taken by `v` in `for (int v = lo; v < hi; v += 2)`. -/
def upToBy2 (lo hi : Int) : List Int :=
  (List.range ((hi - lo + 1) / 2).toNat).map (fun (k : Nat) => lo + 2 * (k : Int))

/-- Values taken by `v` in `for (int v = hi; v >= lo; --v)`. -/
def downTo (hi lo : Int) : List Int :=
  (List.range (hi - lo + 1).toNat).map (fun (k : Nat) => hi - (k : Int))

/-- Iteration order of a triple loop nest: `x` outermost, `z` innermost. -/
def loopNest (xs ys zs : List Int) : List (Int × Int × Int) :=
  xs.flatMap (fun x => ys.flatMap (fun y => zs.map (fun z => (x, y, z))))

/-- Read `v[i]` for a signed index; no element outside `[0, size)`. -/
def readAt {α : Type} (v : List α) (i : Int) : Option α :=
  if 0 ≤ i then v[i.toNat]? else none

/-- Update `v[i]` in place by `f` for a signed index; nothing changes outside `[0, size)`. -/
def modifyAt {α : Type} (v : List α) (i : Int) (f : α → α) : List α :=
  if 0 ≤ i then v.modify f i.toNat else v

/-- Conversion `static_cast<int>(q)`: truncation towards zero. -/
def truncToInt (q : ℚ) : Int := if 0 ≤ q then ⌊q⌋ else ⌈q⌉

/-- Rounding to the nearest integer, a tie going to the even one. -/
def roundHalfEven (q : ℚ) : Int :=
  let below := ⌊q⌋
  let rest := q - below
  if rest < 1 / 2 then below
  else if 1 / 2 < rest then below + 1
  else if below % 2 = 0 then below else below + 1

/-- The `double` (IEEE 754 binary64) nearest to `q`, a tie going to the even significand:
with `2 ^ exponent ≤ |q| < 2 ^ (exponent + 1)` the result is the multiple of the quantum
`2 ^ (exponent - 52)` nearest to `q` (53 significant bits), the quantum never being
smaller than `2 ^ (-1074)` (subnormal numbers).  It is `q` itself when `q` is a `double`.
Overflow to infinity (`|q| ≥ 2 ^ 1024`) is not modelled. -/
def toDouble (q : ℚ) : ℚ :=
  if q = 0 then 0
  else
    let exponent := Int.log 2 |q|
    let quantum : ℚ := 2 ^ max (exponent - 52) (-1074)
    roundHalfEven (q / quantum) * quantum

/-! ## CoreElement -/

/-- Enumeration `enum class MaterialType`. -/
inductive MaterialType where
  | Vessel
  | Fuel
  | ControlRod
deriving DecidableEq, Repr

/-- Data members of `class CoreElement`. -/
structure CoreElement where
  material : MaterialType
  temperature : ℚ
  reactivity : ℚ
  neutronPopulation : ℚ
  Sigma_a_0 : ℚ
  U235_concentration : ℚ
  Xe135_concentration : ℚ
  neutronFlux : List ℚ
  Sigma_a : List ℚ
  Sigma_f : List ℚ
  Chi : List ℚ
  Sigma_s : List (List ℚ)
deriving DecidableEq, Repr

namespace CoreElement

/-- Default constructor `CoreElement::CoreElement()`: a Vessel cell at 300 K whose vectors
are sized by `initializeVectors` (`G` entries, all zero). -/
def default (G : Nat) : CoreElement :=
  { material := MaterialType.Vessel, temperature := 300, reactivity := 0,
    neutronPopulation := 0, Sigma_a_0 := 0, U235_concentration := 0, Xe135_concentration := 0,
    neutronFlux := List.replicate G 0, Sigma_a := List.replicate G 0,
    Sigma_f := List.replicate G 0, Chi := List.replicate G 0,
    Sigma_s := List.replicate G (List.replicate G 0) }

/-- Constructor `CoreElement::CoreElement(MaterialType, double)`: after
`initializeVectors`, a Fuel cell gets population 1, flux 1, `Sigma_a` 0.01, `Sigma_f`
0.005, `Chi` 1 and `Sigma_s` 0.002 in every group; any other material gets zeros. -/
def new (G : Nat) (material : MaterialType) (temperature : ℚ) : CoreElement :=
  if material = MaterialType.Fuel then
    { material := material, temperature := temperature, reactivity := 0,
      neutronPopulation := 1, Sigma_a_0 := 0, U235_concentration := 0,
      Xe135_concentration := 0,
      neutronFlux := List.replicate G 1, Sigma_a := List.replicate G (1 / 100),
      Sigma_f := List.replicate G (5 / 1000), Chi := List.replicate G 1,
      Sigma_s := List.replicate G (List.replicate G (2 / 1000)) }
  else
    { material := material, temperature := temperature, reactivity := 0,
      neutronPopulation := 0, Sigma_a_0 := 0, U235_concentration := 0,
      Xe135_concentration := 0,
      neutronFlux := List.replicate G 0, Sigma_a := List.replicate G 0,
      Sigma_f := List.replicate G 0, Chi := List.replicate G 0,
      Sigma_s := List.replicate G (List.replicate G 0) }

/-- Method `getNeutronFlux(group)`. -/
def getNeutronFlux (e : CoreElement) (group : Nat) : ℚ := e.neutronFlux.getD group 0

/-- Method `setNeutronFlux(group, flux)`. -/
def setNeutronFlux (e : CoreElement) (group : Nat) (flux : ℚ) : CoreElement :=
  { e with neutronFlux := e.neutronFlux.set group flux }

/-- Method `setNeutronFlux(group, flux)` with the write `neutronFlux[group] = flux`
checked: no element when `group` lies outside the vector (undefined behaviour in the
source). -/
def setNeutronFluxChecked (e : CoreElement) (group : Nat) (flux : ℚ) : Option CoreElement :=
  if group < e.neutronFlux.length then some (e.setNeutronFlux group flux) else none

/-- Method `getSigmaA(group)`. -/
def getSigmaA (e : CoreElement) (group : Nat) : ℚ := e.Sigma_a.getD group 0

/-- Method `getSigmaF(group)`. -/
def getSigmaF (e : CoreElement) (group : Nat) : ℚ := e.Sigma_f.getD group 0

/-- Method `getChi(group)`. -/
def getChi (e : CoreElement) (group : Nat) : ℚ := e.Chi.getD group 0

/-- Method `getSigmaS(fromGroup, toGroup)`. -/
def getSigmaS (e : CoreElement) (fromGroup toGroup : Nat) : ℚ :=
  (e.Sigma_s.getD fromGroup []).getD toGroup 0

/-- Method `setReactivity`. -/
def setReactivity (e : CoreElement) (reactivity : ℚ) : CoreElement :=
  { e with reactivity := reactivity }

/-- Method `setNeutronPopulation`. -/
def setNeutronPopulation (e : CoreElement) (neutronPopulation : ℚ) : CoreElement :=
  { e with neutronPopulation := neutronPopulation }

/-- Method `setMaterial`: also resets the population to 1 (Fuel) or 0 (otherwise). -/
def setMaterial (e : CoreElement) (material : MaterialType) : CoreElement :=
  { e with material := material,
           neutronPopulation := if material = MaterialType.Fuel then 1 else 0 }

/-- The loop of `calculateReactivity` accumulating `reactivityEffect` over the neighbours. -/
def reactivityEffect (neighbors : List CoreElement) : ℚ :=
  neighbors.foldl (fun acc neighbor =>
    if neighbor.material = MaterialType.Fuel then acc + 1 / 100
    else if neighbor.material = MaterialType.ControlRod then acc - 2 / 100
    else acc) 0

/-- Method `calculateReactivity(neighbors)`; the neighbours are the pointed-to elements as
they are when the method runs. -/
def calculateReactivity (e : CoreElement) (neighbors : List CoreElement) : CoreElement :=
  let temperatureCoefficient : ℚ := -(1 / 10000)
  let temperatureReactivity := temperatureCoefficient * (e.temperature - 300)
  { e with reactivity := reactivityEffect neighbors + temperatureReactivity }

/-- Method `updateTemperature(heatInput, deltaTime)`. -/
def updateTemperature (e : CoreElement) (heatInput deltaTime : ℚ) : CoreElement :=
  let mass : ℚ := 1
  let specificHeatCapacity : ℚ :=
    match e.material with
    | MaterialType.Fuel => 300
    | MaterialType.ControlRod => 500
    | MaterialType.Vessel => 450
  let deltaT := (heatInput * deltaTime) / (mass * specificHeatCapacity)
  { e with temperature := e.temperature + deltaT }

/-- Static method `calculateSigmaA0`, with `sigma_a_U235 = 680` and `sigma_a_Xe135 = 2.65e6`. -/
def calculateSigmaA0 (U235_conc Xe135_conc : ℚ) : ℚ :=
  U235_conc * 680 + Xe135_conc * 2650000

/-- Method `updateBurnup(deltaTime)`. -/
def updateBurnup (e : CoreElement) (deltaTime : ℚ) : CoreElement :=
  let phi := e.getNeutronFlux 0
  let fissionRate := e.getSigmaF 0 * phi
  let yield_Xe135 : ℚ := 65 / 1000
  let u235 := e.U235_concentration - fissionRate * deltaTime
  let xe135 := e.Xe135_concentration + fissionRate * deltaTime * yield_Xe135
  { e with U235_concentration := u235, Xe135_concentration := xe135,
           Sigma_a_0 := calculateSigmaA0 u235 xe135 }

end CoreElement

/-! ## Core -/

/-- Data members of `class Core` (the mutex is omitted). -/
structure Core where
  xSize : Nat
  ySize : Nat
  zSize : Nat
  numEnergyGroups : Nat
  elements : List CoreElement
  controlRodInsertion : ℚ
deriving DecidableEq, Repr

namespace Core

/-- Method `Core::index`. -/
def index (c : Core) (x y z : Int) : Int :=
  x * c.ySize * c.zSize + y * c.zSize + z

/-- Coordinates visited by the full loop nest `0 ≤ x < xSize`, `0 ≤ y < ySize`,
`0 ≤ z < zSize`. -/
def allCells (c : Core) : List (Int × Int × Int) :=
  loopNest (upTo 0 c.xSize) (upTo 0 c.ySize) (upTo 0 c.zSize)

/-- Coordinates visited by the loop nest `1 ≤ x < xSize - 1`, `1 ≤ y < ySize - 1`,
`1 ≤ z < zSize - 1`. -/
def interiorCells (c : Core) : List (Int × Int × Int) :=
  loopNest (upTo 1 (c.xSize - 1)) (upTo 1 (c.ySize - 1)) (upTo 1 (c.zSize - 1))

/-- The test of `initializeCore` selecting the Vessel cells. -/
def onBoundary (c : Core) (x y z : Int) : Prop :=
  x = 0 ∨ x = c.xSize - 1 ∨ y = 0 ∨ y = c.ySize - 1 ∨ z = 0 ∨ z = c.zSize - 1

instance (c : Core) (x y z : Int) : Decidable (c.onBoundary x y z) := by
  unfold onBoundary; infer_instance

/-- Method `Core::initializeCore`. -/
def initializeCore (G : Nat) (c : Core) : Core :=
  { c with elements :=
      c.allCells.foldl (fun es p =>
        let material :=
          if c.onBoundary p.1 p.2.1 p.2.2 then MaterialType.Vessel else MaterialType.Fuel
        modifyAt es (c.index p.1 p.2.1 p.2.2) (fun _ => CoreElement.new G material 300)) c.elements }

/-- Constructor `Core::Core(xSize, ySize, zSize)`; `ng` is the value the never-assigned
member `numEnergyGroups` happens to hold. -/
def new (G ng xSize ySize zSize : Nat) : Core :=
  initializeCore G
    { xSize := xSize, ySize := ySize, zSize := zSize, numEnergyGroups := ng,
      elements := List.replicate (xSize * ySize * zSize) (CoreElement.default G),
      controlRodInsertion := 0 }

/-- The six offsets `dx[i], dy[i], dz[i]` of `getNeighbors`, in source order. -/
def neighborOffsets : List (Int × Int × Int) :=
  [(-1, 0, 0), (1, 0, 0), (0, -1, 0), (0, 1, 0), (0, 0, -1), (0, 0, 1)]

/-- Method `Core::getNeighbors`, reading the element array `es`. -/
def getNeighbors (c : Core) (es : List CoreElement) (x y z : Int) : List CoreElement :=
  neighborOffsets.filterMap (fun d =>
    let nx := x + d.1
    let ny := y + d.2.1
    let nz := z + d.2.2
    if nx ≥ 0 ∧ nx < c.xSize ∧ ny ≥ 0 ∧ ny < c.ySize ∧ nz ≥ 0 ∧ nz < c.zSize then
      readAt es (c.index nx ny nz)
    else none)

/-- Body of the first loop nest of `calculateCoreThermals` at one cell. -/
def reactivityStep (c : Core) (es : List CoreElement) (p : Int × Int × Int) :
    List CoreElement :=
  modifyAt es (c.index p.1 p.2.1 p.2.2) (fun element =>
    if element.material ≠ MaterialType.Vessel then
      element.calculateReactivity (c.getNeighbors es p.1 p.2.1 p.2.2)
    else element)

/-- Update applied to one element by the second loop nest of `calculateCoreThermals`. -/
def thermalUpdate (deltaTime : ℚ) (element : CoreElement) : CoreElement :=
  if element.material = MaterialType.Fuel then
    let neutronPopulation := element.neutronPopulation
    let reactivity := element.reactivity
    let newNeutronPopulation := neutronPopulation * (1 + reactivity)
    let heatGenerated := newNeutronPopulation * 1000
    (element.setNeutronPopulation newNeutronPopulation).updateTemperature heatGenerated deltaTime
  else element

/-- Method `Core::calculateCoreThermals`. -/
def calculateCoreThermals (c : Core) (deltaTime : ℚ) : Core :=
  let step1 := c.allCells.foldl (reactivityStep c) c.elements
  let step2 := c.allCells.foldl (fun es p =>
    modifyAt es (c.index p.1 p.2.1 p.2.2) (thermalUpdate deltaTime)) step1
  { c with elements := step2 }

/-- Update applied to one element by `insertControlRods`. -/
def scramUpdate (G : Nat) (element : CoreElement) : CoreElement :=
  if element.material = MaterialType.Fuel then
    CoreElement.new G MaterialType.ControlRod element.temperature
  else element

/-- Coordinates visited by `insertControlRods`: every other interior column. -/
def scramCells (c : Core) : List (Int × Int × Int) :=
  loopNest (upToBy2 1 (c.xSize - 1)) (upToBy2 1 (c.ySize - 1)) (upTo 1 (c.zSize - 1))

/-- Method `Core::insertControlRods`. -/
def insertControlRods (G : Nat) (c : Core) : Core :=
  { c with elements :=
      c.scramCells.foldl (fun es p =>
        modifyAt es (c.index p.1 p.2.1 p.2.2) (scramUpdate G)) c.elements }

/-- Update applied by the first loop nest of `setControlRodInsertion`. -/
def rodIn (element : CoreElement) : CoreElement :=
  if element.material = MaterialType.Fuel then element.setMaterial MaterialType.ControlRod
  else element

/-- Update applied by the second loop nest of `setControlRodInsertion`. -/
def rodOut (element : CoreElement) : CoreElement :=
  if element.material = MaterialType.ControlRod then element.setMaterial MaterialType.Fuel
  else element

/-- Local `maxInsertionLevel` of `setControlRodInsertion`:
`static_cast<int>(insertionDepth * zSize)`.  The parameter is a `double` (the argument
stands for the `double` nearest to it, itself when it is one), `zSize` converts to
`double`, the product is the `double` nearest to the exact product, and the cast
truncates it. -/
def maxInsertionLevel (c : Core) (insertionDepth : ℚ) : Int :=
  truncToInt (toDouble (toDouble insertionDepth * toDouble c.zSize))

/-- Coordinates of the first loop nest of `setControlRodInsertion`
(`z` from `zSize - 1` down to `zSize - maxInsertionLevel`). -/
def insertedCells (c : Core) (level : Int) : List (Int × Int × Int) :=
  loopNest (upTo 0 c.xSize) (upTo 0 c.ySize) (downTo (c.zSize - 1) (c.zSize - level))

/-- Coordinates of the second loop nest of `setControlRodInsertion`
(`z` from `0` up to `zSize - maxInsertionLevel`, exclusive). -/
def withdrawnCells (c : Core) (level : Int) : List (Int × Int × Int) :=
  loopNest (upTo 0 c.xSize) (upTo 0 c.ySize) (upTo 0 (c.zSize - level))

/-- Method `Core::setControlRodInsertion`. -/
def setControlRodInsertion (c : Core) (insertionDepth : ℚ) : Core :=
  let level := c.maxInsertionLevel insertionDepth
  let inserted := (c.insertedCells level).foldl (fun es p =>
    modifyAt es (c.index p.1 p.2.1 p.2.2) rodIn) c.elements
  let withdrawn := (c.withdrawnCells level).foldl (fun es p =>
    modifyAt es (c.index p.1 p.2.1 p.2.2) rodOut) inserted
  { c with controlRodInsertion := insertionDepth, elements := withdrawn }

/-- Method `Core::increaseReactivity`. -/
def increaseReactivity (c : Core) (delta : ℚ) : Core :=
  { c with elements := c.elements.map (fun element =>
      if element.material = MaterialType.Fuel then
        element.setReactivity (element.reactivity + delta)
      else element) }

/-- Method `Core::updateFuelBurnup`. -/
def updateFuelBurnup (c : Core) (delta_time : ℚ) : Core :=
  { c with elements := c.elements.map (fun element =>
      if element.material = MaterialType.Fuel then element.updateBurnup delta_time
      else element) }

/-- Read `elements[i].getNeutronFlux(g)`. -/
def fluxAt (es : List CoreElement) (i : Int) (g : Nat) : ℚ :=
  match readAt es i with
  | some e => e.getNeutronFlux g
  | none => 0

/-- Value `phi_center + deltaTime * rhs` computed for group `g` at a Fuel cell `element`
at `(x, y, z)` by `calculateMultiGroupNeutronFlux`. -/
def fluxUpdate (c : Core) (deltaTime : ℚ) (g : Nat) (element : CoreElement)
    (x y z : Int) : ℚ :=
  let es := c.elements
  let dx : ℚ := 1
  let dy : ℚ := 1
  let dz : ℚ := 1
  let D_g : ℚ := 1
  let phi_center := element.getNeutronFlux g
  let phi_x_plus := fluxAt es (c.index (x + 1) y z) g
  let phi_x_minus := fluxAt es (c.index (x - 1) y z) g
  let phi_y_plus := fluxAt es (c.index x (y + 1) z) g
  let phi_y_minus := fluxAt es (c.index x (y - 1) z) g
  let phi_z_plus := fluxAt es (c.index x y (z + 1)) g
  let phi_z_minus := fluxAt es (c.index x y (z - 1)) g
  let laplacian := (phi_x_plus - 2 * phi_center + phi_x_minus) / (dx * dx)
                 + (phi_y_plus - 2 * phi_center + phi_y_minus) / (dy * dy)
                 + (phi_z_plus - 2 * phi_center + phi_z_minus) / (dz * dz)
  let absorption := -(element.getSigmaA g) * phi_center
  let scattering := (List.range c.numEnergyGroups).foldl (fun acc g_prime =>
    if g_prime ≠ g then acc + element.getSigmaS g_prime g * element.getNeutronFlux g_prime
    else acc) 0
  let fission_source := (List.range c.numEnergyGroups).foldl (fun acc g_prime =>
    acc + element.getChi g * element.getSigmaF g_prime * element.getNeutronFlux g_prime) 0
  let rhs := D_g * laplacian + absorption + scattering + fission_source
  phi_center + deltaTime * rhs

/-- Body of the cell loop of `calculateMultiGroupNeutronFlux` for group `g`: the write
to `newFluxes[g][idx]`. -/
def fluxStep (c : Core) (deltaTime : ℚ) (g : Nat) (newFluxes : List (List ℚ))
    (p : Int × Int × Int) : List (List ℚ) :=
  let idx := c.index p.1 p.2.1 p.2.2
  match readAt c.elements idx with
  | some element =>
    if element.material = MaterialType.Fuel then
      newFluxes.modify (fun row =>
        modifyAt row idx (fun _ => c.fluxUpdate deltaTime g element p.1 p.2.1 p.2.2)) g
    else
      newFluxes.modify (fun row => modifyAt row idx (fun _ => 0)) g
  | none => newFluxes

/-- The buffer `newFluxes` of `calculateMultiGroupNeutronFlux` after the group loop. -/
def newFluxes (c : Core) (deltaTime : ℚ) : List (List ℚ) :=
  (List.range c.numEnergyGroups).foldl (fun nf g =>
    c.interiorCells.foldl (c.fluxStep deltaTime g) nf)
    (List.replicate c.numEnergyGroups (List.replicate c.elements.length 0))

/-- Method `Core::calculateMultiGroupNeutronFlux`: fill `newFluxes`, then store it into
every element, group by group. -/
def calculateMultiGroupNeutronFlux (c : Core) (deltaTime : ℚ) : Core :=
  let nf := c.newFluxes deltaTime
  { c with elements :=
      (List.range c.numEnergyGroups).foldl (fun es g =>
        es.mapIdx (fun i element =>
          element.setNeutronFlux g ((nf.getD g []).getD i 0))) c.elements }

/-- The inner loop `for i` that ends `calculateMultiGroupNeutronFlux`, for one group
`g`, with every write checked: `elements[i].setNeutronFlux(g, w i)` on the elements in
order, `w` giving the value for the element at each position; no array when a write
lies outside a flux vector. -/
def commitRowChecked (g : Nat) (w : Nat → ℚ) : List CoreElement → Option (List CoreElement)
  | [] => some []
  | element :: rest =>
    match element.setNeutronFluxChecked g (w 0), commitRowChecked g (fun i => w (i + 1)) rest with
    | some element', some rest' => some (element' :: rest')
    | _, _ => none

/-- Method `Core::calculateMultiGroupNeutronFlux` with the writes of its final loop nest
checked: `newFluxes` is filled as in the method, then stored group by group; no core
when a write `neutronFlux[g]` lies outside the flux vector of an element. -/
def calculateMultiGroupNeutronFluxChecked (c : Core) (deltaTime : ℚ) : Option Core :=
  let nf := c.newFluxes deltaTime
  ((List.range c.numEnergyGroups).foldlM (fun es g =>
    commitRowChecked g (fun i => (nf.getD g []).getD i 0) es) c.elements).map
    (fun es => { c with elements := es })

/-- The size relation established by the constructor: one element per cell. -/
def WellFormed (c : Core) : Prop := c.elements.length = c.xSize * c.ySize * c.zSize

instance (c : Core) : Decidable c.WellFormed := by unfold WellFormed; infer_instance

/-- Number of ControlRod cells in the element array. -/
def controlRodCount (c : Core) : Nat :=
  c.elements.countP (fun e => decide (e.material = MaterialType.ControlRod))

/-- The coordinates lie inside the grid. -/
def inGrid (c : Core) (x y z : Int) : Prop :=
  0 ≤ x ∧ x < c.xSize ∧ 0 ≤ y ∧ y < c.ySize ∧ 0 ≤ z ∧ z < c.zSize

instance (c : Core) (x y z : Int) : Decidable (c.inGrid x y z) := by
  unfold inGrid; infer_instance

/-- The element `elements[index(x, y, z)]`. -/
def cellAt (c : Core) (x y z : Int) : Option CoreElement :=
  readAt c.elements (c.index x y z)

/-- For each array entry, whether it is a Vessel cell. -/
def vesselMask (c : Core) : List Bool :=
  c.elements.map (fun e => decide (e.material = MaterialType.Vessel))

/-- Every cell of the grid is Vessel exactly when one of its coordinates is `0` or the
maximum of its axis. -/
def VesselIffBoundary (c : Core) : Prop :=
  ∀ x y z : Int, c.inGrid x y z →
    ∃ e, c.cellAt x y z = some e ∧ (e.material = MaterialType.Vessel ↔ c.onBoundary x y z)

/-- Every cell of the grid that is not on the boundary is Fuel. -/
def InteriorIsFuel (c : Core) : Prop :=
  ∀ x y z : Int, c.inGrid x y z → ¬ c.onBoundary x y z →
    ∃ e, c.cellAt x y z = some e ∧ e.material = MaterialType.Fuel

/-- Material of the cell at `(x, y, z)`; nothing outside the grid (no wrap-around). -/
def materialAt (c : Core) (x y z : Int) : Option MaterialType :=
  if c.inGrid x y z then (c.cellAt x y z).map (fun e => e.material) else none

/-- Materials found at the six face neighbours `±x, ±y, ±z` of a cell. -/
def faceNeighbourMaterials (c : Core) (x y z : Int) : List (Option MaterialType) :=
  [c.materialAt (x - 1) y z, c.materialAt (x + 1) y z,
   c.materialAt x (y - 1) z, c.materialAt x (y + 1) z,
   c.materialAt x y (z - 1), c.materialAt x y (z + 1)]

/-- Number of Fuel cells among the in-grid face neighbours. -/
def fuelNeighbours (c : Core) (x y z : Int) : Nat :=
  (c.faceNeighbourMaterials x y z).count (some MaterialType.Fuel)

/-- Number of ControlRod cells among the in-grid face neighbours. -/
def controlRodNeighbours (c : Core) (x y z : Int) : Nat :=
  (c.faceNeighbourMaterials x y z).count (some MaterialType.ControlRod)

end Core

namespace CoreElement

/-- The data members that `calculateMultiGroupNeutronFlux` reads or writes: material,
flux and the per-group cross-sections (not `Sigma_a_0` and not the concentrations). -/
def neutronics (e : CoreElement) :
    MaterialType × List ℚ × List ℚ × List ℚ × List ℚ × List (List ℚ) :=
  (e.material, e.neutronFlux, e.Sigma_a, e.Sigma_f, e.Chi, e.Sigma_s)

/-- Population, every flux entry and every cross-section entry of the element are zero. -/
def AllZero (e : CoreElement) : Prop :=
  e.neutronPopulation = 0 ∧ (∀ v ∈ e.neutronFlux, v = 0) ∧ (∀ v ∈ e.Sigma_a, v = 0) ∧
  (∀ v ∈ e.Sigma_f, v = 0) ∧ (∀ v ∈ e.Chi, v = 0) ∧ (∀ row ∈ e.Sigma_s, ∀ v ∈ row, v = 0)

end CoreElement

namespace Core

/-- Every Vessel element of the array has zero population, flux and cross-sections. -/
def VesselCellsZero (c : Core) : Prop :=
  ∀ e ∈ c.elements, e.material = MaterialType.Vessel → e.AllZero

/-- The reactivity rule in the words of the specification, for a cell at `(x, y, z)` with
temperature `T`: `+0.01` per Fuel face neighbour, `-0.02` per ControlRod face neighbour,
and the temperature feedback `-0.0001 * (T - 300)`. -/
def reactivityRule (c : Core) (x y z : Int) (T : ℚ) : ℚ :=
  1 / 100 * (c.fuelNeighbours x y z : ℚ) - 2 / 100 * (c.controlRodNeighbours x y z : ℚ)
    - 1 / 10000 * (T - 300)

/-- Flux `phi_g` of the cell at `(x, y, z)`, read from the core. -/
def phi (c : Core) (g : Nat) (x y z : Int) : ℚ :=
  match c.cellAt x y z with
  | some e => e.getNeutronFlux g
  | none => 0

/-- The six face neighbours of a cell. -/
def faceNeighbours (x y z : Int) : List (Int × Int × Int) :=
  [(x + 1, y, z), (x - 1, y, z), (x, y + 1, z), (x, y - 1, z), (x, y, z + 1), (x, y, z - 1)]

/-- The explicit flux update in the words of the specification, for group `g` at the
cell `(x, y, z)` whose element is `e`: `phi_g + dt * (sum over the six face neighbours of
(phi_g(n) - phi_g) - Sigma_a[g] * phi_g + sum over g' ≠ g of Sigma_s[g'][g] * phi_g' +
sum over all g' of Chi[g] * Sigma_f[g'] * phi_g')`, every `phi` read from the core `c`. -/
def fluxRule (c : Core) (dt : ℚ) (g : Nat) (x y z : Int) (e : CoreElement) : ℚ :=
  c.phi g x y z + dt *
    (((faceNeighbours x y z).map (fun n => c.phi g n.1 n.2.1 n.2.2 - c.phi g x y z)).sum
      - e.getSigmaA g * c.phi g x y z
      + (((List.range c.numEnergyGroups).filter (fun g' => g' ≠ g)).map
          (fun g' => e.getSigmaS g' g * c.phi g' x y z)).sum
      + ((List.range c.numEnergyGroups).map
          (fun g' => e.getChi g * e.getSigmaF g' * c.phi g' x y z)).sum)

/-- The value that the cell loop of `calculateMultiGroupNeutronFlux` leaves in
`newFluxes[g][idx]` when it visits the cell `p`, `old` being the value before. -/
def fluxCellValue (c : Core) (deltaTime : ℚ) (g : Nat) (p : Int × Int × Int) (old : ℚ) : ℚ :=
  match readAt c.elements (c.index p.1 p.2.1 p.2.2) with
  | some element =>
    if element.material = MaterialType.Fuel then
      c.fluxUpdate deltaTime g element p.1 p.2.1 p.2.2
    else 0
  | none => old

/-- The cell lies in one of the alternating interior columns: `x` and `y` odd with
`1 ≤ x < xSize - 1`, `1 ≤ y < ySize - 1`, and `1 ≤ z < zSize - 1`. -/
def inAlternatingColumn (c : Core) (x y z : Int) : Prop :=
  x % 2 = 1 ∧ y % 2 = 1 ∧ 1 ≤ x ∧ x < c.xSize - 1 ∧ 1 ≤ y ∧ y < c.ySize - 1 ∧
  1 ≤ z ∧ z < c.zSize - 1

instance (c : Core) (x y z : Int) : Decidable (c.inAlternatingColumn x y z) := by
  unfold inAlternatingColumn; infer_instance

end Core

/-! ## MainSimulation (command side) -/

/-- Lines that `MainSimulation` prints to the console, without their text. -/
inductive Message where
  | depthOutOfRange
  | rodsAdjusted (percent : ℚ)
  | help
  | invalidDepth
  | leakInitiated
  | powerSurgeInitiated
  | unknownCasualty
  | simulationPaused
  | simulationResumed
  | status
  | unknownCommand
  | exceptionInHandleUserInput
  | scramInitiated
deriving DecidableEq, Repr

namespace CoolantLoop

/-- Method `CoolantLoop::getUpperChunk`: the chunk at index `chunks.size() / 2`; no
chunk stands for a read outside the deque. -/
def getUpperChunk (l : CoolantLoop) : Option CoolantChunk :=
  l.chunks[l.chunks.length / 2]?

/-- Method `CoolantLoop::getLowerChunk`: `chunks.front()`; no chunk stands for a read on
an empty deque. -/
def getLowerChunk (l : CoolantLoop) : Option CoolantChunk :=
  l.chunks.head?

/-- Call `getUpperChunk().absorbHeat(heatEnergy)`. -/
def heatUpperChunk (l : CoolantLoop) (heatEnergy : ℚ) : CoolantLoop :=
  { l with chunks :=
      l.chunks.modify (fun chunk => chunk.absorbHeat heatEnergy) (l.chunks.length / 2) }

/-- Call `getLowerChunk().absorbHeat(heatEnergy)`. -/
def heatLowerChunk (l : CoolantLoop) (heatEnergy : ℚ) : CoolantLoop :=
  { l with chunks := l.chunks.modify (fun chunk => chunk.absorbHeat heatEnergy) 0 }

end CoolantLoop

/-- Data members of `class MainSimulation`: the referenced core and coolant loop, the
protective logic, the time step, and the run and pause flags (threads and mutexes are
omitted). -/
structure MainSimulation where
  core : Core
  coolantLoop : CoolantLoop
  protectiveLogic : ProtectiveActionLogic
  deltaTime : ℚ
  running : Bool
  paused : Bool
deriving DecidableEq, Repr

/-- What the end of one pass of the loop of `runSimulation` does: sleep for a number of
seconds, or print the latency warning with the overrun in milliseconds. -/
inductive Pacing where
  | sleep (seconds : ℚ)
  | warning (overrunMs : ℚ)
deriving DecidableEq, Repr

/-- Test `text.find(start) == 0`: `text` begins with `start`. -/
def startsWith : List Char → List Char → Bool
  | _, [] => true
  | [], _ :: _ => false
  | c :: cs, p :: ps => c == p && startsWith cs ps

/-- Call `text.substr(pos)`: the characters from `pos` on; nothing stands for the
`std::out_of_range` thrown when `pos > text.size()`. -/
def substr (text : List Char) (pos : Nat) : Option (List Char) :=
  if pos > text.length then none else some (text.drop pos)

namespace MainSimulation

/-- Method `MainSimulation::adjustControlRods`, on the referenced core; the second
component is the line printed. -/
def adjustControlRods (core : Core) (insertionDepth : ℚ) : Core × Message :=
  if insertionDepth < 0 ∨ insertionDepth > 1 then
    (core, Message.depthOutOfRange)
  else
    (core.setControlRodInsertion insertionDepth, Message.rodsAdjusted (insertionDepth * 100))

/-- Heat generated by one element as `exchangeHeat` counts it: `neutronPopulation * 1000`
for a Fuel element, nothing otherwise. -/
def heatGenerated (element : CoreElement) : ℚ :=
  if element.material = MaterialType.Fuel then element.neutronPopulation * 1000 else 0

/-- Update applied to one element by the loop nest of `exchangeHeat`. -/
def coolUpdate (deltaTime : ℚ) (element : CoreElement) : CoreElement :=
  if element.material = MaterialType.Fuel then
    let neutronPopulation := element.neutronPopulation
    let heatGenerated := neutronPopulation * 1000
    let heatRemoved := heatGenerated * (1 / 2)
    element.updateTemperature (-heatRemoved) deltaTime
  else element

/-- Body of the loop nest of `exchangeHeat` at one cell, on the element array and the
running `totalHeatGenerated`. -/
def exchangeStep (core : Core) (deltaTime : ℚ) (s : List CoreElement × ℚ)
    (p : Int × Int × Int) : List CoreElement × ℚ :=
  (modifyAt s.1 (core.index p.1 p.2.1 p.2.2) (coolUpdate deltaTime),
   s.2 + (match readAt s.1 (core.index p.1 p.2.1 p.2.2) with
          | some element => heatGenerated element
          | none => 0))

/-- Method `MainSimulation::exchangeHeat`. -/
def exchangeHeat (sim : MainSimulation) : MainSimulation :=
  let r := sim.core.allCells.foldl (exchangeStep sim.core sim.deltaTime) (sim.core.elements, 0)
  let totalHeatGenerated := r.2
  let totalHeatTransferred := totalHeatGenerated * (1 / 2)
  let heatPerChunk := totalHeatTransferred / 2
  { sim with
    core := { sim.core with elements := r.1 },
    coolantLoop := (sim.coolantLoop.heatUpperChunk heatPerChunk).heatLowerChunk heatPerChunk }

/-- Total heat `H` in the words of the specification: the sum over all Fuel cells of
`neutronPopulation * 1000`. -/
def totalHeat (core : Core) : ℚ :=
  ((core.elements.filter (fun e => decide (e.material = MaterialType.Fuel))).map
    (fun e => e.neutronPopulation * 1000)).sum

/-- End of one pass of the loop of `runSimulation`, from the measured `elapsedTime` in
seconds: the new `deltaTime` (clamped to `[0.01, 0.05]`) and the sleep or warning. -/
def pace (elapsedTime : ℚ) : ℚ × Pacing :=
  let targetIterationTime : ℚ := 33
  let minDeltaTime : ℚ := 1 / 100
  let maxDeltaTime : ℚ := 5 / 100
  let deltaTime :=
    if elapsedTime < minDeltaTime then minDeltaTime
    else if elapsedTime > maxDeltaTime then maxDeltaTime
    else elapsedTime
  let sleepTime := targetIterationTime / 1000 - deltaTime
  if sleepTime > 0 then (deltaTime, Pacing.sleep sleepTime)
  else (deltaTime, Pacing.warning (-sleepTime * 1000))

/-- Method `MainSimulation::initiateCasualty`. -/
def initiateCasualty (sim : MainSimulation) (casualtyType : List Char) :
    MainSimulation × Message :=
  if casualtyType = "leak".toList then
    ({ sim with coolantLoop := sim.coolantLoop.setLeak true }, Message.leakInitiated)
  else if casualtyType = "power surge".toList then
    ({ sim with core := sim.core.increaseReactivity (1 / 10) }, Message.powerSurgeInitiated)
  else
    (sim, Message.unknownCasualty)

/-- The command dispatch inside the outer `try` of `handleUserInput`, for one line read;
`stod` stands for `std::stod` (nothing when it throws).  No result stands for an
exception that leaves the dispatch. -/
def dispatch (stod : List Char → Option ℚ) (sim : MainSimulation) (command : List Char) :
    Option (MainSimulation × List Message) :=
  if command = "help".toList then
    some (sim, [Message.help])
  else if startsWith command "adjust rods".toList then
    -- the inner try block with its catch-all handler
    match substr command 12 with
    | none => some (sim, [Message.invalidDepth])
    | some argument =>
      match stod argument with
      | none => some (sim, [Message.invalidDepth])
      | some depth =>
        some ({ sim with core := (adjustControlRods sim.core depth).1 },
              [(adjustControlRods sim.core depth).2])
  else if startsWith command "initiate casualty".toList then
    match substr command 18 with
    | none => none
    | some casualtyType =>
      some ((initiateCasualty sim casualtyType).1, [(initiateCasualty sim casualtyType).2])
  else if command = "exit".toList then
    some ({ sim with running := false }, [])
  else if command = "pause".toList then
    some ({ sim with paused := true }, [Message.simulationPaused])
  else if command = "resume".toList then
    some ({ sim with paused := false }, [Message.simulationResumed])
  else if command = "status".toList then
    some (sim, [Message.status])
  else
    some (sim, [Message.unknownCommand])

/-- One pass of the loop of `handleUserInput` on the line `command`, with the outer
`catch` clauses: an exception that leaves the dispatch is reported and clears the run
flag. -/
def handleUserInput (stod : List Char → Option ℚ) (sim : MainSimulation)
    (command : List Char) : MainSimulation × List Message :=
  match dispatch stod sim command with
  | some result => result
  | none => ({ sim with running := false }, [Message.exceptionInHandleUserInput])

end MainSimulation

/-- The mutating operations of `Core` that the simulation and the commands invoke. -/
inductive CoreOp where
  | calculateCoreThermals (deltaTime : ℚ)
  | calculateMultiGroupNeutronFlux (deltaTime : ℚ)
  | updateFuelBurnup (deltaTime : ℚ)
  | insertControlRods
  | increaseReactivity (delta : ℚ)
  | setControlRodInsertion (depth : ℚ)
deriving DecidableEq, Repr

namespace CoreOp

/-- Argument range under which an operation is invoked: an insertion depth lies in
`[0, 1]`. -/
def inRange : CoreOp → Prop
  | setControlRodInsertion depth => 0 ≤ depth ∧ depth ≤ 1
  | _ => True

/-- Effect of one operation on the core. -/
def apply (G : Nat) (op : CoreOp) (c : Core) : Core :=
  match op with
  | calculateCoreThermals dt => c.calculateCoreThermals dt
  | calculateMultiGroupNeutronFlux dt => c.calculateMultiGroupNeutronFlux dt
  | updateFuelBurnup dt => c.updateFuelBurnup dt
  | insertControlRods => c.insertControlRods G
  | increaseReactivity delta => c.increaseReactivity delta
  | setControlRodInsertion depth => c.setControlRodInsertion depth

/-- Effect of a sequence of operations, applied left to right. -/
def run (G : Nat) (ops : List CoreOp) (c : Core) : Core :=
  ops.foldl (fun s op => op.apply G s) c

end CoreOp

/-! ## MainSimulation (simulation side) -/

namespace MainSimulation

/-- Method `MainSimulation::getMaxCoreTemperature`: the running maximum over the element
array, starting from `0.0`. -/
def getMaxCoreTemperature (sim : MainSimulation) : ℚ :=
  sim.core.elements.foldl (fun maxTemperature element =>
    if element.temperature > maxTemperature then element.temperature else maxTemperature) 0

/-- Method `MainSimulation::evaluateProtection`; the second component is the lines
printed. -/
def evaluateProtection (G : Nat) (sim : MainSimulation) : MainSimulation × List Message :=
  let maxCoreTemperature := sim.getMaxCoreTemperature
  let coolantFlowRate : ℚ := 1
  let protectiveLogic :=
    sim.protectiveLogic.evaluateConditions maxCoreTemperature coolantFlowRate
  if protectiveLogic.isScramInitiated = true then
    ({ sim with protectiveLogic := protectiveLogic, core := sim.core.insertControlRods G },
     [Message.scramInitiated])
  else
    ({ sim with protectiveLogic := protectiveLogic }, [])

/-- The block of `MainSimulation::iterate` that runs under the core mutex: flux solve,
then burnup, then thermals. -/
def coreBlock (core : Core) (deltaTime : ℚ) : Core :=
  ((core.calculateMultiGroupNeutronFlux deltaTime).updateFuelBurnup
    deltaTime).calculateCoreThermals deltaTime

/-- Method `MainSimulation::iterate`: the core block, the coolant block, `exchangeHeat`
and `evaluateProtection` (the values read afterwards are only printed). -/
def iterate (G : Nat) (sim : MainSimulation) : MainSimulation × List Message :=
  let afterCore := { sim with core := coreBlock sim.core sim.deltaTime }
  let afterCoolant :=
    { afterCore with coolantLoop := afterCore.coolantLoop.advanceLoop.updateCoolantChunks }
  evaluateProtection G (exchangeHeat afterCoolant)

/-- The other tick order named by the specification: thermals, then flux solve, then
burnup. -/
def thermalFirstOrder (core : Core) (deltaTime : ℚ) : Core :=
  ((core.calculateCoreThermals deltaTime).calculateMultiGroupNeutronFlux
    deltaTime).updateFuelBurnup deltaTime

end MainSimulation

namespace Core

/-- Total neutron population over the Fuel elements of the core. -/
def totalFuelPopulation (c : Core) : ℚ :=
  ((c.elements.filter (fun e => decide (e.material = MaterialType.Fuel))).map
    (fun e => e.neutronPopulation)).sum

/-- The total that the specification predicts after one thermal pass: the sum over the
Fuel cells of the grid of `N * (1 + r)`, with `r` the reactivity rule at the cell. -/
def predictedFuelPopulation (c : Core) : ℚ :=
  (c.allCells.map (fun p =>
    match c.cellAt p.1 p.2.1 p.2.2 with
    | some e =>
      if e.material = MaterialType.Fuel then
        e.neutronPopulation * (1 + c.reactivityRule p.1 p.2.1 p.2.2 e.temperature)
      else 0
    | none => 0)).sum

end Core

/-! ## Lock discipline -/

/-- The mutexes of the program: `Core::coreMutex`, `CoolantLoop::coolantMutex` and
`MainSimulation::ioMutex`. -/
inductive Guard where
  | coreMutex
  | coolantMutex
  | ioMutex
deriving DecidableEq, Repr

/-- The objects shared between the simulation thread and the command thread. -/
inductive Resource where
  | core
  | coolantLoop
deriving DecidableEq, Repr

/-- The mutex returned by `getMutex()` of the resource. -/
def Resource.guard : Resource → Guard
  | Resource.core => Guard.coreMutex
  | Resource.coolantLoop => Guard.coolantMutex

/-- What one thread does, in program order: construct a `std::lock_guard` on a mutex,
leave its scope, call a mutating member function of a shared resource, or print. -/
inductive Event where
  | acquire (g : Guard)
  | release (g : Guard)
  | mutate (r : Resource)
  | print
deriving DecidableEq, Repr

/-- Every `mutate` event of the trace happens while the guard of its resource is held,
`held` being the guards held at the start. -/
def guardedFrom (held : List Guard) : List Event → Bool
  | [] => true
  | Event.acquire g :: rest => guardedFrom (g :: held) rest
  | Event.release g :: rest => guardedFrom (held.erase g) rest
  | Event.mutate r :: rest => decide (r.guard ∈ held) && guardedFrom held rest
  | Event.print :: rest => guardedFrom held rest

namespace MainSimulation

/-- Events of one call of `adjustControlRods`: the range check, then
`core.setControlRodInsertion` and the print; no `lock_guard` is constructed. -/
def adjustControlRodsEvents (insertionDepth : ℚ) : List Event :=
  if insertionDepth < 0 ∨ insertionDepth > 1 then [Event.print]
  else [Event.mutate Resource.core, Event.print]

/-- Events of one call of `initiateCasualty`: `coolantLoop.setLeak(true)` or
`core.increaseReactivity(0.1)`, then the print; no `lock_guard` is constructed. -/
def initiateCasualtyEvents (casualtyType : List Char) : List Event :=
  if casualtyType = "leak".toList then [Event.mutate Resource.coolantLoop, Event.print]
  else if casualtyType = "power surge".toList then [Event.mutate Resource.core, Event.print]
  else [Event.print]

/-- Events of the two guarded blocks that open `iterate`: the three core passes under
`core.getMutex()`, then `advanceLoop` and `updateCoolantChunks` under
`coolantLoop.getMutex()`. -/
def iterateBlocksEvents : List Event :=
  [Event.acquire Guard.coreMutex, Event.mutate Resource.core, Event.mutate Resource.core,
   Event.mutate Resource.core, Event.release Guard.coreMutex,
   Event.acquire Guard.coolantMutex, Event.mutate Resource.coolantLoop,
   Event.mutate Resource.coolantLoop, Event.release Guard.coolantMutex]

end MainSimulation

/-! ## Properties of ProtectiveActionLogic -/

namespace ProtectiveActionLogic

theorem evaluateConditions_scram_of_scram (p : ProtectiveActionLogic) (t f : ℚ)
    (h : p.scramInitiated = true) : (p.evaluateConditions t f).scramInitiated = true := by
  unfold evaluateConditions
  split <;> simp [h]

/-- Claim C1: for a freshly constructed ProtectiveActionLogic and all inputs `t`, `f`,
after `evaluateConditions t f` the SCRAM flag is set exactly when `t ≥ 2000` or
`f ≤ 0.5`; `(2000, 1)` and `(1999.9, 0.4)` set it, `(1999.9, 0.6)` leaves it clear. -/
theorem scram_trigger_iff :
    (∀ t f : ℚ, (new.evaluateConditions t f).isScramInitiated = true ↔ (t ≥ 2000 ∨ f ≤ 1 / 2)) ∧
    (new.evaluateConditions 2000 1).isScramInitiated = true ∧
    (new.evaluateConditions (19999 / 10) (4 / 10)).isScramInitiated = true ∧
    (new.evaluateConditions (19999 / 10) (6 / 10)).isScramInitiated = false := by
  have key : ∀ t f : ℚ,
      (new.evaluateConditions t f).isScramInitiated = true ↔ (t ≥ 2000 ∨ f ≤ 1 / 2) := by
    intro t f
    unfold evaluateConditions isScramInitiated temperatureThreshold flowRateThreshold new
    by_cases h : t ≥ 2000 ∨ f ≤ 1 / 2
    · rw [if_pos h]; exact ⟨fun _ => h, fun _ => rfl⟩
    · rw [if_neg h]; exact ⟨fun hc => Bool.noConfusion hc, fun hc => absurd hc h⟩
  refine ⟨key, (key _ _).2 (Or.inl (by norm_num)), (key _ _).2 (Or.inr (by norm_num)), ?_⟩
  have hn : ¬ ((19999 / 10 : ℚ) ≥ 2000 ∨ (6 / 10 : ℚ) ≤ 1 / 2) := by norm_num
  have := (key (19999 / 10) (6 / 10)).not.2 hn
  simpa using this

/-- Claim C2: the SCRAM flag is a one-way latch: from any state with the flag set, every
sequence of `evaluateConditions` calls with arbitrary inputs leaves the flag set. -/
theorem scram_latched (p : ProtectiveActionLogic) (samples : List (ℚ × ℚ))
    (h : p.scramInitiated = true) : (p.evaluateAll samples).scramInitiated = true := by
  unfold evaluateAll
  induction samples generalizing p with
  | nil => simpa using h
  | cons s rest ih =>
    simp only [List.foldl_cons]
    exact ih _ (evaluateConditions_scram_of_scram p s.1 s.2 h)

theorem scram_latched_witness :
    (new.evaluateConditions 2500 1).scramInitiated = true ∧
    ((new.evaluateConditions 2500 1).evaluateAll [(300, 1), (0, 9), (-5, 3)]).scramInitiated
      = true :=
  ⟨by decide, scram_latched (new.evaluateConditions 2500 1) [(300, 1), (0, 9), (-5, 3)]
    (by decide)⟩

end ProtectiveActionLogic

/-! ## Properties of CoolantLoop -/

namespace CoolantLoop

theorem advanceLoop_hasLeak (l : CoolantLoop) : l.advanceLoop.hasLeak = l.hasLeak := rfl

theorem flow_eq_rotate (cs : List CoolantChunk) :
    (match cs with
      | [] => []
      | frontChunk :: rest => rest ++ [frontChunk]) = cs.rotate 1 := by
  cases cs with
  | nil => rfl
  | cons a rest => simp [List.rotate_cons_succ]

theorem advanceLoop_chunks (l : CoolantLoop) :
    l.advanceLoop.chunks =
      (if l.hasLeak = true ∧ l.chunks ≠ [] then l.chunks.dropLast else l.chunks).rotate 1 := by
  unfold advanceLoop
  simp only [flow_eq_rotate]
  by_cases h : l.hasLeak = true ∧ l.chunks ≠ []
  · have hb : (l.hasLeak && !l.chunks.isEmpty) = true := by
      simp [h.1, List.isEmpty_iff, h.2]
    simp [hb, h]
  · have hb : (l.hasLeak && !l.chunks.isEmpty) = false := by
      by_cases h1 : l.hasLeak = true
      · have : l.chunks = [] := by
          by_contra hne
          exact h ⟨h1, hne⟩
        simp [this]
      · simp [h1]
    simp [hb, h]

theorem advanceLoop_length_of_leak (l : CoolantLoop) (h : l.hasLeak = true) :
    l.advanceLoop.chunks.length = l.chunks.length - 1 := by
  rw [advanceLoop_chunks]
  by_cases hne : l.chunks = []
  · simp [hne]
  · simp [h, hne]

theorem iterate_hasLeak (l : CoolantLoop) (k : Nat) :
    (advanceLoop^[k] l).hasLeak = l.hasLeak := by
  induction k generalizing l with
  | zero => rfl
  | succ k ih => rw [Function.iterate_succ_apply, ih, advanceLoop_hasLeak]

theorem iterate_length_of_leak (l : CoolantLoop) (h : l.hasLeak = true) (k : Nat) :
    (advanceLoop^[k] l).chunks.length = l.chunks.length - k := by
  induction k with
  | zero => rfl
  | succ k ih =>
    rw [Function.iterate_succ_apply', advanceLoop_length_of_leak _
      ((iterate_hasLeak l k).trans h), ih]
    omega

/-- Claim C5 (leak drain): with the leak enabled, a loop of `n` chunks holds exactly
`n - k` chunks after `k ≤ n` calls of `advanceLoop`, one chunk less after each call
made on a non-empty loop, and is empty after `n` calls and after every later call. -/
theorem leak_drain (l : CoolantLoop) (h : l.hasLeak = true) :
    (∀ k, k ≤ l.getChunkCount → (advanceLoop^[k] l).getChunkCount = l.getChunkCount - k) ∧
    (∀ k, (advanceLoop^[k] l).chunks ≠ [] →
      (advanceLoop^[k + 1] l).getChunkCount + 1 = (advanceLoop^[k] l).getChunkCount) ∧
    (advanceLoop^[l.getChunkCount] l).chunks = [] ∧
    (∀ k, l.getChunkCount ≤ k → (advanceLoop^[k] l).chunks = []) := by
  have hlen := iterate_length_of_leak l h
  refine ⟨fun k _ => hlen k, ?_, ?_, ?_⟩
  · intro k hk
    have hpos : 0 < (advanceLoop^[k] l).chunks.length := List.length_pos.2 hk
    unfold getChunkCount
    rw [hlen (k + 1)]
    rw [hlen k] at hpos ⊢
    omega
  · apply List.eq_nil_of_length_eq_zero
    rw [hlen]
    unfold getChunkCount
    omega
  · intro k hk
    apply List.eq_nil_of_length_eq_zero
    rw [hlen]
    unfold getChunkCount at hk
    omega

theorem leak_drain_witness :
    ((new 100).setLeak true).hasLeak = true ∧
    ((new 100).setLeak true).getChunkCount = 100 ∧
    (advanceLoop^[99] ((new 100).setLeak true)).getChunkCount = 1 ∧
    (advanceLoop^[100] ((new 100).setLeak true)).chunks = [] ∧
    (advanceLoop^[101] ((new 100).setLeak true)).chunks = [] := by
  have hc : ((new 100).setLeak true).getChunkCount = 100 := by
    simp [new, setLeak, getChunkCount]
  have hd := leak_drain ((new 100).setLeak true) rfl
  refine ⟨rfl, hc, ?_, ?_, ?_⟩
  · rw [hd.1 99 (by rw [hc]; decide), hc]
  · have := hd.2.2.1
    rwa [hc] at this
  · exact hd.2.2.2 101 (by rw [hc]; decide)

/-- Claim C6: `advanceLoop` equals the reference step (drop the tail chunk if leaking
and non-empty, then move the head chunk to the tail); without a leak the new sequence
is the old one rotated left by one (same length, same chunks); the chunk count never
grows, and it shrinks only when `hasLeak` is set. -/
theorem advanceLoop_refines_reference (l : CoolantLoop) :
    l.advanceLoop = l.advanceLoopReference ∧
    (l.hasLeak = false →
      l.advanceLoop.chunks = l.chunks.rotate 1 ∧
      l.advanceLoop.chunks.length = l.chunks.length ∧
      l.advanceLoop.chunks.Perm l.chunks ∧
      l.advanceLoop.chunks.IsRotated l.chunks) ∧
    l.advanceLoop.chunks.length ≤ l.chunks.length ∧
    (l.advanceLoop.chunks.length < l.chunks.length → l.hasLeak = true) := by
  have hnl : l.hasLeak = false → l.advanceLoop.chunks = l.chunks.rotate 1 := by
    intro h
    rw [advanceLoop_chunks]
    simp [h]
  refine ⟨?_, ?_, ?_, ?_⟩
  · have hc := advanceLoop_chunks l
    have href : l.advanceLoopReference.chunks =
        (if l.hasLeak = true ∧ l.chunks ≠ [] then l.chunks.dropLast else l.chunks).rotate 1 := by
      unfold advanceLoopReference
      simp only [List.dropLast_eq_take]
      generalize (if l.hasLeak = true ∧ l.chunks ≠ [] then l.chunks.take (l.chunks.length - 1)
        else l.chunks) = d
      cases d with
      | nil => rfl
      | cons a rest => simp [List.rotate_cons_succ]
    have h1 : l.advanceLoop.hasLeak = l.advanceLoopReference.hasLeak := rfl
    cases hA : l.advanceLoop with
    | mk a b =>
      cases hB : l.advanceLoopReference with
      | mk a' b' =>
        rw [hA] at hc h1
        rw [hB] at href h1
        simp only at hc href h1
        rw [hc, href, h1]
  · intro h
    have := hnl h
    refine ⟨this, ?_, ?_, ?_⟩
    · rw [this, List.length_rotate]
    · rw [this]; exact List.rotate_perm _ _
    · rw [this]; exact (List.IsRotated.refl _).symm.trans ⟨1, rfl⟩ |>.symm
  · rw [advanceLoop_chunks]
    rw [List.length_rotate]
    split
    · simp
    · exact le_rfl
  · intro hlt
    by_contra hno
    have hf : l.hasLeak = false := by simpa using hno
    rw [hnl hf, List.length_rotate] at hlt
    exact lt_irrefl _ hlt

end CoolantLoop

/-! ## Loops: general lemmas -/

theorem mem_upTo (lo hi v : Int) : v ∈ upTo lo hi ↔ lo ≤ v ∧ v < hi := by
  unfold upTo
  simp only [List.mem_map, List.mem_range]
  constructor
  · rintro ⟨k, hk, rfl⟩
    omega
  · rintro ⟨h1, h2⟩
    exact ⟨(v - lo).toNat, by omega, by omega⟩

theorem nodup_upTo (lo hi : Int) : (upTo lo hi).Nodup := by
  unfold upTo
  refine List.Nodup.map ?_ (List.nodup_range _)
  intro a b h
  simp only at h
  omega

theorem mem_loopNest (xs ys zs : List Int) (p : Int × Int × Int) :
    p ∈ loopNest xs ys zs ↔ p.1 ∈ xs ∧ p.2.1 ∈ ys ∧ p.2.2 ∈ zs := by
  obtain ⟨x, y, z⟩ := p
  unfold loopNest
  simp only [List.mem_flatMap, List.mem_map, Prod.mk.injEq]
  constructor
  · rintro ⟨a, ha, b, hb, c, hc, rfl, rfl, rfl⟩
    exact ⟨ha, hb, hc⟩
  · rintro ⟨ha, hb, hc⟩
    exact ⟨x, ha, y, hb, z, hc, rfl, rfl, rfl⟩

theorem getElem?_modifyAt {α : Type} (v : List α) (i : Int) (f : α → α) (n : Nat) :
    (modifyAt v i f)[n]? = if i = (n : Int) then (v[n]?).map f else v[n]? := by
  unfold modifyAt
  by_cases hi : 0 ≤ i
  · rw [if_pos hi, List.getElem?_modify]
    by_cases hn : i.toNat = n
    · have : i = (n : Int) := by omega
      simp [hn, this]
    · have : ¬ i = (n : Int) := by omega
      simp [hn, this]
  · have : ¬ i = (n : Int) := by omega
    simp [hi, this]

theorem length_modifyAt {α : Type} (v : List α) (i : Int) (f : α → α) :
    (modifyAt v i f).length = v.length := by
  unfold modifyAt
  split
  · exact List.length_modify _ _ _
  · rfl

theorem foldl_invariant {σ ι : Type} (Q : σ → Prop) (f : σ → ι → σ) (L : List ι) (s : σ)
    (h0 : Q s) (hstep : ∀ t i, i ∈ L → Q t → Q (f t i)) : Q (L.foldl f s) := by
  induction L generalizing s with
  | nil => exact h0
  | cons a rest ih =>
    simp only [List.foldl_cons]
    exact ih _ (hstep s a (List.mem_cons_self _ _) h0)
      (fun t i hi ht => hstep t i (List.mem_cons_of_mem _ hi) ht)

theorem map_modifyAt_of_proj {α β : Type} (proj : α → β) (v : List α) (i : Int) (f : α → α)
    (hf : ∀ a, proj (f a) = proj a) : (modifyAt v i f).map proj = v.map proj := by
  apply List.ext_getElem?
  intro n
  rw [List.getElem?_map, List.getElem?_map, getElem?_modifyAt]
  split
  · cases v[n]? <;> simp [hf]
  · rfl

theorem forall_mem_modifyAt {α : Type} (Q : α → Prop) (v : List α) (i : Int) (f : α → α)
    (hv : ∀ a ∈ v, Q a) (hf : ∀ a, Q a → Q (f a)) : ∀ a ∈ modifyAt v i f, Q a := by
  intro a ha
  obtain ⟨n, hn⟩ := List.getElem?_of_mem ha
  rw [getElem?_modifyAt] at hn
  split at hn
  · cases hv' : v[n]? with
    | none => rw [hv'] at hn; cases hn
    | some b =>
      rw [hv'] at hn
      simp only [Option.map_some', Option.some.injEq] at hn
      rw [← hn]
      exact hf b (hv b (List.getElem?_mem hv'))
  · exact hv a (List.getElem?_mem hn)

/-- A loop of in-place updates by one idempotent function: an entry is updated once if
its index is visited, and is otherwise untouched. -/
theorem getElem?_foldl_modifyAt_idem {α P : Type} (idx : P → Int) (f : α → α)
    (hf : ∀ a, f (f a) = f a) (L : List P) (v : List α) (n : Nat) :
    (L.foldl (fun s p => modifyAt s (idx p) f) v)[n]? =
      if (n : Int) ∈ L.map idx then (v[n]?).map f else v[n]? := by
  induction L generalizing v with
  | nil => simp
  | cons q rest ih =>
    simp only [List.foldl_cons, List.map_cons, List.mem_cons]
    rw [ih, getElem?_modifyAt]
    by_cases h1 : idx q = (n : Int)
    · have hff : Option.map f (Option.map f v[n]?) = Option.map f v[n]? := by
        cases v[n]? <;> simp [hf]
      simp [h1, hff]
    · have h1' : ¬ (n : Int) = idx q := fun h => h1 h.symm
      simp [h1, h1']

/-- A loop of in-place updates visiting pairwise distinct indices, where the update may
read the array but only through a projection that no update changes: every visited
entry receives its update computed on the initial array, other entries are untouched. -/
theorem getElem?_foldl_modifyAt_nodup {α β P : Type} (idx : P → Int)
    (F : List α → P → α → α) (proj : α → β)
    (hproj : ∀ s p a, proj (F s p a) = proj a)
    (hF : ∀ s t p, s.map proj = t.map proj → F s p = F t p)
    (v0 : List α) (L : List P) (v : List α)
    (hv : v.map proj = v0.map proj) (hnd : (L.map idx).Nodup) :
    (∀ n : Nat, (∀ p ∈ L, idx p ≠ (n : Int)) →
      (L.foldl (fun s p => modifyAt s (idx p) (F s p)) v)[n]? = v[n]?) ∧
    (∀ p ∈ L, ∀ n : Nat, idx p = (n : Int) →
      (L.foldl (fun s p => modifyAt s (idx p) (F s p)) v)[n]? = (v[n]?).map (F v0 p)) := by
  induction L generalizing v with
  | nil => simp
  | cons q rest ih =>
    simp only [List.map_cons, List.nodup_cons] at hnd
    have hv' : (modifyAt v (idx q) (F v q)).map proj = v0.map proj := by
      rw [map_modifyAt_of_proj proj v (idx q) (F v q) (hproj v q)]
      exact hv
    obtain ⟨ih1, ih2⟩ := ih (modifyAt v (idx q) (F v q)) hv' hnd.2
    simp only [List.foldl_cons]
    constructor
    · intro n hn
      rw [ih1 n (fun p hp => hn p (List.mem_cons_of_mem _ hp)), getElem?_modifyAt]
      rw [if_neg (hn q (List.mem_cons_self _ _))]
    · intro p hp n hpn
      rcases List.mem_cons.1 hp with rfl | hp'
      · rw [ih1 n, getElem?_modifyAt, if_pos hpn, hF v v0 p hv]
        intro r hr hrn
        apply hnd.1
        rw [hpn, ← hrn]
        exact List.mem_map_of_mem idx hr
      · rw [ih2 p hp' n hpn, getElem?_modifyAt]
        have hne : ¬ idx q = (n : Int) := by
          intro hq
          apply hnd.1
          rw [hq, ← hpn]
          exact List.mem_map_of_mem idx hp'
        rw [if_neg hne]

/-! ## Control-rod operations -/

namespace Core

theorem scramUpdate_idem (G : Nat) (e : CoreElement) :
    scramUpdate G (scramUpdate G e) = scramUpdate G e := by
  unfold scramUpdate
  by_cases h : e.material = MaterialType.Fuel
  · simp [h, CoreElement.new]
  · simp [h]

theorem rodIn_idem (e : CoreElement) : rodIn (rodIn e) = rodIn e := by
  unfold rodIn
  by_cases h : e.material = MaterialType.Fuel
  · simp [h, CoreElement.setMaterial]
  · simp [h]

theorem rodOut_idem (e : CoreElement) : rodOut (rodOut e) = rodOut e := by
  unfold rodOut
  by_cases h : e.material = MaterialType.ControlRod
  · simp [h, CoreElement.setMaterial]
  · simp [h]

theorem rodIn_of_controlRod (e : CoreElement) (h : e.material = MaterialType.ControlRod) :
    rodIn e = e := by
  unfold rodIn
  simp [h]

theorem rodOut_material_ne (e : CoreElement) :
    (rodOut e).material ≠ MaterialType.ControlRod := by
  unfold rodOut
  by_cases h : e.material = MaterialType.ControlRod
  · simp [h, CoreElement.setMaterial]
  · simp [h]

/-- Claim C3: `insertControlRods` is idempotent: on every core state, a second call
right after the first leaves the whole core (all cell states, hence the material layout)
as the first call left it. -/
theorem insertControlRods_idempotent (G : Nat) (c : Core) :
    (c.insertControlRods G).insertControlRods G = c.insertControlRods G := by
  have hcells : (c.insertControlRods G).scramCells = c.scramCells := rfl
  have hidx : (c.insertControlRods G).index = c.index := rfl
  unfold insertControlRods
  simp only [scramCells, index] at hcells hidx ⊢
  congr 1
  apply List.ext_getElem?
  intro n
  rw [getElem?_foldl_modifyAt_idem (fun p : Int × Int × Int =>
        p.1 * (c.ySize : Int) * (c.zSize : Int) + p.2.1 * (c.zSize : Int) + p.2.2)
      (scramUpdate G) (scramUpdate_idem G),
    getElem?_foldl_modifyAt_idem (fun p : Int × Int × Int =>
        p.1 * (c.ySize : Int) * (c.zSize : Int) + p.2.1 * (c.zSize : Int) + p.2.2)
      (scramUpdate G) (scramUpdate_idem G)]
  split
  · cases c.elements[n]? <;> simp [scramUpdate_idem]
  · rfl

end Core

theorem countP_le_of_pointwise {α : Type} (p q : α → Bool) (l1 l2 : List α)
    (hlen : l1.length = l2.length)
    (h : ∀ (n : Nat) (a : α), l1[n]? = some a → p a = true →
      ∃ b, l2[n]? = some b ∧ q b = true) :
    l1.countP p ≤ l2.countP q := by
  induction l1 generalizing l2 with
  | nil => simp
  | cons a rest ih =>
    cases l2 with
    | nil => simp at hlen
    | cons b rest2 =>
      have hrest : rest.countP p ≤ rest2.countP q := by
        apply ih rest2 (by simpa using hlen)
        intro n x hx hpx
        have := h (n + 1) x (by simpa using hx) hpx
        simpa using this
      rw [List.countP_cons, List.countP_cons]
      by_cases hpa : p a = true
      · obtain ⟨b', hb', hq⟩ := h 0 a (by simp) hpa
        simp only [List.getElem?_cons_zero, Option.some.injEq] at hb'
        subst hb'
        simp [hpa, hq, hrest]
      · have hz : (if p a = true then 1 else 0) = 0 := if_neg hpa
        rw [hz]
        exact le_trans hrest (Nat.le_add_right _ _)

/-! ## Rounding to `double` -/

theorem roundHalfEven_intCast (n : Int) : roundHalfEven (n : ℚ) = n := by
  unfold roundHalfEven
  simp

theorem roundHalfEven_bounds (q : ℚ) : ⌊q⌋ ≤ roundHalfEven q ∧ roundHalfEven q ≤ ⌊q⌋ + 1 := by
  unfold roundHalfEven
  simp only
  split
  · omega
  · split
    · omega
    · split <;> omega

theorem roundHalfEven_mono (x y : ℚ) (h : x ≤ y) : roundHalfEven x ≤ roundHalfEven y := by
  have hfl : ⌊x⌋ ≤ ⌊y⌋ := Int.floor_le_floor h
  rcases lt_or_eq_of_le hfl with hlt | heq
  · have h1 := (roundHalfEven_bounds x).2
    have h2 := (roundHalfEven_bounds y).1
    omega
  · have hr : x - ⌊x⌋ ≤ y - ⌊y⌋ := by
      rw [heq]
      linarith
    unfold roundHalfEven
    simp only
    rw [heq] at hr ⊢
    by_cases hx1 : x - (⌊y⌋ : ℚ) < 1 / 2
    · rw [if_pos hx1]
      split
      · exact le_refl _
      · split
        · omega
        · split <;> omega
    · rw [if_neg hx1]
      have hy1 : ¬ (y - (⌊y⌋ : ℚ) < 1 / 2) := fun h' => hx1 (lt_of_le_of_lt hr h')
      rw [if_neg hy1]
      by_cases hx2 : 1 / 2 < x - (⌊y⌋ : ℚ)
      · rw [if_pos hx2, if_pos (lt_of_lt_of_le hx2 hr)]
      · rw [if_neg hx2]
        by_cases hy2 : 1 / 2 < y - (⌊y⌋ : ℚ)
        · rw [if_pos hy2]
          split <;> omega
        · rw [if_neg hy2]

/-- Rounding to a multiple of a positive quantum is monotone. -/
theorem roundQuantum_mono (u x y : ℚ) (hu : 0 < u) (h : x ≤ y) :
    (roundHalfEven (x / u) : ℚ) * u ≤ roundHalfEven (y / u) * u := by
  apply mul_le_mul_of_nonneg_right _ (le_of_lt hu)
  exact_mod_cast roundHalfEven_mono _ _ (div_le_div_of_nonneg_right h (le_of_lt hu))

/-- A power of two at or above the quantum is a multiple of it. -/
theorem roundQuantum_zpow (k m : Int) (h : k ≤ m) :
    (roundHalfEven ((2 : ℚ) ^ m / 2 ^ k) : ℚ) * 2 ^ k = 2 ^ m := by
  have h2 : (2 : ℚ) ≠ 0 := by norm_num
  have hdiv : (2 : ℚ) ^ m / 2 ^ k = (((2 : Int) ^ (m - k).toNat : Int) : ℚ) := by
    rw [← zpow_sub₀ h2]
    push_cast
    rw [← zpow_natCast]
    congr 1
    omega
  rw [hdiv, roundHalfEven_intCast, ← hdiv]
  field_simp

/-- An integer is a multiple of every quantum `2 ^ k` with `k ≤ 0`. -/
theorem roundQuantum_intCast (k : Int) (hk : k ≤ 0) (n : Int) :
    (roundHalfEven ((n : ℚ) / 2 ^ k) : ℚ) * 2 ^ k = n := by
  have h2 : (2 : ℚ) ≠ 0 := by norm_num
  have hdiv : (n : ℚ) / 2 ^ k = ((n * (2 : Int) ^ (-k).toNat : Int) : ℚ) := by
    push_cast
    rw [← zpow_natCast, div_eq_mul_inv, ← zpow_neg]
    congr 2
    omega
  rw [hdiv, roundHalfEven_intCast, ← hdiv]
  field_simp

theorem toDouble_nonneg (q : ℚ) (h : 0 ≤ q) : 0 ≤ toDouble q := by
  unfold toDouble
  split
  · exact le_refl _
  · simp only
    apply mul_nonneg _ (le_of_lt (zpow_pos (by norm_num) _))
    have h0 : (0 : ℚ) ≤ q / 2 ^ max (Int.log 2 |q| - 52) (-1074) :=
      div_nonneg h (le_of_lt (zpow_pos (by norm_num) _))
    have := roundHalfEven_mono _ _ h0
    rw [show roundHalfEven (0 : ℚ) = 0 from roundHalfEven_intCast 0] at this
    exact_mod_cast this

theorem toDouble_mono_of_nonneg (a b : ℚ) (ha : 0 ≤ a) (hab : a ≤ b) :
    toDouble a ≤ toDouble b := by
  rcases eq_or_lt_of_le ha with ha0 | hapos
  · rw [← ha0]
    have : toDouble 0 = 0 := by
      unfold toDouble
      rw [if_pos rfl]
    rw [this]
    exact toDouble_nonneg b (le_trans ha hab)
  · have hbpos : 0 < b := lt_of_lt_of_le hapos hab
    have elog : Int.log 2 a ≤ Int.log 2 b := Int.log_mono_right hapos hab
    unfold toDouble
    rw [if_neg (ne_of_gt hapos), if_neg (ne_of_gt hbpos), abs_of_pos hapos, abs_of_pos hbpos]
    simp only
    rcases eq_or_lt_of_le (max_le_max (sub_le_sub_right elog 52) (le_refl (-1074 : Int)))
      with hk | hk
    · rw [hk]
      exact roundQuantum_mono _ a b (zpow_pos (by norm_num) _) hab
    · -- the quanta differ: the power of two `2 ^ Int.log 2 b` separates the results
      have hkb : max (Int.log 2 b - 52) (-1074) ≤ Int.log 2 b := by
        rcases le_total (Int.log 2 b - 52) (-1074) with h | h
        · rw [max_eq_right h] at hk ⊢
          have := le_max_right (Int.log 2 a - 52) (-1074)
          omega
        · rw [max_eq_left h]
          omega
      have hka : max (Int.log 2 a - 52) (-1074) ≤ Int.log 2 b := le_trans (le_of_lt hk) hkb
      have hlt : Int.log 2 a < Int.log 2 b := by
        by_contra hcon
        have : Int.log 2 a = Int.log 2 b := le_antisymm elog (not_lt.1 hcon)
        rw [this] at hk
        exact lt_irrefl _ hk
      have hale : a ≤ (2 : ℚ) ^ Int.log 2 b := by
        have h1 : a < (2 : ℚ) ^ (Int.log 2 a + 1) := by
          exact_mod_cast Int.lt_zpow_succ_log_self (by norm_num : 1 < 2) a
        have h2 : (2 : ℚ) ^ (Int.log 2 a + 1) ≤ 2 ^ Int.log 2 b :=
          zpow_le_zpow_right₀ (by norm_num) (by omega)
        exact le_of_lt (lt_of_lt_of_le h1 h2)
      have hble : (2 : ℚ) ^ Int.log 2 b ≤ b := by
        exact_mod_cast Int.zpow_log_le_self (by norm_num : 1 < 2) hbpos
      calc (roundHalfEven (a / 2 ^ max (Int.log 2 a - 52) (-1074)) : ℚ)
              * 2 ^ max (Int.log 2 a - 52) (-1074)
          ≤ roundHalfEven ((2 : ℚ) ^ Int.log 2 b / 2 ^ max (Int.log 2 a - 52) (-1074))
              * 2 ^ max (Int.log 2 a - 52) (-1074) :=
            roundQuantum_mono _ _ _ (zpow_pos (by norm_num) _) hale
        _ = 2 ^ Int.log 2 b := roundQuantum_zpow _ _ hka
        _ = roundHalfEven ((2 : ℚ) ^ Int.log 2 b / 2 ^ max (Int.log 2 b - 52) (-1074))
              * 2 ^ max (Int.log 2 b - 52) (-1074) := (roundQuantum_zpow _ _ hkb).symm
        _ ≤ roundHalfEven (b / 2 ^ max (Int.log 2 b - 52) (-1074))
              * 2 ^ max (Int.log 2 b - 52) (-1074) :=
            roundQuantum_mono _ _ _ (zpow_pos (by norm_num) _) hble

/-- A natural number below `2 ^ 53` is a `double`. -/
theorem toDouble_natCast (n : Nat) (h : n < 2 ^ 53) : toDouble (n : ℚ) = n := by
  unfold toDouble
  split
  · rename_i h0
    exact h0.symm
  · rename_i h0
    simp only
    have hpos : 0 < n := Nat.pos_of_ne_zero (fun hn => h0 (by rw [hn]; rfl))
    have habs : |(n : ℚ)| = ((n : Nat) : ℚ) := abs_of_nonneg (Nat.cast_nonneg n)
    rw [habs, Int.log_natCast]
    have hlog : Nat.log 2 n < 53 := Nat.log_lt_of_lt_pow (Nat.pos_iff_ne_zero.1 hpos) h
    have hk : max (((Nat.log 2 n : Nat) : Int) - 52) (-1074) ≤ 0 := by
      apply max_le <;> omega
    have := roundQuantum_intCast _ hk (n : Int)
    exact_mod_cast this

theorem truncToInt_mono_of_nonneg (a b : ℚ) (ha : 0 ≤ a) (hab : a ≤ b) :
    truncToInt a ≤ truncToInt b := by
  unfold truncToInt
  rw [if_pos ha, if_pos (le_trans ha hab)]
  exact Int.floor_le_floor hab

namespace Core

theorem maxInsertionLevel_mono (c : Core) (d1 d2 : ℚ) (h0 : 0 ≤ d1) (h12 : d1 ≤ d2) :
    c.maxInsertionLevel d1 ≤ c.maxInsertionLevel d2 := by
  unfold maxInsertionLevel
  have hz : (0 : ℚ) ≤ toDouble (c.zSize : ℚ) := toDouble_nonneg _ (Nat.cast_nonneg _)
  have hd1 : 0 ≤ toDouble d1 := toDouble_nonneg d1 h0
  have hd : toDouble d1 ≤ toDouble d2 := toDouble_mono_of_nonneg d1 d2 h0 h12
  exact truncToInt_mono_of_nonneg _ _ (toDouble_nonneg _ (mul_nonneg hd1 hz))
    (toDouble_mono_of_nonneg _ _ (mul_nonneg hd1 hz) (mul_le_mul_of_nonneg_right hd hz))

theorem mem_withdrawnCells (c : Core) (level : Int) (p : Int × Int × Int) :
    p ∈ c.withdrawnCells level ↔
      (0 ≤ p.1 ∧ p.1 < c.xSize) ∧ (0 ≤ p.2.1 ∧ p.2.1 < c.ySize) ∧
      (0 ≤ p.2.2 ∧ p.2.2 < c.zSize - level) := by
  unfold withdrawnCells
  rw [mem_loopNest, mem_upTo, mem_upTo, mem_upTo]

/-- Elements of the array after `setControlRodInsertion`, entry by entry. -/
theorem getElem?_setControlRodInsertion (c : Core) (d : ℚ) (n : Nat) :
    (c.setControlRodInsertion d).elements[n]? =
      if (n : Int) ∈ (c.withdrawnCells (c.maxInsertionLevel d)).map
          (fun p => c.index p.1 p.2.1 p.2.2) then
        ((if (n : Int) ∈ (c.insertedCells (c.maxInsertionLevel d)).map
            (fun p => c.index p.1 p.2.1 p.2.2) then (c.elements[n]?).map rodIn
          else c.elements[n]?)).map rodOut
      else
        (if (n : Int) ∈ (c.insertedCells (c.maxInsertionLevel d)).map
            (fun p => c.index p.1 p.2.1 p.2.2) then (c.elements[n]?).map rodIn
          else c.elements[n]?) := by
  unfold setControlRodInsertion
  simp only
  rw [getElem?_foldl_modifyAt_idem (fun p : Int × Int × Int => c.index p.1 p.2.1 p.2.2)
      rodOut rodOut_idem,
    getElem?_foldl_modifyAt_idem (fun p : Int × Int × Int => c.index p.1 p.2.1 p.2.2)
      rodIn rodIn_idem]

theorem length_foldl_modifyAt {α P : Type} (idx : P → Int) (F : List α → P → α → α)
    (L : List P) (v : List α) :
    (L.foldl (fun s p => modifyAt s (idx p) (F s p)) v).length = v.length := by
  apply foldl_invariant (fun s : List α => s.length = v.length)
  · rfl
  · intro t i _ ht
    rw [length_modifyAt, ht]

theorem length_setControlRodInsertion (c : Core) (d : ℚ) :
    (c.setControlRodInsertion d).elements.length = c.elements.length := by
  unfold setControlRodInsertion
  simp only
  rw [length_foldl_modifyAt (fun p : Int × Int × Int => c.index p.1 p.2.1 p.2.2)
      (fun _ _ => rodOut),
    length_foldl_modifyAt (fun p : Int × Int × Int => c.index p.1 p.2.1 p.2.2)
      (fun _ _ => rodIn)]

/-- After `setControlRodInsertion d` no ControlRod cell lies at an index visited by the
withdrawal loop. -/
theorem controlRod_not_withdrawn (c : Core) (d : ℚ) (n : Nat) (e : CoreElement)
    (he : (c.setControlRodInsertion d).elements[n]? = some e)
    (hm : e.material = MaterialType.ControlRod) :
    (n : Int) ∉ (c.withdrawnCells (c.maxInsertionLevel d)).map
      (fun p => c.index p.1 p.2.1 p.2.2) := by
  intro hmem
  rw [getElem?_setControlRodInsertion, if_pos hmem] at he
  obtain ⟨a, _, ha⟩ := Option.map_eq_some'.1 he
  exact rodOut_material_ne a (ha ▸ hm)

/-- Claim C4: for every core and depths `0 ≤ d1 < d2 ≤ 1`, the number of ControlRod
cells after `setControlRodInsertion d1` followed by `setControlRodInsertion d2` is at
least the number after `setControlRodInsertion d1` alone. -/
theorem controlRodCount_monotone (c : Core) (d1 d2 : ℚ)
    (h0 : 0 ≤ d1) (h12 : d1 < d2) (_h1 : d2 ≤ 1) :
    (c.setControlRodInsertion d1).controlRodCount ≤
      ((c.setControlRodInsertion d1).setControlRodInsertion d2).controlRodCount := by
  unfold controlRodCount
  apply countP_le_of_pointwise
  · exact (length_setControlRodInsertion _ _).symm
  · intro n e he hm
    have hm' : e.material = MaterialType.ControlRod := by simpa using hm
    refine ⟨e, ?_, hm⟩
    have hnot := controlRod_not_withdrawn c d1 n e he hm'
    have hlev := c.maxInsertionLevel_mono d1 d2 h0 (le_of_lt h12)
    have hnot2 : (n : Int) ∉ ((c.setControlRodInsertion d1).withdrawnCells
        ((c.setControlRodInsertion d1).maxInsertionLevel d2)).map
        (fun p => (c.setControlRodInsertion d1).index p.1 p.2.1 p.2.2) := by
      intro hmem
      apply hnot
      obtain ⟨p, hp, hpn⟩ := List.mem_map.1 hmem
      refine List.mem_map.2 ⟨p, ?_, hpn⟩
      rw [mem_withdrawnCells] at hp ⊢
      have hlev' : c.maxInsertionLevel d1 ≤ (c.setControlRodInsertion d1).maxInsertionLevel d2 :=
        hlev
      have hx : (c.setControlRodInsertion d1).xSize = c.xSize := rfl
      have hy : (c.setControlRodInsertion d1).ySize = c.ySize := rfl
      have hz : (c.setControlRodInsertion d1).zSize = c.zSize := rfl
      rw [hx, hy, hz] at hp
      exact ⟨hp.1, hp.2.1, hp.2.2.1, by omega⟩
    rw [getElem?_setControlRodInsertion, if_neg hnot2, he]
    split
    · simp [rodIn_of_controlRod e hm']
    · rfl

theorem controlRodCount_monotone_witness :
    (0 : ℚ) ≤ 1 / 4 ∧ (1 / 4 : ℚ) < 3 / 4 ∧ (3 / 4 : ℚ) ≤ 1 ∧
    ((Core.new 2 2 5 5 5).setControlRodInsertion (1 / 4)).controlRodCount ≤
      (((Core.new 2 2 5 5 5).setControlRodInsertion (1 / 4)).setControlRodInsertion
        (3 / 4)).controlRodCount :=
  ⟨by norm_num, by norm_num, by norm_num,
    controlRodCount_monotone (Core.new 2 2 5 5 5) (1 / 4) (3 / 4)
      (by norm_num) (by norm_num) (by norm_num)⟩

end Core

/-! ## Command validation -/

namespace MainSimulation

/-- Claim C7: `adjustControlRods` validates its argument: for `d < 0` or `d > 1` the
core is returned unchanged (every cell and `controlRodInsertion`), and for `0 ≤ d ≤ 1`
the core is updated by `setControlRodInsertion d`, so that `controlRodInsertion = d`. -/
theorem adjustControlRods_validates (core : Core) (d : ℚ) :
    ((d < 0 ∨ d > 1) →
      (adjustControlRods core d).1 = core ∧
      (adjustControlRods core d).2 = Message.depthOutOfRange) ∧
    ((0 ≤ d ∧ d ≤ 1) →
      (adjustControlRods core d).1 = core.setControlRodInsertion d ∧
      (adjustControlRods core d).1.controlRodInsertion = d) := by
  unfold adjustControlRods
  constructor
  · intro h
    rw [if_pos h]
    exact ⟨rfl, rfl⟩
  · intro h
    have hn : ¬ (d < 0 ∨ d > 1) := by
      rintro (h1 | h1)
      · exact absurd h.1 (not_le.2 h1)
      · exact absurd h.2 (not_le.2 h1)
    rw [if_neg hn]
    exact ⟨rfl, rfl⟩

theorem adjustControlRods_validates_examples :
    (adjustControlRods (Core.new 2 2 4 4 4) (3 / 2)).1 = Core.new 2 2 4 4 4 ∧
    (adjustControlRods (Core.new 2 2 4 4 4) (3 / 2)).2 = Message.depthOutOfRange ∧
    (adjustControlRods (Core.new 2 2 4 4 4) (-1 / 10)).1 = Core.new 2 2 4 4 4 ∧
    (adjustControlRods (Core.new 2 2 4 4 4) (1 / 2)).1.controlRodInsertion = 1 / 2 :=
  ⟨((adjustControlRods_validates (Core.new 2 2 4 4 4) (3 / 2)).1
      (Or.inr (by norm_num))).1,
    ((adjustControlRods_validates (Core.new 2 2 4 4 4) (3 / 2)).1
      (Or.inr (by norm_num))).2,
    ((adjustControlRods_validates (Core.new 2 2 4 4 4) (-1 / 10)).1
      (Or.inl (by norm_num))).1,
    ((adjustControlRods_validates (Core.new 2 2 4 4 4) (1 / 2)).2
      ⟨by norm_num, by norm_num⟩).2⟩

end MainSimulation

/-! ## The index function on the grid -/

theorem nodup_loopNest (xs ys zs : List Int) (hx : xs.Nodup) (hy : ys.Nodup)
    (hz : zs.Nodup) : (loopNest xs ys zs).Nodup := by
  unfold loopNest
  rw [List.nodup_flatMap]
  constructor
  · intro x _
    rw [List.nodup_flatMap]
    constructor
    · intro y _
      refine List.Nodup.map ?_ hz
      intro a b h
      simp only [Prod.mk.injEq, true_and] at h
      exact h
    · refine List.Pairwise.imp ?_ hy
      intro a b hab
      simp only [Function.onFun]
      intro p hp hq
      simp only [List.mem_map] at hp hq
      obtain ⟨_, _, rfl⟩ := hp
      obtain ⟨_, _, h⟩ := hq
      simp only [Prod.mk.injEq] at h
      exact hab h.2.1.symm
  · refine List.Pairwise.imp ?_ hx
    intro a b hab
    simp only [Function.onFun]
    intro p hp hq
    simp only [List.mem_flatMap, List.mem_map] at hp hq
    obtain ⟨_, _, _, _, rfl⟩ := hp
    obtain ⟨_, _, _, _, h⟩ := hq
    simp only [Prod.mk.injEq] at h
    exact hab h.1.symm

theorem quot_rem_unique (a b r s n : Int) (hr : 0 ≤ r) (hrn : r < n) (hs : 0 ≤ s)
    (hsn : s < n) (h : a * n + r = b * n + s) : a = b ∧ r = s := by
  have hab : a = b := by
    rcases lt_trichotomy a b with hlt | heq | hgt
    · exfalso
      have h1 : (b - a - 1) * n ≥ 0 := mul_nonneg (by omega) (by omega)
      nlinarith
    · exact heq
    · exfalso
      have h1 : (a - b - 1) * n ≥ 0 := mul_nonneg (by omega) (by omega)
      nlinarith
  subst hab
  exact ⟨rfl, by omega⟩

namespace Core

theorem index_eq (c : Core) (x y z : Int) :
    c.index x y z = (x * c.ySize + y) * c.zSize + z := by
  unfold index
  ring

/-- Distinct cells of the grid have distinct indices. -/
theorem index_injective (c : Core) (x y z x' y' z' : Int)
    (h : c.inGrid x y z) (h' : c.inGrid x' y' z')
    (heq : c.index x y z = c.index x' y' z') : x = x' ∧ y = y' ∧ z = z' := by
  unfold inGrid at h h'
  rw [index_eq, index_eq] at heq
  obtain ⟨h1, h2⟩ := quot_rem_unique _ _ _ _ _ h.2.2.2.2.1 h.2.2.2.2.2 h'.2.2.2.2.1
    h'.2.2.2.2.2 heq
  obtain ⟨h3, h4⟩ := quot_rem_unique _ _ _ _ _ h.2.2.1 h.2.2.2.1 h'.2.2.1 h'.2.2.2.1 h1
  exact ⟨h3, h4, h2⟩

/-- The index of a cell of the grid lies inside `[0, xSize * ySize * zSize)`. -/
theorem index_bounds (c : Core) (x y z : Int) (h : c.inGrid x y z) :
    0 ≤ c.index x y z ∧ c.index x y z < (c.xSize : Int) * c.ySize * c.zSize := by
  unfold inGrid at h
  obtain ⟨hx0, hx1, hy0, hy1, hz0, hz1⟩ := h
  rw [index_eq]
  have hY : (0 : Int) ≤ c.ySize := Int.ofNat_nonneg _
  have hZ : (0 : Int) ≤ c.zSize := Int.ofNat_nonneg _
  have ha0 : 0 ≤ x * c.ySize + y := add_nonneg (mul_nonneg hx0 hY) hy0
  have ha1 : x * c.ySize + y + 1 ≤ (c.xSize : Int) * c.ySize := by
    have : (x + 1) * (c.ySize : Int) ≤ (c.xSize : Int) * c.ySize :=
      mul_le_mul_of_nonneg_right (by omega) hY
    nlinarith
  constructor
  · exact add_nonneg (mul_nonneg ha0 hZ) hz0
  · have : (x * c.ySize + y + 1) * (c.zSize : Int) ≤ (c.xSize : Int) * c.ySize * c.zSize :=
      mul_le_mul_of_nonneg_right ha1 hZ
    nlinarith

theorem mem_allCells (c : Core) (p : Int × Int × Int) :
    p ∈ c.allCells ↔ c.inGrid p.1 p.2.1 p.2.2 := by
  unfold allCells inGrid
  rw [mem_loopNest, mem_upTo, mem_upTo, mem_upTo]
  tauto

theorem nodup_index_allCells (c : Core) :
    (c.allCells.map (fun p => c.index p.1 p.2.1 p.2.2)).Nodup := by
  refine List.Nodup.map_on ?_ (nodup_loopNest _ _ _ (nodup_upTo _ _) (nodup_upTo _ _)
    (nodup_upTo _ _))
  intro p hp q hq h
  obtain ⟨h1, h2, h3⟩ := c.index_injective _ _ _ _ _ _ ((c.mem_allCells p).1 hp)
    ((c.mem_allCells q).1 hq) h
  exact Prod.ext h1 (Prod.ext h2 h3)

/-- In a well-formed core every cell of the grid has an element. -/
theorem cellAt_isSome (c : Core) (hwf : c.WellFormed) (x y z : Int) (h : c.inGrid x y z) :
    ∃ e, c.cellAt x y z = some e ∧ c.elements[(c.index x y z).toNat]? = some e := by
  obtain ⟨h0, h1⟩ := c.index_bounds x y z h
  unfold WellFormed at hwf
  have hlt : (c.index x y z).toNat < c.elements.length := by
    rw [hwf]
    have : ((c.xSize * c.ySize * c.zSize : Nat) : Int) =
        (c.xSize : Int) * c.ySize * c.zSize := by push_cast; ring
    omega
  refine ⟨c.elements[(c.index x y z).toNat], ?_, ?_⟩
  · unfold cellAt readAt
    rw [if_pos h0]
    exact List.getElem?_eq_getElem hlt
  · exact List.getElem?_eq_getElem hlt

end Core

/-! ## Construction and the Vessel shell -/

namespace Core

theorem readAt_eq_getElem? {α : Type} (v : List α) (i : Int) (n : Nat) (h : i = (n : Int)) :
    readAt v i = v[n]? := by
  unfold readAt
  subst h
  simp

theorem map_foldl_modifyAt_of_proj {α β P : Type} (proj : α → β) (idx : P → Int)
    (F : List α → P → α → α) (hF : ∀ s p a, proj (F s p a) = proj a)
    (L : List P) (v : List α) :
    (L.foldl (fun s p => modifyAt s (idx p) (F s p)) v).map proj = v.map proj := by
  apply foldl_invariant (fun s : List α => s.map proj = v.map proj)
  · rfl
  · intro t i _ ht
    rw [map_modifyAt_of_proj proj t (idx i) (F t i) (hF t i), ht]

/-- Every cell of a freshly constructed core holds the element that `initializeCore`
assigned to it. -/
theorem cellAt_new (G ng xSize ySize zSize : Nat) (x y z : Int)
    (h : (Core.new G ng xSize ySize zSize).inGrid x y z) :
    (Core.new G ng xSize ySize zSize).cellAt x y z =
      some (CoreElement.new G
        (if (Core.new G ng xSize ySize zSize).onBoundary x y z then MaterialType.Vessel
         else MaterialType.Fuel) 300) := by
  let c0 : Core :=
    { xSize := xSize, ySize := ySize, zSize := zSize, numEnergyGroups := ng,
      elements := List.replicate (xSize * ySize * zSize) (CoreElement.default G),
      controlRodInsertion := 0 }
  have hc0 : Core.new G ng xSize ySize zSize = initializeCore G c0 := rfl
  have hwf : c0.WellFormed := by
    show (List.replicate (xSize * ySize * zSize) (CoreElement.default G)).length = _
    simp
  have hgrid : c0.inGrid x y z := h
  obtain ⟨e, _, he⟩ := c0.cellAt_isSome hwf x y z hgrid
  obtain ⟨h0, _⟩ := c0.index_bounds x y z hgrid
  have hmem : (x, y, z) ∈ c0.allCells := (c0.mem_allCells (x, y, z)).2 hgrid
  have key := (getElem?_foldl_modifyAt_nodup (fun p : Int × Int × Int => c0.index p.1 p.2.1 p.2.2)
    (fun (_ : List CoreElement) (p : Int × Int × Int) (_ : CoreElement) =>
      CoreElement.new G
        (if c0.onBoundary p.1 p.2.1 p.2.2 then MaterialType.Vessel else MaterialType.Fuel) 300)
    (fun _ => ()) (fun _ _ _ => rfl) (fun _ _ _ _ => rfl) c0.elements c0.allCells c0.elements
    rfl c0.nodup_index_allCells).2 (x, y, z) hmem (c0.index x y z).toNat
    (Int.toNat_of_nonneg h0).symm
  rw [hc0]
  show readAt (initializeCore G c0).elements (c0.index x y z) = _
  rw [readAt_eq_getElem? _ _ _ (Int.toNat_of_nonneg h0).symm]
  unfold initializeCore
  simp only
  rw [key, he]
  rfl

theorem material_new (G : Nat) (m : MaterialType) (t : ℚ) :
    (CoreElement.new G m t).material = m := by
  unfold CoreElement.new
  split <;> rfl

theorem vesselIffBoundary_new (G ng xSize ySize zSize : Nat) :
    (Core.new G ng xSize ySize zSize).VesselIffBoundary ∧
    (Core.new G ng xSize ySize zSize).InteriorIsFuel := by
  constructor
  · intro x y z h
    refine ⟨_, cellAt_new G ng xSize ySize zSize x y z h, ?_⟩
    rw [material_new]
    by_cases hb : (Core.new G ng xSize ySize zSize).onBoundary x y z
    · simp [hb]
    · simp [hb]
  · intro x y z h hb
    refine ⟨_, cellAt_new G ng xSize ySize zSize x y z h, ?_⟩
    rw [material_new, if_neg hb]

end Core

namespace Core

theorem material_thermalUpdate (dt : ℚ) (e : CoreElement) :
    (thermalUpdate dt e).material = e.material := by
  unfold thermalUpdate
  split <;> rfl

theorem reactivityStep_eq (c : Core) :
    reactivityStep c = fun es p =>
      modifyAt es (c.index p.1 p.2.1 p.2.2) (fun element =>
        if element.material ≠ MaterialType.Vessel then
          element.calculateReactivity (c.getNeighbors es p.1 p.2.1 p.2.2)
        else element) := rfl

theorem material_reactivityUpdate (e : CoreElement) (nb : List CoreElement) :
    (if e.material ≠ MaterialType.Vessel then e.calculateReactivity nb else e).material
      = e.material := by
  split <;> rfl

theorem isVessel_scramUpdate (G : Nat) (e : CoreElement) :
    decide ((scramUpdate G e).material = MaterialType.Vessel) =
      decide (e.material = MaterialType.Vessel) := by
  unfold scramUpdate
  by_cases h : e.material = MaterialType.Fuel
  · simp [h, material_new]
  · simp [h]

theorem isVessel_rodIn (e : CoreElement) :
    decide ((rodIn e).material = MaterialType.Vessel) =
      decide (e.material = MaterialType.Vessel) := by
  unfold rodIn
  by_cases h : e.material = MaterialType.Fuel
  · simp [h, CoreElement.setMaterial]
  · simp [h]

theorem isVessel_rodOut (e : CoreElement) :
    decide ((rodOut e).material = MaterialType.Vessel) =
      decide (e.material = MaterialType.Vessel) := by
  unfold rodOut
  by_cases h : e.material = MaterialType.ControlRod
  · simp [h, CoreElement.setMaterial]
  · simp [h]

theorem map_mapIdx_of_proj {α β : Type} (proj : α → β) (f : Nat → α → α) (v : List α)
    (hf : ∀ i a, proj (f i a) = proj a) : (v.mapIdx f).map proj = v.map proj := by
  apply List.ext_getElem?
  intro n
  rw [List.getElem?_map, List.getElem?_map, List.getElem?_mapIdx]
  cases v[n]? <;> simp [hf]

/-- The flux solve changes no field of an element other than `neutronFlux`, whatever
the new values are. -/
theorem map_fluxCommit_of_proj {β : Type} (proj : CoreElement → β)
    (hproj : ∀ (e : CoreElement) (g : Nat) (v : ℚ), proj (e.setNeutronFlux g v) = proj e)
    (nf : List (List ℚ)) (groups : List Nat) (es : List CoreElement) :
    (groups.foldl (fun es g =>
        es.mapIdx (fun i element =>
          element.setNeutronFlux g ((nf.getD g []).getD i 0))) es).map proj = es.map proj := by
  apply foldl_invariant (fun s : List CoreElement => s.map proj = es.map proj)
  · rfl
  · intro t g _ ht
    rw [map_mapIdx_of_proj proj _ t (fun i a => hproj a g _), ht]

theorem vesselMask_calculateCoreThermals (c : Core) (dt : ℚ) :
    (c.calculateCoreThermals dt).vesselMask = c.vesselMask := by
  unfold vesselMask calculateCoreThermals
  simp only
  rw [map_foldl_modifyAt_of_proj (fun e : CoreElement => decide (e.material = MaterialType.Vessel))
      (fun p : Int × Int × Int => c.index p.1 p.2.1 p.2.2) (fun _ _ => thermalUpdate dt)
      (fun _ _ a => by simp only [material_thermalUpdate]),
    reactivityStep_eq,
    map_foldl_modifyAt_of_proj (fun e : CoreElement => decide (e.material = MaterialType.Vessel))
      (fun p : Int × Int × Int => c.index p.1 p.2.1 p.2.2)
      (fun es p element =>
        if element.material ≠ MaterialType.Vessel then
          element.calculateReactivity (c.getNeighbors es p.1 p.2.1 p.2.2)
        else element)
      (fun _ _ a => by simp only [material_reactivityUpdate])]

theorem vesselMask_calculateMultiGroupNeutronFlux (c : Core) (dt : ℚ) :
    (c.calculateMultiGroupNeutronFlux dt).vesselMask = c.vesselMask := by
  unfold vesselMask calculateMultiGroupNeutronFlux
  simp only
  exact map_fluxCommit_of_proj (fun e : CoreElement => decide (e.material = MaterialType.Vessel))
    (fun _ _ _ => rfl) _ _ _

theorem vesselMask_updateFuelBurnup (c : Core) (dt : ℚ) :
    (c.updateFuelBurnup dt).vesselMask = c.vesselMask := by
  unfold vesselMask updateFuelBurnup
  simp only [List.map_map]
  apply List.map_congr_left
  intro e _
  simp only [Function.comp]
  split <;> rfl

theorem vesselMask_increaseReactivity (c : Core) (delta : ℚ) :
    (c.increaseReactivity delta).vesselMask = c.vesselMask := by
  unfold vesselMask increaseReactivity
  simp only [List.map_map]
  apply List.map_congr_left
  intro e _
  simp only [Function.comp]
  split <;> rfl

theorem vesselMask_insertControlRods (G : Nat) (c : Core) :
    (c.insertControlRods G).vesselMask = c.vesselMask := by
  unfold vesselMask insertControlRods
  simp only
  exact map_foldl_modifyAt_of_proj _ (fun p : Int × Int × Int => c.index p.1 p.2.1 p.2.2)
    (fun _ _ => scramUpdate G) (fun _ _ a => isVessel_scramUpdate G a) _ _

theorem vesselMask_setControlRodInsertion (c : Core) (d : ℚ) :
    (c.setControlRodInsertion d).vesselMask = c.vesselMask := by
  unfold vesselMask setControlRodInsertion
  simp only
  rw [map_foldl_modifyAt_of_proj (fun e : CoreElement => decide (e.material = MaterialType.Vessel))
      (fun p : Int × Int × Int => c.index p.1 p.2.1 p.2.2) (fun _ _ => rodOut)
      (fun _ _ a => isVessel_rodOut a),
    map_foldl_modifyAt_of_proj (fun e : CoreElement => decide (e.material = MaterialType.Vessel))
      (fun p : Int × Int × Int => c.index p.1 p.2.1 p.2.2) (fun _ _ => rodIn)
      (fun _ _ a => isVessel_rodIn a)]

end Core

namespace CoreOp

/-- No operation changes the grid dimensions or which entries are Vessel. -/
theorem apply_shape (G : Nat) (op : CoreOp) (c : Core) :
    (op.apply G c).xSize = c.xSize ∧ (op.apply G c).ySize = c.ySize ∧
    (op.apply G c).zSize = c.zSize ∧ (op.apply G c).vesselMask = c.vesselMask := by
  cases op with
  | calculateCoreThermals dt => exact ⟨rfl, rfl, rfl, c.vesselMask_calculateCoreThermals dt⟩
  | calculateMultiGroupNeutronFlux dt =>
    exact ⟨rfl, rfl, rfl, c.vesselMask_calculateMultiGroupNeutronFlux dt⟩
  | updateFuelBurnup dt => exact ⟨rfl, rfl, rfl, c.vesselMask_updateFuelBurnup dt⟩
  | insertControlRods => exact ⟨rfl, rfl, rfl, c.vesselMask_insertControlRods G⟩
  | increaseReactivity delta => exact ⟨rfl, rfl, rfl, c.vesselMask_increaseReactivity delta⟩
  | setControlRodInsertion d => exact ⟨rfl, rfl, rfl, c.vesselMask_setControlRodInsertion d⟩

theorem run_shape (G : Nat) (ops : List CoreOp) (c : Core) :
    (run G ops c).xSize = c.xSize ∧ (run G ops c).ySize = c.ySize ∧
    (run G ops c).zSize = c.zSize ∧ (run G ops c).vesselMask = c.vesselMask := by
  unfold run
  apply foldl_invariant (fun s : Core => s.xSize = c.xSize ∧ s.ySize = c.ySize ∧
    s.zSize = c.zSize ∧ s.vesselMask = c.vesselMask)
  · exact ⟨rfl, rfl, rfl, rfl⟩
  · intro t op _ ht
    obtain ⟨h1, h2, h3, h4⟩ := apply_shape G op t
    exact ⟨h1.trans ht.1, h2.trans ht.2.1, h3.trans ht.2.2.1, h4.trans ht.2.2.2⟩

end CoreOp

namespace Core

theorem vesselIffBoundary_of_shape (c c' : Core) (hx : c'.xSize = c.xSize)
    (hy : c'.ySize = c.ySize) (hz : c'.zSize = c.zSize) (hm : c'.vesselMask = c.vesselMask)
    (h : c.VesselIffBoundary) : c'.VesselIffBoundary := by
  intro x y z hg
  have hg' : c.inGrid x y z := by
    unfold inGrid at hg ⊢
    rw [hx, hy, hz] at hg
    exact hg
  obtain ⟨e, he, hiff⟩ := h x y z hg'
  have hidx : c'.index x y z = c.index x y z := by
    unfold index
    rw [hy, hz]
  have hb : c'.onBoundary x y z ↔ c.onBoundary x y z := by
    unfold onBoundary
    rw [hx, hy, hz]
  obtain ⟨h0, _⟩ := c.index_bounds x y z hg'
  have hn := (Int.toNat_of_nonneg h0).symm
  unfold cellAt at he ⊢
  rw [hidx, readAt_eq_getElem? _ _ _ hn] at *
  have hmn : (c'.vesselMask)[(c.index x y z).toNat]? = (c.vesselMask)[(c.index x y z).toNat]? := by
    rw [hm]
  unfold vesselMask at hmn
  rw [List.getElem?_map, List.getElem?_map, he] at hmn
  cases he' : c'.elements[(c.index x y z).toNat]? with
  | none => rw [he'] at hmn; simp at hmn
  | some e' =>
    rw [he'] at hmn
    simp only [Option.map_some', Option.some.injEq, decide_eq_decide] at hmn
    exact ⟨e', rfl, hmn.trans (hiff.trans hb.symm)⟩

end Core

/-- Claim C8: in a freshly constructed core a cell is Vessel exactly when one of its
coordinates is `0` or the maximum of its axis, and every other cell is Fuel; the
property `Vessel iff boundary` is preserved by every sequence of core operations
(thermal step, flux solve, burnup, SCRAM insertion, reactivity increase, and rod
insertion with a depth in `[0, 1]`). -/
theorem vessel_iff_boundary_invariant (G ng xSize ySize zSize : Nat) (ops : List CoreOp)
    (_hops : ∀ op ∈ ops, op.inRange) :
    (Core.new G ng xSize ySize zSize).VesselIffBoundary ∧
    (Core.new G ng xSize ySize zSize).InteriorIsFuel ∧
    (CoreOp.run G ops (Core.new G ng xSize ySize zSize)).VesselIffBoundary ∧
    (∀ c : Core, c.VesselIffBoundary → (CoreOp.run G ops c).VesselIffBoundary) := by
  have hpres : ∀ c : Core, c.VesselIffBoundary → (CoreOp.run G ops c).VesselIffBoundary := by
    intro c hc
    obtain ⟨h1, h2, h3, h4⟩ := CoreOp.run_shape G ops c
    exact Core.vesselIffBoundary_of_shape c _ h1 h2 h3 h4 hc
  obtain ⟨hv, hf⟩ := Core.vesselIffBoundary_new G ng xSize ySize zSize
  exact ⟨hv, hf, hpres _ hv, hpres⟩

theorem vessel_iff_boundary_invariant_witness :
    (∀ op ∈ [CoreOp.calculateMultiGroupNeutronFlux (1 / 100), CoreOp.updateFuelBurnup (1 / 100),
        CoreOp.calculateCoreThermals (1 / 100), CoreOp.setControlRodInsertion (1 / 2),
        CoreOp.increaseReactivity (1 / 10), CoreOp.insertControlRods], op.inRange) ∧
    (CoreOp.run 2 [CoreOp.calculateMultiGroupNeutronFlux (1 / 100),
        CoreOp.updateFuelBurnup (1 / 100), CoreOp.calculateCoreThermals (1 / 100),
        CoreOp.setControlRodInsertion (1 / 2), CoreOp.increaseReactivity (1 / 10),
        CoreOp.insertControlRods] (Core.new 2 2 4 4 4)).VesselIffBoundary := by
  have hops : ∀ op ∈ [CoreOp.calculateMultiGroupNeutronFlux (1 / 100),
      CoreOp.updateFuelBurnup (1 / 100), CoreOp.calculateCoreThermals (1 / 100),
      CoreOp.setControlRodInsertion (1 / 2), CoreOp.increaseReactivity (1 / 10),
      CoreOp.insertControlRods], op.inRange := by
    intro op hop
    simp only [List.mem_cons, List.mem_singleton, List.not_mem_nil, or_false] at hop
    rcases hop with rfl | rfl | rfl | rfl | rfl | rfl
    · trivial
    · trivial
    · trivial
    · exact ⟨by norm_num, by norm_num⟩
    · trivial
    · trivial
  exact ⟨hops, (vessel_iff_boundary_invariant 2 2 4 4 4 _ hops).2.2.1⟩

/-! ## Vessel cells carry no flux -/

namespace CoreElement

theorem allZero_default (G : Nat) : (CoreElement.default G).AllZero := by
  unfold AllZero CoreElement.default
  simp only [List.mem_replicate]
  refine ⟨trivial, ?_, ?_, ?_, ?_, ?_⟩
  · intro v hv; exact hv.2
  · intro v hv; exact hv.2
  · intro v hv; exact hv.2
  · intro v hv; exact hv.2
  · intro row hrow v hv
    rw [hrow.2] at hv
    exact (List.mem_replicate.1 hv).2

theorem allZero_new_of_ne_fuel (G : Nat) (m : MaterialType) (t : ℚ)
    (h : m ≠ MaterialType.Fuel) : (CoreElement.new G m t).AllZero := by
  unfold AllZero CoreElement.new
  rw [if_neg h]
  simp only [List.mem_replicate]
  refine ⟨trivial, ?_, ?_, ?_, ?_, ?_⟩
  · intro v hv; exact hv.2
  · intro v hv; exact hv.2
  · intro v hv; exact hv.2
  · intro v hv; exact hv.2
  · intro row hrow v hv
    rw [hrow.2] at hv
    exact (List.mem_replicate.1 hv).2

theorem allZero_setNeutronFlux_zero (e : CoreElement) (g : Nat) (h : e.AllZero) :
    (e.setNeutronFlux g 0).AllZero := by
  obtain ⟨h1, h2, h3, h4, h5, h6⟩ := h
  refine ⟨h1, ?_, h3, h4, h5, h6⟩
  intro v hv
  rcases List.mem_or_eq_of_mem_set hv with hmem | heq
  · exact h2 v hmem
  · exact heq

end CoreElement

theorem forall_mem_foldl_modifyAt {α P : Type} (Q : α → Prop) (idx : P → Int)
    (F : List α → P → α → α) (hF : ∀ s p a, Q a → Q (F s p a))
    (L : List P) (v : List α) (hv : ∀ a ∈ v, Q a) :
    ∀ a ∈ L.foldl (fun s p => modifyAt s (idx p) (F s p)) v, Q a := by
  apply foldl_invariant (fun s : List α => ∀ a ∈ s, Q a)
  · exact hv
  · intro t i _ ht
    exact forall_mem_modifyAt Q t (idx i) (F t i) ht (hF t i)

/-- Reading back one entry after a write `buffer[g'][idx] = val`: either the entry is
the written one and holds `val`, or it reads as before. -/
theorem getD_write (nf : List (List ℚ)) (g' : Nat) (idx : Int) (val : ℚ) (g i : Nat) :
    (((nf.modify (fun row => modifyAt row idx (fun _ => val)) g').getD g []).getD i 0 = val
      ∧ g' = g ∧ idx = (i : Int)) ∨
    ((nf.modify (fun row => modifyAt row idx (fun _ => val)) g').getD g []).getD i 0
      = (nf.getD g []).getD i 0 := by
  rw [List.getD_eq_getElem?_getD, List.getD_eq_getElem?_getD, List.getD_eq_getElem?_getD,
    List.getD_eq_getElem?_getD, List.getElem?_modify]
  cases hrow : nf[g]? with
  | none => right; simp
  | some row =>
    by_cases hg : g' = g
    · simp only [hg, if_true, Option.map_eq_map, Option.map_some', Option.getD_some]
      rw [getElem?_modifyAt]
      by_cases hi : idx = (i : Int)
      · rw [if_pos hi]
        cases hv : row[i]? with
        | none => right; simp
        | some w => left; exact ⟨by simp, trivial, hi⟩
      · right
        rw [if_neg hi]
    · right
      simp [hg]

namespace Core

/-- The buffer holds zero wherever the element of the core is not Fuel. -/
theorem newFluxes_zero_of_not_fuel (c : Core) (dt : ℚ) (g i : Nat) (e : CoreElement)
    (he : c.elements[i]? = some e) (hm : e.material ≠ MaterialType.Fuel) :
    ((c.newFluxes dt).getD g []).getD i 0 = 0 := by
  unfold newFluxes
  suffices hall : ∀ g i : Nat, ∀ e : CoreElement, c.elements[i]? = some e →
      e.material ≠ MaterialType.Fuel →
      (((List.range c.numEnergyGroups).foldl (fun nf g =>
        c.interiorCells.foldl (c.fluxStep dt g) nf)
        (List.replicate c.numEnergyGroups (List.replicate c.elements.length 0))).getD g
          []).getD i 0 = 0 from hall g i e he hm
  apply foldl_invariant (fun nf : List (List ℚ) => ∀ g i : Nat, ∀ e : CoreElement,
    c.elements[i]? = some e → e.material ≠ MaterialType.Fuel → (nf.getD g []).getD i 0 = 0)
  · intro g i e _ _
    rw [List.getD_eq_getElem?_getD, List.getD_eq_getElem?_getD, List.getElem?_replicate]
    split
    · simp only [Option.getD_some, List.getElem?_replicate]
      split <;> rfl
    · rfl
  · intro nf g' _ hnf
    apply foldl_invariant (fun nf : List (List ℚ) => ∀ g i : Nat, ∀ e : CoreElement,
      c.elements[i]? = some e → e.material ≠ MaterialType.Fuel → (nf.getD g []).getD i 0 = 0)
    · exact hnf
    · intro t p _ ht g i e he hm
      unfold fluxStep
      simp only
      cases hread : readAt c.elements (c.index p.1 p.2.1 p.2.2) with
      | none => exact ht g i e he hm
      | some element =>
        simp only
        by_cases hfuel : element.material = MaterialType.Fuel
        · rw [if_pos hfuel]
          rcases getD_write t g' (c.index p.1 p.2.1 p.2.2)
            (c.fluxUpdate dt g' element p.1 p.2.1 p.2.2) g i with ⟨_, _, hidx⟩ | hsame
          · exfalso
            rw [readAt_eq_getElem? _ _ _ hidx, he] at hread
            simp only [Option.some.injEq] at hread
            exact hm (hread ▸ hfuel)
          · rw [hsame]
            exact ht g i e he hm
        · rw [if_neg hfuel]
          rcases getD_write t g' (c.index p.1 p.2.1 p.2.2) 0 g i with ⟨hval, _, _⟩ | hsame
          · exact hval
          · rw [hsame]
            exact ht g i e he hm

theorem vesselCellsZero_new (G ng xSize ySize zSize : Nat) :
    (Core.new G ng xSize ySize zSize).VesselCellsZero := by
  unfold VesselCellsZero Core.new initializeCore
  simp only
  apply forall_mem_foldl_modifyAt (fun e : CoreElement =>
      e.material = MaterialType.Vessel → e.AllZero)
    (fun p : Int × Int × Int => Core.index _ p.1 p.2.1 p.2.2)
    (fun _ p _ => CoreElement.new G _ 300)
  · intro _ p _ _ hmat
    rw [material_new] at hmat
    apply CoreElement.allZero_new_of_ne_fuel
    rw [hmat]
    decide
  · intro a ha _
    rw [(List.mem_replicate.1 ha).2]
    exact CoreElement.allZero_default G

end Core

namespace Core

/-- An update that leaves Vessel elements alone and never produces a Vessel element
keeps the property that Vessel elements are all-zero. -/
theorem vesselZero_of_not_vessel (f : CoreElement → CoreElement) (a : CoreElement)
    (hf : f a = a ∨ (f a).material ≠ MaterialType.Vessel)
    (ha : a.material = MaterialType.Vessel → a.AllZero) :
    (f a).material = MaterialType.Vessel → (f a).AllZero := by
  intro hm
  rcases hf with h | h
  · rw [h] at hm ⊢
    exact ha hm
  · exact absurd hm h

theorem reactivityUpdate_cases (a : CoreElement) (nb : List CoreElement) :
    (if a.material ≠ MaterialType.Vessel then a.calculateReactivity nb else a) = a ∨
    (if a.material ≠ MaterialType.Vessel then a.calculateReactivity nb
      else a).material ≠ MaterialType.Vessel := by
  by_cases h : a.material ≠ MaterialType.Vessel
  · right
    rw [if_pos h]
    exact h
  · left
    rw [if_neg h]

theorem thermalUpdate_cases (dt : ℚ) (a : CoreElement) :
    thermalUpdate dt a = a ∨ (thermalUpdate dt a).material ≠ MaterialType.Vessel := by
  by_cases h : a.material = MaterialType.Fuel
  · right
    rw [material_thermalUpdate, h]
    decide
  · left
    unfold thermalUpdate
    rw [if_neg h]

theorem scramUpdate_cases (G : Nat) (a : CoreElement) :
    scramUpdate G a = a ∨ (scramUpdate G a).material ≠ MaterialType.Vessel := by
  unfold scramUpdate
  by_cases h : a.material = MaterialType.Fuel
  · right
    rw [if_pos h, material_new]
    decide
  · left
    rw [if_neg h]

theorem rodIn_cases (a : CoreElement) :
    rodIn a = a ∨ (rodIn a).material ≠ MaterialType.Vessel := by
  unfold rodIn
  by_cases h : a.material = MaterialType.Fuel
  · right
    rw [if_pos h]
    simp [CoreElement.setMaterial]
  · left
    rw [if_neg h]

theorem rodOut_cases (a : CoreElement) :
    rodOut a = a ∨ (rodOut a).material ≠ MaterialType.Vessel := by
  unfold rodOut
  by_cases h : a.material = MaterialType.ControlRod
  · right
    rw [if_pos h]
    simp [CoreElement.setMaterial]
  · left
    rw [if_neg h]

theorem vesselCellsZero_calculateCoreThermals (c : Core) (dt : ℚ)
    (h : c.VesselCellsZero) : (c.calculateCoreThermals dt).VesselCellsZero := by
  unfold VesselCellsZero calculateCoreThermals at *
  simp only
  apply forall_mem_foldl_modifyAt (fun e : CoreElement =>
      e.material = MaterialType.Vessel → e.AllZero)
    (fun p : Int × Int × Int => c.index p.1 p.2.1 p.2.2) (fun _ _ => thermalUpdate dt)
    (fun _ _ a ha => vesselZero_of_not_vessel _ a (thermalUpdate_cases dt a) ha)
  rw [reactivityStep_eq]
  exact forall_mem_foldl_modifyAt (fun e : CoreElement =>
      e.material = MaterialType.Vessel → e.AllZero)
    (fun p : Int × Int × Int => c.index p.1 p.2.1 p.2.2)
    (fun es p element =>
      if element.material ≠ MaterialType.Vessel then
        element.calculateReactivity (c.getNeighbors es p.1 p.2.1 p.2.2)
      else element)
    (fun _ _ a ha => vesselZero_of_not_vessel _ a (reactivityUpdate_cases a _) ha) _ _ h

theorem vesselCellsZero_insertControlRods (G : Nat) (c : Core)
    (h : c.VesselCellsZero) : (c.insertControlRods G).VesselCellsZero := by
  unfold VesselCellsZero insertControlRods at *
  simp only
  exact forall_mem_foldl_modifyAt (fun e : CoreElement =>
      e.material = MaterialType.Vessel → e.AllZero)
    (fun p : Int × Int × Int => c.index p.1 p.2.1 p.2.2) (fun _ _ => scramUpdate G)
    (fun _ _ a ha => vesselZero_of_not_vessel _ a (scramUpdate_cases G a) ha) _ _ h

theorem vesselCellsZero_setControlRodInsertion (c : Core) (d : ℚ)
    (h : c.VesselCellsZero) : (c.setControlRodInsertion d).VesselCellsZero := by
  unfold VesselCellsZero setControlRodInsertion at *
  simp only
  apply forall_mem_foldl_modifyAt (fun e : CoreElement =>
      e.material = MaterialType.Vessel → e.AllZero)
    (fun p : Int × Int × Int => c.index p.1 p.2.1 p.2.2) (fun _ _ => rodOut)
    (fun _ _ a ha => vesselZero_of_not_vessel _ a (rodOut_cases a) ha)
  exact forall_mem_foldl_modifyAt (fun e : CoreElement =>
      e.material = MaterialType.Vessel → e.AllZero)
    (fun p : Int × Int × Int => c.index p.1 p.2.1 p.2.2) (fun _ _ => rodIn)
    (fun _ _ a ha => vesselZero_of_not_vessel _ a (rodIn_cases a) ha) _ _ h

theorem vesselCellsZero_increaseReactivity (c : Core) (delta : ℚ)
    (h : c.VesselCellsZero) : (c.increaseReactivity delta).VesselCellsZero := by
  unfold VesselCellsZero increaseReactivity at *
  simp only [List.mem_map]
  rintro e ⟨a, ha, rfl⟩
  apply vesselZero_of_not_vessel _ a _ (h a ha)
  by_cases hf : a.material = MaterialType.Fuel
  · right
    rw [if_pos hf]
    show a.material ≠ MaterialType.Vessel
    rw [hf]
    decide
  · left
    rw [if_neg hf]

theorem vesselCellsZero_updateFuelBurnup (c : Core) (dt : ℚ)
    (h : c.VesselCellsZero) : (c.updateFuelBurnup dt).VesselCellsZero := by
  unfold VesselCellsZero updateFuelBurnup at *
  simp only [List.mem_map]
  rintro e ⟨a, ha, rfl⟩
  apply vesselZero_of_not_vessel _ a _ (h a ha)
  by_cases hf : a.material = MaterialType.Fuel
  · right
    rw [if_pos hf]
    show a.material ≠ MaterialType.Vessel
    rw [hf]
    decide
  · left
    rw [if_neg hf]

theorem vesselCellsZero_calculateMultiGroupNeutronFlux (c : Core) (dt : ℚ)
    (h : c.VesselCellsZero) : (c.calculateMultiGroupNeutronFlux dt).VesselCellsZero := by
  unfold VesselCellsZero calculateMultiGroupNeutronFlux at *
  simp only
  suffices hinv : ((List.range c.numEnergyGroups).foldl (fun es g =>
        es.mapIdx (fun i element =>
          element.setNeutronFlux g (((c.newFluxes dt).getD g []).getD i 0)))
        c.elements).map (fun e => e.material) = c.elements.map (fun e => e.material) ∧
      ∀ e ∈ (List.range c.numEnergyGroups).foldl (fun es g =>
        es.mapIdx (fun i element =>
          element.setNeutronFlux g (((c.newFluxes dt).getD g []).getD i 0))) c.elements,
        e.material = MaterialType.Vessel → e.AllZero from hinv.2
  apply foldl_invariant (fun s : List CoreElement =>
    s.map (fun e => e.material) = c.elements.map (fun e => e.material) ∧
    ∀ e ∈ s, e.material = MaterialType.Vessel → e.AllZero)
  · exact ⟨rfl, h⟩
  · intro t g _ ht
    obtain ⟨hmat, hzero⟩ := ht
    constructor
    · rw [map_mapIdx_of_proj (fun e : CoreElement => e.material)
        (fun i element => element.setNeutronFlux g (((c.newFluxes dt).getD g []).getD i 0)) t
        (fun _ _ => rfl), hmat]
    · intro e' he' hv
      obtain ⟨i, hi⟩ := List.getElem?_of_mem he'
      rw [List.getElem?_mapIdx] at hi
      obtain ⟨a, hta, rfl⟩ := Option.map_eq_some'.1 hi
      have hav : a.material = MaterialType.Vessel := hv
      have hmi : (t.map (fun e => e.material))[i]? = (c.elements.map (fun e => e.material))[i]? := by
        rw [hmat]
      rw [List.getElem?_map, List.getElem?_map, hta] at hmi
      cases hc : c.elements[i]? with
      | none => rw [hc] at hmi; simp at hmi
      | some e0 =>
        rw [hc] at hmi
        simp only [Option.map_some', Option.some.injEq] at hmi
        have hne : e0.material ≠ MaterialType.Fuel := by
          rw [← hmi, hav]
          decide
        rw [newFluxes_zero_of_not_fuel c dt g i e0 hc hne]
        exact CoreElement.allZero_setNeutronFlux_zero a g (hzero a (List.getElem?_mem hta) hav)

end Core

namespace CoreOp

theorem apply_vesselCellsZero (G : Nat) (op : CoreOp) (c : Core) (h : c.VesselCellsZero) :
    (op.apply G c).VesselCellsZero := by
  cases op with
  | calculateCoreThermals dt => exact c.vesselCellsZero_calculateCoreThermals dt h
  | calculateMultiGroupNeutronFlux dt =>
    exact c.vesselCellsZero_calculateMultiGroupNeutronFlux dt h
  | updateFuelBurnup dt => exact c.vesselCellsZero_updateFuelBurnup dt h
  | insertControlRods => exact c.vesselCellsZero_insertControlRods G h
  | increaseReactivity delta => exact c.vesselCellsZero_increaseReactivity delta h
  | setControlRodInsertion d => exact c.vesselCellsZero_setControlRodInsertion d h

end CoreOp

/-- Claim C9: every Vessel cell of a freshly constructed core has zero population and
all-zero `neutronFlux`, `Sigma_a`, `Sigma_f`, `Chi` and `Sigma_s`, and this stays true
after every sequence of core operations (thermal step, flux solve, burnup, rod
insertion with a depth in `[0, 1]`, SCRAM insertion, reactivity increase). -/
theorem vessel_cells_zero_invariant (G ng xSize ySize zSize : Nat) (ops : List CoreOp)
    (_hops : ∀ op ∈ ops, op.inRange) :
    (Core.new G ng xSize ySize zSize).VesselCellsZero ∧
    (CoreOp.run G ops (Core.new G ng xSize ySize zSize)).VesselCellsZero ∧
    (∀ c : Core, c.VesselCellsZero → (CoreOp.run G ops c).VesselCellsZero) := by
  have hpres : ∀ c : Core, c.VesselCellsZero → (CoreOp.run G ops c).VesselCellsZero := by
    intro c hc
    unfold CoreOp.run
    exact foldl_invariant (fun s : Core => s.VesselCellsZero) _ ops c hc
      (fun t op _ ht => CoreOp.apply_vesselCellsZero G op t ht)
  have hnew := Core.vesselCellsZero_new G ng xSize ySize zSize
  exact ⟨hnew, hpres _ hnew, hpres⟩

theorem vessel_cells_zero_invariant_witness :
    (∀ op ∈ [CoreOp.setControlRodInsertion (3 / 4), CoreOp.calculateMultiGroupNeutronFlux
        (1 / 50), CoreOp.updateFuelBurnup (1 / 50), CoreOp.calculateCoreThermals (1 / 50),
        CoreOp.insertControlRods, CoreOp.increaseReactivity (1 / 10)], op.inRange) ∧
    (CoreOp.run 2 [CoreOp.setControlRodInsertion (3 / 4),
        CoreOp.calculateMultiGroupNeutronFlux (1 / 50), CoreOp.updateFuelBurnup (1 / 50),
        CoreOp.calculateCoreThermals (1 / 50), CoreOp.insertControlRods,
        CoreOp.increaseReactivity (1 / 10)] (Core.new 2 2 5 5 5)).VesselCellsZero := by
  have hops : ∀ op ∈ [CoreOp.setControlRodInsertion (3 / 4),
      CoreOp.calculateMultiGroupNeutronFlux (1 / 50), CoreOp.updateFuelBurnup (1 / 50),
      CoreOp.calculateCoreThermals (1 / 50), CoreOp.insertControlRods,
      CoreOp.increaseReactivity (1 / 10)], op.inRange := by
    intro op hop
    simp only [List.mem_cons, List.mem_singleton, List.not_mem_nil, or_false] at hop
    rcases hop with rfl | rfl | rfl | rfl | rfl | rfl
    · exact ⟨by norm_num, by norm_num⟩
    · trivial
    · trivial
    · trivial
    · trivial
    · trivial
  exact ⟨hops, (vessel_cells_zero_invariant 2 2 5 5 5 _ hops).2.1⟩

/-! ## Reactivity computed by the thermal step -/

namespace CoreElement

theorem reactivityEffect_foldl (nb : List CoreElement) (acc : ℚ) :
    nb.foldl (fun acc neighbor =>
      if neighbor.material = MaterialType.Fuel then acc + 1 / 100
      else if neighbor.material = MaterialType.ControlRod then acc - 2 / 100
      else acc) acc =
    acc + 1 / 100 * (nb.countP (fun e => decide (e.material = MaterialType.Fuel)) : ℚ)
      - 2 / 100 * (nb.countP (fun e => decide (e.material = MaterialType.ControlRod)) : ℚ) := by
  induction nb generalizing acc with
  | nil => simp
  | cons a rest ih =>
    rw [List.foldl_cons, ih, List.countP_cons, List.countP_cons]
    cases hm : a.material <;> simp <;> ring

/-- The accumulated neighbour effect is `0.01` per Fuel neighbour minus `0.02` per
ControlRod neighbour. -/
theorem reactivityEffect_eq (nb : List CoreElement) :
    reactivityEffect nb =
      1 / 100 * (nb.countP (fun e => decide (e.material = MaterialType.Fuel)) : ℚ)
      - 2 / 100 * (nb.countP (fun e => decide (e.material = MaterialType.ControlRod)) : ℚ) := by
  unfold reactivityEffect
  rw [reactivityEffect_foldl]
  ring

end CoreElement

theorem countP_filterMap_material {δ : Type} (g : δ → Option CoreElement) (m : MaterialType)
    (l : List δ) :
    (l.filterMap g).countP (fun e => decide (e.material = m)) =
      (l.map (fun d => (g d).map (fun e => e.material))).count (some m) := by
  induction l with
  | nil => rfl
  | cons d rest ih =>
    rw [List.map_cons, List.count_cons]
    cases hg : g d with
    | none =>
      rw [List.filterMap_cons_none hg, ih]
      simp
    | some e =>
      rw [List.filterMap_cons_some hg, List.countP_cons, ih]
      by_cases hm : e.material = m
      · simp [hm]
      · have hne : ¬ (m = e.material) := fun h => hm h.symm
        simp [hm, hne]

theorem readAt_map {α β : Type} (f : α → β) (v : List α) (i : Int) :
    (readAt v i).map f = readAt (v.map f) i := by
  unfold readAt
  split
  · rw [List.getElem?_map]
  · rfl

namespace Core

/-- Materials of the elements returned by `getNeighbors`, as a function of the materials
stored in the array. -/
theorem count_getNeighbors (c : Core) (es : List CoreElement) (x y z : Int)
    (m : MaterialType) :
    (c.getNeighbors es x y z).countP (fun e => decide (e.material = m)) =
      (neighborOffsets.map (fun d =>
        if c.inGrid (x + d.1) (y + d.2.1) (z + d.2.2) then
          readAt (es.map (fun e => e.material)) (c.index (x + d.1) (y + d.2.1) (z + d.2.2))
        else none)).count (some m) := by
  unfold getNeighbors
  rw [countP_filterMap_material]
  congr 1
  apply List.map_congr_left
  intro d _
  simp only [inGrid, ge_iff_le]
  split
  · exact readAt_map _ _ _
  · rfl

theorem faceNeighbourMaterials_eq (c : Core) (x y z : Int) :
    c.faceNeighbourMaterials x y z =
      neighborOffsets.map (fun d =>
        if c.inGrid (x + d.1) (y + d.2.1) (z + d.2.2) then
          readAt (c.elements.map (fun e => e.material))
            (c.index (x + d.1) (y + d.2.1) (z + d.2.2))
        else none) := by
  unfold faceNeighbourMaterials neighborOffsets materialAt cellAt
  simp only [List.map_cons, List.map_nil, add_zero, readAt_map, Int.reduceNeg, ← sub_eq_add_neg]

theorem reactivity_thermalUpdate (dt : ℚ) (e : CoreElement) :
    (thermalUpdate dt e).reactivity = e.reactivity := by
  unfold thermalUpdate
  split <;> rfl

/-- The reactivity update of one cell depends on the array only through the materials. -/
theorem reactivityUpdate_congr (c : Core) (s t : List CoreElement) (p : Int × Int × Int)
    (h : s.map (fun e => e.material) = t.map (fun e => e.material)) :
    (fun element : CoreElement =>
      if element.material ≠ MaterialType.Vessel then
        element.calculateReactivity (c.getNeighbors s p.1 p.2.1 p.2.2)
      else element) =
    (fun element : CoreElement =>
      if element.material ≠ MaterialType.Vessel then
        element.calculateReactivity (c.getNeighbors t p.1 p.2.1 p.2.2)
      else element) := by
  funext element
  have hre : CoreElement.reactivityEffect (c.getNeighbors s p.1 p.2.1 p.2.2) =
      CoreElement.reactivityEffect (c.getNeighbors t p.1 p.2.1 p.2.2) := by
    rw [CoreElement.reactivityEffect_eq, CoreElement.reactivityEffect_eq,
      count_getNeighbors, count_getNeighbors, count_getNeighbors, count_getNeighbors, h]
  unfold CoreElement.calculateReactivity
  simp only [hre]

end Core

/-- Claim C10: after `calculateCoreThermals`, the stored reactivity of every non-Vessel
cell `(x, y, z)` of a well-formed core equals `0.01 * (number of Fuel face neighbours)
- 0.02 * (number of ControlRod face neighbours) - 0.0001 * (T - 300)`, where the
neighbours are the in-grid cells at `±x, ±y, ±z` (none outside the grid) and both the
neighbour materials and the cell's temperature `T` are read from the core before the
call. -/
theorem reactivity_after_thermals (c : Core) (dt : ℚ) (hwf : c.WellFormed) (x y z : Int)
    (hg : c.inGrid x y z) (e : CoreElement) (he : c.cellAt x y z = some e)
    (hm : e.material ≠ MaterialType.Vessel) :
    ∃ e', (c.calculateCoreThermals dt).cellAt x y z = some e' ∧
      e'.reactivity =
        1 / 100 * (c.fuelNeighbours x y z : ℚ) - 2 / 100 * (c.controlRodNeighbours x y z : ℚ)
          - 1 / 10000 * (e.temperature - 300) := by
  obtain ⟨h0, _⟩ := c.index_bounds x y z hg
  have hn := (Int.toNat_of_nonneg h0).symm
  have hmem : (x, y, z) ∈ c.allCells := (c.mem_allCells (x, y, z)).2 hg
  obtain ⟨e0, he0, hget⟩ := c.cellAt_isSome hwf x y z hg
  have hee : e0 = e := by
    rw [he] at he0
    exact (Option.some.inj he0).symm
  subst hee
  -- first loop nest: reactivities, computed from the materials of the initial array
  have step1 := (getElem?_foldl_modifyAt_nodup
    (fun p : Int × Int × Int => c.index p.1 p.2.1 p.2.2)
    (fun es p element =>
      if element.material ≠ MaterialType.Vessel then
        element.calculateReactivity (c.getNeighbors es p.1 p.2.1 p.2.2)
      else element)
    (fun e : CoreElement => e.material)
    (fun _ _ a => Core.material_reactivityUpdate a _)
    (fun s t p h => Core.reactivityUpdate_congr c s t p h)
    c.elements c.allCells c.elements rfl c.nodup_index_allCells).2 (x, y, z) hmem
    (c.index x y z).toNat hn
  -- second loop nest: population and temperature of Fuel cells
  have step2 := (getElem?_foldl_modifyAt_nodup
    (fun p : Int × Int × Int => c.index p.1 p.2.1 p.2.2)
    (fun (_ : List CoreElement) (_ : Int × Int × Int) => Core.thermalUpdate dt)
    (fun _ => ()) (fun _ _ _ => rfl) (fun _ _ _ _ => rfl)
    (c.allCells.foldl (Core.reactivityStep c) c.elements) c.allCells
    (c.allCells.foldl (Core.reactivityStep c) c.elements) rfl c.nodup_index_allCells).2
    (x, y, z) hmem (c.index x y z).toNat hn
  rw [Core.reactivityStep_eq] at step2
  rw [step1, hget] at step2
  simp only [Option.map_some'] at step2
  refine ⟨Core.thermalUpdate dt
    (if e0.material ≠ MaterialType.Vessel then
      e0.calculateReactivity (c.getNeighbors c.elements x y z) else e0), ?_, ?_⟩
  · show readAt (c.calculateCoreThermals dt).elements (c.index x y z) = _
    rw [Core.readAt_eq_getElem? _ _ _ hn]
    unfold Core.calculateCoreThermals
    simp only
    rw [Core.reactivityStep_eq]
    exact step2
  · rw [Core.reactivity_thermalUpdate, if_pos hm]
    unfold CoreElement.calculateReactivity
    simp only
    rw [CoreElement.reactivityEffect_eq, Core.count_getNeighbors, Core.count_getNeighbors]
    unfold Core.fuelNeighbours Core.controlRodNeighbours
    rw [Core.faceNeighbourMaterials_eq]
    ring

theorem reactivity_after_thermals_witness :
    (Core.new 1 1 4 4 4).WellFormed ∧ (Core.new 1 1 4 4 4).inGrid 1 1 1 ∧
    (Core.new 1 1 4 4 4).cellAt 1 1 1 = some (CoreElement.new 1 MaterialType.Fuel 300) ∧
    (CoreElement.new 1 MaterialType.Fuel 300).material ≠ MaterialType.Vessel ∧
    ∃ e', ((Core.new 1 1 4 4 4).calculateCoreThermals (1 / 100)).cellAt 1 1 1 = some e' ∧
      e'.reactivity = 3 / 100 := by
  have hwf : (Core.new 1 1 4 4 4).WellFormed := by decide
  have hg : (Core.new 1 1 4 4 4).inGrid 1 1 1 := by decide
  have hcell : (Core.new 1 1 4 4 4).cellAt 1 1 1 =
      some (CoreElement.new 1 MaterialType.Fuel 300) := by
    rw [Core.cellAt_new 1 1 4 4 4 1 1 1 hg]
    rfl
  have hm : (CoreElement.new 1 MaterialType.Fuel 300).material ≠ MaterialType.Vessel := by
    decide
  refine ⟨hwf, hg, hcell, hm, ?_⟩
  obtain ⟨e', h1, h2⟩ := reactivity_after_thermals (Core.new 1 1 4 4 4) (1 / 100) hwf 1 1 1 hg
    (CoreElement.new 1 MaterialType.Fuel 300) hcell hm
  refine ⟨e', h1, ?_⟩
  have hfuel : (Core.new 1 1 4 4 4).fuelNeighbours 1 1 1 = 3 := by decide
  have hrod : (Core.new 1 1 4 4 4).controlRodNeighbours 1 1 1 = 0 := by decide
  have htemp : (CoreElement.new 1 MaterialType.Fuel 300).temperature = 300 := rfl
  rw [h2, hfuel, hrod, htemp]
  norm_num

/-! ## Cell-wise description of the control-rod operations -/

theorem mem_downTo (hi lo v : Int) : v ∈ downTo hi lo ↔ lo ≤ v ∧ v ≤ hi := by
  unfold downTo
  simp only [List.mem_map, List.mem_range]
  constructor
  · rintro ⟨k, hk, rfl⟩
    omega
  · rintro ⟨h1, h2⟩
    exact ⟨(hi - v).toNat, by omega, by omega⟩

theorem mem_upToBy2 (lo hi v : Int) :
    v ∈ upToBy2 lo hi ↔ lo ≤ v ∧ v < hi ∧ (v - lo) % 2 = 0 := by
  unfold upToBy2
  simp only [List.mem_map, List.mem_range]
  constructor
  · rintro ⟨k, hk, rfl⟩
    omega
  · rintro ⟨h1, h2, h3⟩
    exact ⟨((v - lo) / 2).toNat, by omega, by omega⟩

namespace Core

theorem mem_insertedCells (c : Core) (level : Int) (p : Int × Int × Int) :
    p ∈ c.insertedCells level ↔
      (0 ≤ p.1 ∧ p.1 < c.xSize) ∧ (0 ≤ p.2.1 ∧ p.2.1 < c.ySize) ∧
      (c.zSize - level ≤ p.2.2 ∧ p.2.2 ≤ c.zSize - 1) := by
  unfold insertedCells
  rw [mem_loopNest, mem_upTo, mem_upTo, mem_downTo]

theorem mem_scramCells (c : Core) (p : Int × Int × Int) :
    p ∈ c.scramCells ↔ c.inAlternatingColumn p.1 p.2.1 p.2.2 := by
  unfold scramCells inAlternatingColumn
  rw [mem_loopNest, mem_upToBy2, mem_upToBy2, mem_upTo]
  constructor
  · rintro ⟨⟨h1, h2, h3⟩, ⟨h4, h5, h6⟩, h7, h8⟩
    refine ⟨by omega, by omega, h1, h2, h4, h5, h7, h8⟩
  · rintro ⟨h1, h2, h3, h4, h5, h6, h7, h8⟩
    exact ⟨⟨h3, h4, by omega⟩, ⟨h5, h6, by omega⟩, h7, h8⟩

theorem mem_interiorCells (c : Core) (p : Int × Int × Int) :
    p ∈ c.interiorCells ↔
      (1 ≤ p.1 ∧ p.1 < c.xSize - 1) ∧ (1 ≤ p.2.1 ∧ p.2.1 < c.ySize - 1) ∧
      (1 ≤ p.2.2 ∧ p.2.2 < c.zSize - 1) := by
  unfold interiorCells
  rw [mem_loopNest, mem_upTo, mem_upTo, mem_upTo]

theorem inGrid_of_inAlternatingColumn (c : Core) (x y z : Int)
    (h : c.inAlternatingColumn x y z) : c.inGrid x y z := by
  unfold inAlternatingColumn at h
  unfold inGrid
  omega

/-- For a list of cells of the grid, the index of a cell of the grid is among the
indices of the list exactly when the cell is in the list. -/
theorem index_mem_map_iff (c : Core) (L : List (Int × Int × Int))
    (hL : ∀ p ∈ L, c.inGrid p.1 p.2.1 p.2.2) (x y z : Int) (hg : c.inGrid x y z)
    (n : Nat) (hn : c.index x y z = (n : Int)) :
    (n : Int) ∈ L.map (fun p => c.index p.1 p.2.1 p.2.2) ↔ (x, y, z) ∈ L := by
  rw [List.mem_map]
  constructor
  · rintro ⟨p, hp, hpn⟩
    obtain ⟨h1, h2, h3⟩ := c.index_injective _ _ _ _ _ _ (hL p hp) hg (hpn.trans hn.symm)
    have : p = (x, y, z) := Prod.ext h1 (Prod.ext h2 h3)
    rw [← this]
    exact hp
  · intro h
    exact ⟨(x, y, z), h, hn⟩

theorem truncToInt_of_nonneg (q : ℚ) (h : 0 ≤ q) : truncToInt q = ⌊q⌋ := by
  unfold truncToInt
  rw [if_pos h]

/-- For a depth in `[0, 1]` and a `zSize` that is a `double`, the insertion level is the
floor of the `double` product and lies in `[0, zSize]`. -/
theorem maxInsertionLevel_bounds (c : Core) (d : ℚ) (h0 : 0 ≤ d) (h1 : d ≤ 1)
    (hz : c.zSize < 2 ^ 53) :
    c.maxInsertionLevel d = ⌊toDouble (toDouble d * (c.zSize : ℚ))⌋ ∧
    0 ≤ c.maxInsertionLevel d ∧ c.maxInsertionLevel d ≤ c.zSize := by
  have hzd : toDouble (c.zSize : ℚ) = c.zSize := toDouble_natCast c.zSize hz
  have hzn : (0 : ℚ) ≤ (c.zSize : ℚ) := Nat.cast_nonneg _
  have hd0 : 0 ≤ toDouble d := toDouble_nonneg d h0
  have hd1 : toDouble d ≤ 1 := by
    have h := toDouble_mono_of_nonneg d 1 h0 h1
    have h1' : toDouble (1 : ℚ) = 1 := by
      have := toDouble_natCast 1 (by norm_num)
      simpa using this
    rwa [h1'] at h
  have hq : 0 ≤ toDouble d * (c.zSize : ℚ) := mul_nonneg hd0 hzn
  have hm : c.maxInsertionLevel d = ⌊toDouble (toDouble d * (c.zSize : ℚ))⌋ := by
    unfold maxInsertionLevel
    rw [hzd]
    exact truncToInt_of_nonneg _ (toDouble_nonneg _ hq)
  refine ⟨hm, ?_, ?_⟩
  · rw [hm]
    exact Int.floor_nonneg.2 (toDouble_nonneg _ hq)
  · rw [hm]
    have hle : toDouble d * (c.zSize : ℚ) ≤ (c.zSize : ℚ) := by
      have : toDouble d * (c.zSize : ℚ) ≤ 1 * (c.zSize : ℚ) :=
        mul_le_mul_of_nonneg_right hd1 hzn
      simpa using this
    have hle2 : toDouble (toDouble d * (c.zSize : ℚ)) ≤ ((c.zSize : Int) : ℚ) := by
      have := toDouble_mono_of_nonneg _ _ hq hle
      rw [hzd] at this
      exact_mod_cast this
    have := Int.floor_le_floor hle2
    rwa [Int.floor_intCast] at this

/-- The element of a cell after `setControlRodInsertion`, for a depth in `[0, 1]`: the
insertion update in the top layers, the withdrawal update below them. -/
theorem cellAt_setControlRodInsertion (c : Core) (d : ℚ) (hwf : c.WellFormed)
    (h0 : 0 ≤ d) (h1 : d ≤ 1) (hz53 : c.zSize < 2 ^ 53) (x y z : Int) (hg : c.inGrid x y z)
    (e : CoreElement) (he : c.cellAt x y z = some e) :
    (c.setControlRodInsertion d).cellAt x y z =
      some (if (c.zSize : Int) - c.maxInsertionLevel d ≤ z then rodIn e else rodOut e) := by
  obtain ⟨_, hm0, hm1⟩ := c.maxInsertionLevel_bounds d h0 h1 hz53
  obtain ⟨hi0, _⟩ := c.index_bounds x y z hg
  have hn := (Int.toNat_of_nonneg hi0).symm
  obtain ⟨e0, he0, hget⟩ := c.cellAt_isSome hwf x y z hg
  have hee : e0 = e := by
    rw [he] at he0
    exact (Option.some.inj he0).symm
  subst hee
  have hgrid := hg
  unfold inGrid at hgrid
  have hI : (((c.index x y z).toNat : Nat) : Int) ∈ (c.insertedCells (c.maxInsertionLevel d)).map
      (fun p => c.index p.1 p.2.1 p.2.2) ↔ (c.zSize : Int) - c.maxInsertionLevel d ≤ z := by
    rw [c.index_mem_map_iff _ _ x y z hg _ hn, mem_insertedCells]
    · dsimp only
      constructor
      · intro h; exact h.2.2.1
      · intro h; exact ⟨⟨hgrid.1, hgrid.2.1⟩, ⟨hgrid.2.2.1, hgrid.2.2.2.1⟩, h, by omega⟩
    · intro p hp
      rw [mem_insertedCells] at hp
      unfold inGrid
      omega
  have hW : (((c.index x y z).toNat : Nat) : Int) ∈ (c.withdrawnCells (c.maxInsertionLevel d)).map
      (fun p => c.index p.1 p.2.1 p.2.2) ↔ ¬ ((c.zSize : Int) - c.maxInsertionLevel d ≤ z) := by
    rw [c.index_mem_map_iff _ _ x y z hg _ hn, mem_withdrawnCells]
    · dsimp only
      constructor
      · intro h; omega
      · intro h; exact ⟨⟨hgrid.1, hgrid.2.1⟩, ⟨hgrid.2.2.1, hgrid.2.2.2.1⟩, hgrid.2.2.2.2.1,
          by omega⟩
    · intro p hp
      rw [mem_withdrawnCells] at hp
      unfold inGrid
      omega
  show readAt (c.setControlRodInsertion d).elements
    ((c.setControlRodInsertion d).index x y z) = _
  have hidx : (c.setControlRodInsertion d).index x y z = c.index x y z := rfl
  rw [hidx, readAt_eq_getElem? _ _ _ hn, getElem?_setControlRodInsertion, hget]
  by_cases hz : (c.zSize : Int) - c.maxInsertionLevel d ≤ z
  · rw [if_neg (fun h => (hW.1 h) hz), if_pos (hI.2 hz), if_pos hz]
    rfl
  · rw [if_pos (hW.2 hz), if_neg (fun h => hz (hI.1 h)), if_neg hz]
    rfl

/-- The element of a cell after `insertControlRods`: the SCRAM update in the alternating
interior columns, no change elsewhere. -/
theorem cellAt_insertControlRods (G : Nat) (c : Core) (hwf : c.WellFormed) (x y z : Int)
    (hg : c.inGrid x y z) (e : CoreElement) (he : c.cellAt x y z = some e) :
    (c.insertControlRods G).cellAt x y z =
      some (if c.inAlternatingColumn x y z then scramUpdate G e else e) := by
  obtain ⟨hi0, _⟩ := c.index_bounds x y z hg
  have hn := (Int.toNat_of_nonneg hi0).symm
  obtain ⟨e0, he0, hget⟩ := c.cellAt_isSome hwf x y z hg
  have hee : e0 = e := by
    rw [he] at he0
    exact (Option.some.inj he0).symm
  subst hee
  have hS : (((c.index x y z).toNat : Nat) : Int) ∈ c.scramCells.map
      (fun p => c.index p.1 p.2.1 p.2.2) ↔ c.inAlternatingColumn x y z := by
    rw [c.index_mem_map_iff _ _ x y z hg _ hn, mem_scramCells]
    intro p hp
    exact c.inGrid_of_inAlternatingColumn _ _ _ ((c.mem_scramCells p).1 hp)
  show readAt (c.insertControlRods G).elements ((c.insertControlRods G).index x y z) = _
  have hidx : (c.insertControlRods G).index x y z = c.index x y z := rfl
  rw [hidx, readAt_eq_getElem? _ _ _ hn]
  unfold insertControlRods
  simp only
  rw [getElem?_foldl_modifyAt_idem (fun p : Int × Int × Int => c.index p.1 p.2.1 p.2.2)
    (scramUpdate G) (scramUpdate_idem G), hget]
  by_cases hc : c.inAlternatingColumn x y z
  · rw [if_pos (hS.2 hc), if_pos hc]
    rfl
  · rw [if_neg (fun h => hc (hS.1 h)), if_neg hc]

theorem wellFormed_insertControlRods (G : Nat) (c : Core) (hwf : c.WellFormed) :
    (c.insertControlRods G).WellFormed := by
  unfold WellFormed at *
  show (c.scramCells.foldl (fun es p =>
    modifyAt es (c.index p.1 p.2.1 p.2.2) (scramUpdate G)) c.elements).length = _
  rw [length_foldl_modifyAt (fun p : Int × Int × Int => c.index p.1 p.2.1 p.2.2)
    (fun _ _ => scramUpdate G)]
  exact hwf

end Core

namespace Core

theorem material_rodIn (e : CoreElement) :
    (rodIn e).material =
      if e.material = MaterialType.Fuel then MaterialType.ControlRod else e.material := by
  unfold rodIn
  split <;> rfl

theorem material_rodOut (e : CoreElement) :
    (rodOut e).material =
      if e.material = MaterialType.ControlRod then MaterialType.Fuel else e.material := by
  unfold rodOut
  split <;> rfl

theorem rodIn_of_vessel (e : CoreElement) (h : e.material = MaterialType.Vessel) :
    rodIn e = e := by
  unfold rodIn
  rw [if_neg (by rw [h]; decide)]

theorem rodOut_of_vessel (e : CoreElement) (h : e.material = MaterialType.Vessel) :
    rodOut e = e := by
  unfold rodOut
  rw [if_neg (by rw [h]; decide)]

theorem wellFormed_new (G ng xSize ySize zSize : Nat) :
    (Core.new G ng xSize ySize zSize).WellFormed := by
  unfold WellFormed Core.new initializeCore
  simp only
  rw [length_foldl_modifyAt (fun p : Int × Int × Int => Core.index _ p.1 p.2.1 p.2.2)
    (fun _ p _ => CoreElement.new G _ 300)]
  simp

end Core

namespace Core

theorem scramUpdate_of_fuel (G : Nat) (e : CoreElement) (h : e.material = MaterialType.Fuel) :
    scramUpdate G e = CoreElement.new G MaterialType.ControlRod e.temperature := by
  unfold scramUpdate
  rw [if_pos h]

theorem scramUpdate_of_not_fuel (G : Nat) (e : CoreElement)
    (h : e.material ≠ MaterialType.Fuel) : scramUpdate G e = e := by
  unfold scramUpdate
  rw [if_neg h]

theorem temperature_new (G : Nat) (m : MaterialType) (t : ℚ) :
    (CoreElement.new G m t).temperature = t := by
  unfold CoreElement.new
  split <;> rfl

end Core

/-- Claim C15: on a well-formed core `insertControlRods` turns a cell into ControlRod
exactly when it is a Fuel cell of an alternating interior column (`x`, `y` odd,
`1 ≤ x < xSize - 1`, `1 ≤ y < ySize - 1`, `1 ≤ z < zSize - 1`); such a cell keeps its
temperature and gets population, flux and cross-sections zero; every other cell and
`controlRodInsertion` are unchanged. -/
theorem insertControlRods_frame (G : Nat) (c : Core) (hwf : c.WellFormed) (x y z : Int)
    (hg : c.inGrid x y z) (e : CoreElement) (he : c.cellAt x y z = some e) :
    (c.insertControlRods G).controlRodInsertion = c.controlRodInsertion ∧
    ∃ e', (c.insertControlRods G).cellAt x y z = some e' ∧
      ((c.inAlternatingColumn x y z ∧ e.material = MaterialType.Fuel) →
        e'.material = MaterialType.ControlRod ∧ e'.temperature = e.temperature ∧
        e'.AllZero) ∧
      (¬ (c.inAlternatingColumn x y z ∧ e.material = MaterialType.Fuel) → e' = e) := by
  refine ⟨rfl, _, Core.cellAt_insertControlRods G c hwf x y z hg e he, ?_, ?_⟩
  · rintro ⟨hcol, hfuel⟩
    rw [if_pos hcol, Core.scramUpdate_of_fuel G e hfuel]
    exact ⟨Core.material_new _ _ _, Core.temperature_new _ _ _,
      CoreElement.allZero_new_of_ne_fuel G _ _ (by decide)⟩
  · intro hnot
    by_cases hcol : c.inAlternatingColumn x y z
    · rw [if_pos hcol]
      exact Core.scramUpdate_of_not_fuel G e (fun hf => hnot ⟨hcol, hf⟩)
    · rw [if_neg hcol]

theorem insertControlRods_frame_witness :
    (Core.new 2 2 5 5 5).WellFormed ∧ (Core.new 2 2 5 5 5).inGrid 3 1 2 ∧
    (Core.new 2 2 5 5 5).cellAt 3 1 2 = some (CoreElement.new 2 MaterialType.Fuel 300) ∧
    ∃ e', ((Core.new 2 2 5 5 5).insertControlRods 2).cellAt 3 1 2 = some e' ∧
      e'.material = MaterialType.ControlRod ∧ e'.temperature = 300 ∧ e'.AllZero := by
  have hwf : (Core.new 2 2 5 5 5).WellFormed := Core.wellFormed_new 2 2 5 5 5
  have hg : (Core.new 2 2 5 5 5).inGrid 3 1 2 := by decide
  have hcell : (Core.new 2 2 5 5 5).cellAt 3 1 2 =
      some (CoreElement.new 2 MaterialType.Fuel 300) := by
    rw [Core.cellAt_new 2 2 5 5 5 3 1 2 hg]
    rfl
  obtain ⟨_, e', he', hconv, _⟩ :=
    insertControlRods_frame 2 (Core.new 2 2 5 5 5) hwf 3 1 2 hg _ hcell
  have h := hconv ⟨by decide, Core.material_new 2 MaterialType.Fuel 300⟩
  rw [Core.temperature_new] at h
  exact ⟨hwf, hg, hcell, e', he', h⟩

/-! ## Cell-wise description of the thermal step -/

namespace Core

/-- The element of a cell after `calculateCoreThermals`: the reactivity computed on the
array as it was before the call, then the population and temperature update. -/
theorem cellAt_calculateCoreThermals (c : Core) (dt : ℚ) (hwf : c.WellFormed) (x y z : Int)
    (hg : c.inGrid x y z) (e : CoreElement) (he : c.cellAt x y z = some e) :
    (c.calculateCoreThermals dt).cellAt x y z =
      some (thermalUpdate dt
        (if e.material ≠ MaterialType.Vessel then
          e.calculateReactivity (c.getNeighbors c.elements x y z) else e)) := by
  obtain ⟨h0, _⟩ := c.index_bounds x y z hg
  have hn := (Int.toNat_of_nonneg h0).symm
  have hmem : (x, y, z) ∈ c.allCells := (c.mem_allCells (x, y, z)).2 hg
  obtain ⟨e0, he0, hget⟩ := c.cellAt_isSome hwf x y z hg
  have hee : e0 = e := by
    rw [he] at he0
    exact (Option.some.inj he0).symm
  subst hee
  have step1 := (getElem?_foldl_modifyAt_nodup
    (fun p : Int × Int × Int => c.index p.1 p.2.1 p.2.2)
    (fun es p element =>
      if element.material ≠ MaterialType.Vessel then
        element.calculateReactivity (c.getNeighbors es p.1 p.2.1 p.2.2)
      else element)
    (fun e : CoreElement => e.material)
    (fun _ _ a => material_reactivityUpdate a _)
    (fun s t p h => reactivityUpdate_congr c s t p h)
    c.elements c.allCells c.elements rfl c.nodup_index_allCells).2 (x, y, z) hmem
    (c.index x y z).toNat hn
  have step2 := (getElem?_foldl_modifyAt_nodup
    (fun p : Int × Int × Int => c.index p.1 p.2.1 p.2.2)
    (fun (_ : List CoreElement) (_ : Int × Int × Int) => thermalUpdate dt)
    (fun _ => ()) (fun _ _ _ => rfl) (fun _ _ _ _ => rfl)
    (c.allCells.foldl (reactivityStep c) c.elements) c.allCells
    (c.allCells.foldl (reactivityStep c) c.elements) rfl c.nodup_index_allCells).2
    (x, y, z) hmem (c.index x y z).toNat hn
  rw [reactivityStep_eq] at step2
  rw [step1, hget] at step2
  simp only [Option.map_some'] at step2
  show readAt (c.calculateCoreThermals dt).elements (c.index x y z) = _
  rw [readAt_eq_getElem? _ _ _ hn]
  unfold calculateCoreThermals
  simp only
  rw [reactivityStep_eq]
  exact step2

/-- The value stored by `calculateReactivity` on the neighbours of a cell is the
reactivity rule evaluated on the core. -/
theorem reactivity_calculateReactivity (c : Core) (x y z : Int) (e : CoreElement) :
    (e.calculateReactivity (c.getNeighbors c.elements x y z)).reactivity =
      c.reactivityRule x y z e.temperature := by
  unfold CoreElement.calculateReactivity reactivityRule
  simp only
  rw [CoreElement.reactivityEffect_eq, count_getNeighbors, count_getNeighbors]
  unfold fuelNeighbours controlRodNeighbours
  rw [faceNeighbourMaterials_eq]
  ring

theorem thermalUpdate_of_not_fuel (dt : ℚ) (e : CoreElement)
    (h : e.material ≠ MaterialType.Fuel) : thermalUpdate dt e = e := by
  unfold thermalUpdate
  rw [if_neg h]

theorem thermalUpdate_of_fuel (dt : ℚ) (e : CoreElement) (h : e.material = MaterialType.Fuel) :
    (thermalUpdate dt e).neutronPopulation = e.neutronPopulation * (1 + e.reactivity) ∧
    (thermalUpdate dt e).temperature =
      e.temperature + (e.neutronPopulation * (1 + e.reactivity) * 1000 * dt) / (1 * 300) := by
  unfold thermalUpdate
  rw [if_pos h]
  constructor
  · rfl
  · unfold CoreElement.updateTemperature CoreElement.setNeutronPopulation
    simp only [h]

end Core

/-- Claim C11: after `calculateCoreThermals dt` on a well-formed core, a Fuel cell with
population `N`, temperature `T` before the call and freshly computed reactivity `r`
(the reactivity rule on the core before the call) has population `N' = N * (1 + r)` and
temperature `T + (N' * 1000 * dt) / (1 * 300)`; a Vessel or ControlRod cell keeps its
population and its temperature. -/
theorem thermals_update_fuel_only (c : Core) (dt : ℚ) (hwf : c.WellFormed) (x y z : Int)
    (hg : c.inGrid x y z) (e : CoreElement) (he : c.cellAt x y z = some e) :
    ∃ e', (c.calculateCoreThermals dt).cellAt x y z = some e' ∧
      (e.material = MaterialType.Fuel →
        e'.reactivity = c.reactivityRule x y z e.temperature ∧
        e'.neutronPopulation =
          e.neutronPopulation * (1 + c.reactivityRule x y z e.temperature) ∧
        e'.temperature = e.temperature +
          (e.neutronPopulation * (1 + c.reactivityRule x y z e.temperature) * 1000 * dt)
            / (1 * 300)) ∧
      (e.material ≠ MaterialType.Fuel →
        e'.neutronPopulation = e.neutronPopulation ∧ e'.temperature = e.temperature ∧
        e'.material = e.material) := by
  refine ⟨_, Core.cellAt_calculateCoreThermals c dt hwf x y z hg e he, ?_, ?_⟩
  · intro hf
    have hnv : e.material ≠ MaterialType.Vessel := by rw [hf]; decide
    rw [if_pos hnv]
    have hfuel : (e.calculateReactivity (c.getNeighbors c.elements x y z)).material
        = MaterialType.Fuel := hf
    obtain ⟨hp, ht⟩ := Core.thermalUpdate_of_fuel dt _ hfuel
    rw [Core.reactivity_thermalUpdate, hp, ht, Core.reactivity_calculateReactivity]
    exact ⟨rfl, rfl, rfl⟩
  · intro hnf
    have hm : (if e.material ≠ MaterialType.Vessel then
        e.calculateReactivity (c.getNeighbors c.elements x y z) else e).material
        ≠ MaterialType.Fuel := by
      rw [Core.material_reactivityUpdate]
      exact hnf
    rw [Core.thermalUpdate_of_not_fuel dt _ hm]
    split <;> exact ⟨rfl, rfl, rfl⟩

theorem thermals_update_fuel_only_witness :
    (Core.new 1 1 4 4 4).WellFormed ∧ (Core.new 1 1 4 4 4).inGrid 1 1 1 ∧
    (Core.new 1 1 4 4 4).cellAt 1 1 1 = some (CoreElement.new 1 MaterialType.Fuel 300) ∧
    ∃ e', ((Core.new 1 1 4 4 4).calculateCoreThermals (1 / 100)).cellAt 1 1 1 = some e' ∧
      e'.neutronPopulation = 103 / 100 ∧ e'.temperature = 900103 / 3000 := by
  have hwf : (Core.new 1 1 4 4 4).WellFormed := Core.wellFormed_new 1 1 4 4 4
  have hg : (Core.new 1 1 4 4 4).inGrid 1 1 1 := by decide
  have hcell : (Core.new 1 1 4 4 4).cellAt 1 1 1 =
      some (CoreElement.new 1 MaterialType.Fuel 300) := by
    rw [Core.cellAt_new 1 1 4 4 4 1 1 1 hg]
    rfl
  obtain ⟨e', he', hfuel, _⟩ :=
    thermals_update_fuel_only (Core.new 1 1 4 4 4) (1 / 100) hwf 1 1 1 hg _ hcell
  obtain ⟨_, hp, ht⟩ := hfuel (Core.material_new 1 MaterialType.Fuel 300)
  have hnf : (Core.new 1 1 4 4 4).fuelNeighbours 1 1 1 = 3 := by decide
  have hnr : (Core.new 1 1 4 4 4).controlRodNeighbours 1 1 1 = 0 := by decide
  have hT : (CoreElement.new 1 MaterialType.Fuel 300).temperature = 300 := rfl
  have hN : (CoreElement.new 1 MaterialType.Fuel 300).neutronPopulation = 1 := rfl
  refine ⟨hwf, hg, hcell, e', he', ?_, ?_⟩
  · rw [hp, hN]
    unfold Core.reactivityRule
    rw [hnf, hnr, hT]
    norm_num
  · rw [ht, hN]
    unfold Core.reactivityRule
    rw [hnf, hnr, hT]
    norm_num

/-! ## What the flux solve reads -/

namespace Core

theorem fluxAt_congr (es es' : List CoreElement)
    (h : es.map CoreElement.neutronics = es'.map CoreElement.neutronics) (i : Int) (g : Nat) :
    fluxAt es i g = fluxAt es' i g := by
  have hr : (readAt es i).map CoreElement.neutronics =
      (readAt es' i).map CoreElement.neutronics := by
    rw [readAt_map, readAt_map, h]
  unfold fluxAt
  cases h1 : readAt es i with
  | none =>
    cases h2 : readAt es' i with
    | none => rfl
    | some b => rw [h1, h2] at hr; simp at hr
  | some a =>
    cases h2 : readAt es' i with
    | none => rw [h1, h2] at hr; simp at hr
    | some b =>
      rw [h1, h2] at hr
      simp only [Option.map_some', Option.some.injEq, CoreElement.neutronics,
        Prod.mk.injEq] at hr
      simp only [CoreElement.getNeutronFlux, hr.2.1]

/-- The value computed for a cell depends on the core only through the dimensions, the
group count and the neutronic data of the elements. -/
theorem fluxUpdate_congr (c c' : Core) (hy : c'.ySize = c.ySize) (hz : c'.zSize = c.zSize)
    (hn : c'.numEnergyGroups = c.numEnergyGroups)
    (h : c.elements.map CoreElement.neutronics = c'.elements.map CoreElement.neutronics)
    (dt : ℚ) (g : Nat) (e e' : CoreElement) (he : e.neutronics = e'.neutronics)
    (x y z : Int) :
    c.fluxUpdate dt g e x y z = c'.fluxUpdate dt g e' x y z := by
  have hidx : ∀ a b d : Int, c'.index a b d = c.index a b d := by
    intro a b d
    unfold index
    rw [hy, hz]
  simp only [CoreElement.neutronics, Prod.mk.injEq] at he
  obtain ⟨_, hflux, hsa, hsf, hchi, hss⟩ := he
  unfold fluxUpdate
  simp only [hidx, hn, fluxAt_congr c.elements c'.elements h, CoreElement.getNeutronFlux,
    CoreElement.getSigmaA, CoreElement.getSigmaS, CoreElement.getSigmaF, CoreElement.getChi,
    hflux, hsa, hsf, hchi, hss]

theorem fluxStep_congr (c c' : Core) (hy : c'.ySize = c.ySize) (hz : c'.zSize = c.zSize)
    (hn : c'.numEnergyGroups = c.numEnergyGroups)
    (h : c.elements.map CoreElement.neutronics = c'.elements.map CoreElement.neutronics)
    (dt : ℚ) (g : Nat) (nf : List (List ℚ)) (p : Int × Int × Int) :
    c.fluxStep dt g nf p = c'.fluxStep dt g nf p := by
  have hidx : c'.index p.1 p.2.1 p.2.2 = c.index p.1 p.2.1 p.2.2 := by
    unfold index
    rw [hy, hz]
  have hr : (readAt c.elements (c.index p.1 p.2.1 p.2.2)).map CoreElement.neutronics =
      (readAt c'.elements (c.index p.1 p.2.1 p.2.2)).map CoreElement.neutronics := by
    rw [readAt_map, readAt_map, h]
  unfold fluxStep
  simp only [hidx]
  cases h1 : readAt c.elements (c.index p.1 p.2.1 p.2.2) with
  | none =>
    cases h2 : readAt c'.elements (c.index p.1 p.2.1 p.2.2) with
    | none => rfl
    | some b => rw [h1, h2] at hr; simp at hr
  | some a =>
    cases h2 : readAt c'.elements (c.index p.1 p.2.1 p.2.2) with
    | none => rw [h1, h2] at hr; simp at hr
    | some b =>
      rw [h1, h2] at hr
      simp only [Option.map_some', Option.some.injEq] at hr
      have hmat : a.material = b.material := by
        have := congrArg Prod.fst hr
        exact this
      simp only [hmat, fluxUpdate_congr c c' hy hz hn h dt g a b hr]

theorem newFluxes_congr (c c' : Core) (hx : c'.xSize = c.xSize) (hy : c'.ySize = c.ySize)
    (hz : c'.zSize = c.zSize) (hn : c'.numEnergyGroups = c.numEnergyGroups)
    (h : c.elements.map CoreElement.neutronics = c'.elements.map CoreElement.neutronics)
    (dt : ℚ) : c.newFluxes dt = c'.newFluxes dt := by
  have hlen : c'.elements.length = c.elements.length := by
    have := congrArg List.length h
    simpa using this.symm
  have hint : c'.interiorCells = c.interiorCells := by
    unfold interiorCells
    rw [hx, hy, hz]
  have hstep : ∀ g, c'.fluxStep dt g = c.fluxStep dt g := by
    intro g
    funext nf p
    exact (fluxStep_congr c c' hy hz hn h dt g nf p).symm
  unfold newFluxes
  simp only [hn, hlen, hint, hstep]

theorem neutronics_mapIdx_congr (f : Nat → Nat × ℚ) (s s' : List CoreElement)
    (h : s.map CoreElement.neutronics = s'.map CoreElement.neutronics) :
    (s.mapIdx (fun i e => e.setNeutronFlux (f i).1 (f i).2)).map CoreElement.neutronics =
      (s'.mapIdx (fun i e => e.setNeutronFlux (f i).1 (f i).2)).map CoreElement.neutronics := by
  apply List.ext_getElem?
  intro n
  have hn : (s.map CoreElement.neutronics)[n]? = (s'.map CoreElement.neutronics)[n]? := by
    rw [h]
  rw [List.getElem?_map, List.getElem?_map] at hn
  rw [List.getElem?_map, List.getElem?_map, List.getElem?_mapIdx, List.getElem?_mapIdx]
  cases h1 : s[n]? with
  | none =>
    cases h2 : s'[n]? with
    | none => rfl
    | some b => rw [h1, h2] at hn; simp at hn
  | some a =>
    cases h2 : s'[n]? with
    | none => rw [h1, h2] at hn; simp at hn
    | some b =>
      rw [h1, h2] at hn
      simp only [Option.map_some', Option.some.injEq, CoreElement.neutronics,
        Prod.mk.injEq] at hn
      simp only [Option.map_some', CoreElement.neutronics, CoreElement.setNeutronFlux, hn.1,
        hn.2.1, hn.2.2.1, hn.2.2.2.1, hn.2.2.2.2.1, hn.2.2.2.2.2]

/-- Two cores of the same shape whose elements agree on the neutronic data have, after
the flux solve, elements that agree on the neutronic data: `Sigma_a_0`, the
concentrations, temperature, population and reactivity play no part in it. -/
theorem fluxSolve_congr (c c' : Core) (hx : c'.xSize = c.xSize) (hy : c'.ySize = c.ySize)
    (hz : c'.zSize = c.zSize) (hn : c'.numEnergyGroups = c.numEnergyGroups)
    (h : c.elements.map CoreElement.neutronics = c'.elements.map CoreElement.neutronics)
    (dt : ℚ) :
    (c.calculateMultiGroupNeutronFlux dt).elements.map CoreElement.neutronics =
      (c'.calculateMultiGroupNeutronFlux dt).elements.map CoreElement.neutronics := by
  unfold calculateMultiGroupNeutronFlux
  simp only [← newFluxes_congr c c' hx hy hz hn h dt, hn]
  generalize c.newFluxes dt = nf
  generalize List.range c.numEnergyGroups = groups
  generalize c.elements = s at h
  generalize c'.elements = s' at h
  induction groups generalizing s s' with
  | nil => exact h
  | cons g rest ih =>
    simp only [List.foldl_cons]
    apply ih
    exact neutronics_mapIdx_congr (fun i => (g, (nf.getD g []).getD i 0)) s s' h

theorem neutronics_updateFuelBurnup (c : Core) (dt : ℚ) :
    (c.updateFuelBurnup dt).elements.map CoreElement.neutronics =
      c.elements.map CoreElement.neutronics := by
  unfold updateFuelBurnup
  simp only [List.map_map]
  apply List.map_congr_left
  intro e _
  simp only [Function.comp]
  split <;> rfl

theorem cellAt_updateFuelBurnup (c : Core) (dt : ℚ) (x y z : Int) :
    (c.updateFuelBurnup dt).cellAt x y z =
      (c.cellAt x y z).map (fun element =>
        if element.material = MaterialType.Fuel then element.updateBurnup dt else element) := by
  unfold cellAt
  rw [readAt_map]
  rfl

end Core

/-- Claim C13, evaluated on the code: in the 3 x 3 x 3 core (one Fuel cell, flux 1)
`updateFuelBurnup` with `dt = 0.01` and with `dt = 0.05` leaves different U-235
concentrations and different base cross-sections `Sigma_a_0` (8.5785 and 42.8925), but
the cross-section `getSigmaA(0)` read by the absorption term is 0.01 in both, and the
flux solve that follows produces the same flux in every cell as without any burnup. -/
theorem burnup_does_not_reach_absorption :
    (((Core.new 1 1 3 3 3).updateFuelBurnup (1 / 100)).cellAt 1 1 1).map
        (fun e => (e.material, e.getNeutronFlux 0, e.U235_concentration, e.Sigma_a_0,
          e.getSigmaA 0))
      = some (MaterialType.Fuel, 1, -1 / 20000, 17157 / 2000, 1 / 100) ∧
    (((Core.new 1 1 3 3 3).updateFuelBurnup (5 / 100)).cellAt 1 1 1).map
        (fun e => (e.material, e.getNeutronFlux 0, e.U235_concentration, e.Sigma_a_0,
          e.getSigmaA 0))
      = some (MaterialType.Fuel, 1, -1 / 4000, 17157 / 400, 1 / 100) ∧
    (((Core.new 1 1 3 3 3).updateFuelBurnup (1 / 100)).calculateMultiGroupNeutronFlux
        (1 / 100)).elements.map (fun e => e.neutronFlux)
      = (((Core.new 1 1 3 3 3).updateFuelBurnup (5 / 100)).calculateMultiGroupNeutronFlux
        (1 / 100)).elements.map (fun e => e.neutronFlux) ∧
    (((Core.new 1 1 3 3 3).updateFuelBurnup (1 / 100)).calculateMultiGroupNeutronFlux
        (1 / 100)).elements.map (fun e => e.neutronFlux)
      = ((Core.new 1 1 3 3 3).calculateMultiGroupNeutronFlux
        (1 / 100)).elements.map (fun e => e.neutronFlux) := by
  have hg : (Core.new 1 1 3 3 3).inGrid 1 1 1 := by decide
  have hcell : (Core.new 1 1 3 3 3).cellAt 1 1 1 =
      some (CoreElement.new 1 MaterialType.Fuel 300) := by
    rw [Core.cellAt_new 1 1 3 3 3 1 1 1 hg]
    rfl
  have hflux : ∀ dt : ℚ,
      (((Core.new 1 1 3 3 3).updateFuelBurnup dt).calculateMultiGroupNeutronFlux
        (1 / 100)).elements.map (fun e => e.neutronFlux)
      = ((Core.new 1 1 3 3 3).calculateMultiGroupNeutronFlux
        (1 / 100)).elements.map (fun e => e.neutronFlux) := by
    intro dt
    have h := Core.fluxSolve_congr ((Core.new 1 1 3 3 3).updateFuelBurnup dt)
      (Core.new 1 1 3 3 3) rfl rfl rfl rfl
      (Core.neutronics_updateFuelBurnup (Core.new 1 1 3 3 3) dt) (1 / 100)
    have h2 := congrArg (List.map (fun n : MaterialType × List ℚ × List ℚ × List ℚ × List ℚ ×
      List (List ℚ) => n.2.1)) h
    simpa only [List.map_map, Function.comp, CoreElement.neutronics] using h2
  refine ⟨?_, ?_, ?_, hflux _⟩
  · rw [Core.cellAt_updateFuelBurnup, hcell]
    simp only [Option.map_some', Core.material_new, if_true]
    simp only [CoreElement.updateBurnup, CoreElement.getNeutronFlux, CoreElement.getSigmaF,
      CoreElement.getSigmaA, CoreElement.calculateSigmaA0, CoreElement.new, if_true,
      List.replicate, List.getD_cons_zero]
    norm_num
  · rw [Core.cellAt_updateFuelBurnup, hcell]
    simp only [Option.map_some', Core.material_new, if_true]
    simp only [CoreElement.updateBurnup, CoreElement.getNeutronFlux, CoreElement.getSigmaF,
      CoreElement.getSigmaA, CoreElement.calculateSigmaA0, CoreElement.new, if_true,
      List.replicate, List.getD_cons_zero]
    norm_num
  · rw [hflux, hflux]

/-! ## The flux buffer, entry by entry -/

theorem modify_modify_same {α : Type} (f h : α → α) (n : Nat) (l : List α) :
    (l.modify f n).modify h n = l.modify (fun a => h (f a)) n := by
  apply List.ext_getElem?
  intro m
  rw [List.getElem?_modify, List.getElem?_modify, List.getElem?_modify]
  cases l[m]? with
  | none => rfl
  | some a =>
    by_cases hn : n = m
    · simp [hn]
    · simp [hn]

theorem modify_self {α : Type} (n : Nat) (l : List α) : l.modify (fun a => a) n = l := by
  apply List.ext_getElem?
  intro m
  rw [List.getElem?_modify]
  cases l[m]? <;> simp

theorem modifyAt_self {α : Type} (v : List α) (i : Int) : modifyAt v i (fun a => a) = v := by
  unfold modifyAt
  split
  · exact modify_self _ _
  · rfl

theorem modifyAt_natCast {α : Type} (v : List α) (n : Nat) (f : α → α) :
    modifyAt v (n : Int) f = v.modify f n := by
  unfold modifyAt
  simp

/-- A loop that updates entry `g` by `H g` for each `g` of a duplicate-free list. -/
theorem getElem?_foldl_modify_nodup {α : Type} (H : Nat → α → α) (L : List Nat)
    (hnd : L.Nodup) (v : List α) (g : Nat) :
    (L.foldl (fun s k => s.modify (H k) k) v)[g]? =
      if g ∈ L then (v[g]?).map (H g) else v[g]? := by
  induction L generalizing v with
  | nil => simp
  | cons k rest ih =>
    simp only [List.foldl_cons, List.nodup_cons] at hnd ⊢
    rw [ih hnd.2, List.getElem?_modify]
    by_cases hk : k = g
    · subst hk
      simp [hnd.1]
    · have hk' : ¬ g = k := fun h => hk h.symm
      by_cases hr : g ∈ rest
      · simp [hk, hk', hr]
      · simp [hk, hk', hr]

namespace Core

theorem fluxStep_eq (c : Core) (dt : ℚ) (g : Nat) (nf : List (List ℚ)) (p : Int × Int × Int) :
    c.fluxStep dt g nf p =
      nf.modify (fun row =>
        modifyAt row (c.index p.1 p.2.1 p.2.2) (c.fluxCellValue dt g p)) g := by
  unfold fluxStep fluxCellValue
  simp only
  cases readAt c.elements (c.index p.1 p.2.1 p.2.2) with
  | none =>
    simp only
    have : (fun row : List ℚ => modifyAt row (c.index p.1 p.2.1 p.2.2) (fun old => old))
        = fun row => row := by
      funext row
      exact modifyAt_self row _
    rw [this, modify_self]
  | some element =>
    simp only
    split <;> rfl

theorem inGrid_of_mem_interiorCells (c : Core) (p : Int × Int × Int)
    (hp : p ∈ c.interiorCells) : c.inGrid p.1 p.2.1 p.2.2 := by
  rw [mem_interiorCells] at hp
  unfold inGrid
  omega

theorem nodup_index_interiorCells (c : Core) :
    (c.interiorCells.map (fun p => c.index p.1 p.2.1 p.2.2)).Nodup := by
  refine List.Nodup.map_on ?_ (nodup_loopNest _ _ _ (nodup_upTo _ _) (nodup_upTo _ _)
    (nodup_upTo _ _))
  intro p hp q hq h
  obtain ⟨h1, h2, h3⟩ := c.index_injective _ _ _ _ _ _ (c.inGrid_of_mem_interiorCells p hp)
    (c.inGrid_of_mem_interiorCells q hq) h
  exact Prod.ext h1 (Prod.ext h2 h3)

/-- The cell loop of one group is one update of the row of that group. -/
theorem foldl_fluxStep (c : Core) (dt : ℚ) (g : Nat) (L : List (Int × Int × Int))
    (nf : List (List ℚ)) :
    L.foldl (c.fluxStep dt g) nf =
      nf.modify (fun row => L.foldl (fun row p =>
        modifyAt row (c.index p.1 p.2.1 p.2.2) (c.fluxCellValue dt g p)) row) g := by
  induction L generalizing nf with
  | nil => exact (modify_self g nf).symm
  | cons q rest ih =>
    simp only [List.foldl_cons]
    rw [ih, fluxStep_eq, modify_modify_same]

/-- Row `g` of the buffer after the group loop is the all-zero row after the cell loop
of group `g`. -/
theorem newFluxes_row (c : Core) (dt : ℚ) (g : Nat) (hg : g < c.numEnergyGroups) :
    (c.newFluxes dt)[g]? =
      some (c.interiorCells.foldl (fun row p =>
        modifyAt row (c.index p.1 p.2.1 p.2.2) (c.fluxCellValue dt g p))
        (List.replicate c.elements.length 0)) := by
  unfold newFluxes
  simp only [foldl_fluxStep]
  rw [getElem?_foldl_modify_nodup (fun g row => c.interiorCells.foldl (fun row p =>
      modifyAt row (c.index p.1 p.2.1 p.2.2) (c.fluxCellValue dt g p)) row)
    (List.range c.numEnergyGroups) (List.nodup_range _), if_pos (List.mem_range.2 hg),
    List.getElem?_replicate, if_pos hg]
  rfl

/-- Entry of the buffer for group `g` at the index of a cell of the grid: the computed
value at an interior Fuel cell, zero at every other cell. -/
theorem newFluxes_entry (c : Core) (dt : ℚ) (hwf : c.WellFormed) (g : Nat)
    (hg : g < c.numEnergyGroups) (x y z : Int) (hgrid : c.inGrid x y z) (e : CoreElement)
    (he : c.cellAt x y z = some e) :
    ((c.newFluxes dt).getD g []).getD (c.index x y z).toNat 0 =
      if (x, y, z) ∈ c.interiorCells ∧ e.material = MaterialType.Fuel then
        c.fluxUpdate dt g e x y z
      else 0 := by
  obtain ⟨hi0, _⟩ := c.index_bounds x y z hgrid
  have hn := (Int.toNat_of_nonneg hi0).symm
  obtain ⟨e0, _, hget⟩ := c.cellAt_isSome hwf x y z hgrid
  have hlt : (c.index x y z).toNat < c.elements.length := by
    by_contra hcon
    rw [List.getElem?_eq_none (not_lt.1 hcon)] at hget
    cases hget
  have hzero : (List.replicate c.elements.length (0 : ℚ))[(c.index x y z).toNat]? = some 0 := by
    rw [List.getElem?_replicate, if_pos hlt]
  have hrow := getElem?_foldl_modifyAt_nodup
    (fun p : Int × Int × Int => c.index p.1 p.2.1 p.2.2)
    (fun (_ : List ℚ) (p : Int × Int × Int) => c.fluxCellValue dt g p)
    (fun _ => ()) (fun _ _ _ => rfl) (fun _ _ _ _ => rfl)
    (List.replicate c.elements.length (0 : ℚ)) c.interiorCells
    (List.replicate c.elements.length (0 : ℚ)) rfl c.nodup_index_interiorCells
  rw [List.getD_eq_getElem?_getD, List.getD_eq_getElem?_getD, c.newFluxes_row dt g hg,
    Option.getD_some]
  by_cases hint : (x, y, z) ∈ c.interiorCells
  · rw [hrow.2 (x, y, z) hint _ hn, hzero]
    simp only [Option.map_some', Option.getD_some]
    unfold fluxCellValue
    have hread : readAt c.elements (c.index x y z) = some e := he
    simp only [hread]
    by_cases hf : e.material = MaterialType.Fuel
    · rw [if_pos hf, if_pos ⟨hint, hf⟩]
    · rw [if_neg hf, if_neg (fun h => hf h.2)]
  · rw [hrow.1 _ (fun p hp hidx => ?_), hzero, if_neg (fun h => hint h.1)]
    · rfl
    · apply hint
      obtain ⟨h1, h2, h3⟩ := c.index_injective _ _ _ _ _ _
        (c.inGrid_of_mem_interiorCells p hp) hgrid (hidx.trans hn.symm)
      have : p = (x, y, z) := Prod.ext h1 (Prod.ext h2 h3)
      rw [← this]
      exact hp

end Core

/-! ## The flux solve, cell by cell -/

theorem foldl_add_eq_sum {ι : Type} (f : ι → ℚ) (L : List ι) (acc : ℚ) :
    L.foldl (fun acc k => acc + f k) acc = acc + (L.map f).sum := by
  induction L generalizing acc with
  | nil => simp
  | cons k rest ih =>
    simp only [List.foldl_cons, List.map_cons, List.sum_cons]
    rw [ih]
    ring

theorem foldl_add_filter_eq_sum (f : Nat → ℚ) (g : Nat) (L : List Nat) (acc : ℚ) :
    L.foldl (fun acc k => if k ≠ g then acc + f k else acc) acc =
      acc + ((L.filter (fun k => k ≠ g)).map f).sum := by
  induction L generalizing acc with
  | nil => simp
  | cons k rest ih =>
    simp only [List.foldl_cons]
    rw [ih]
    by_cases hk : k = g
    · simp [hk]
    · simp only [ne_eq, hk, not_false_eq_true, if_true, decide_True, List.filter_cons_of_pos,
        List.map_cons, List.sum_cons]
      ring

/-- Entry `g` of a vector after the writes `v[k] = w k` for every `k` of a duplicate-free
list that contains `g`. -/
theorem getD_foldl_set (w : Nat → ℚ) (L : List Nat) (hnd : L.Nodup) (v : List ℚ) (g : Nat)
    (hg : g ∈ L) (hlen : g < v.length) :
    (L.foldl (fun v k => v.set k (w k)) v).getD g 0 = w g := by
  induction L generalizing v with
  | nil => cases hg
  | cons k rest ih =>
    simp only [List.foldl_cons, List.nodup_cons] at hnd ⊢
    by_cases hk : g = k
    · subst hk
      have hkeep : ∀ (r : List Nat) (u : List ℚ), g ∉ r →
          (r.foldl (fun v k => v.set k (w k)) u).getD g 0 = u.getD g 0 := by
        intro r
        induction r with
        | nil => intro u _; rfl
        | cons j r ihr =>
          intro u hj
          simp only [List.foldl_cons]
          rw [ihr _ (fun h => hj (List.mem_cons_of_mem _ h))]
          have hne : j ≠ g := fun h => hj (h ▸ List.mem_cons_self _ _)
          rw [List.getD_eq_getElem?_getD, List.getD_eq_getElem?_getD,
            List.getElem?_set_ne hne]
      rw [hkeep rest _ hnd.1, List.getD_eq_getElem?_getD, List.getElem?_set_self hlen]
      rfl
    · have hmem : g ∈ rest := by
        rcases List.mem_cons.1 hg with h | h
        · exact absurd h hk
        · exact h
      exact ih hnd.2 _ hmem (by rw [List.length_set]; exact hlen)

namespace Core

theorem getElem?_fluxCommit (v : Nat → Nat → ℚ) (groups : List Nat) (es : List CoreElement)
    (n : Nat) :
    (groups.foldl (fun es g => es.mapIdx (fun i element =>
        element.setNeutronFlux g (v g i))) es)[n]? =
      (es[n]?).map (fun element =>
        groups.foldl (fun el g => el.setNeutronFlux g (v g n)) element) := by
  induction groups generalizing es with
  | nil => simp
  | cons g rest ih =>
    simp only [List.foldl_cons]
    rw [ih, List.getElem?_mapIdx]
    cases es[n]? <;> rfl

theorem neutronFlux_foldl_set (w : Nat → ℚ) (groups : List Nat) (e : CoreElement) :
    (groups.foldl (fun el g => el.setNeutronFlux g (w g)) e).neutronFlux =
      groups.foldl (fun fl g => fl.set g (w g)) e.neutronFlux := by
  induction groups generalizing e with
  | nil => rfl
  | cons g rest ih =>
    simp only [List.foldl_cons]
    rw [ih]
    rfl

/-- The element of a cell after the flux solve: the element before with the buffer
entries of its index stored group by group. -/
theorem cellAt_calculateMultiGroupNeutronFlux (c : Core) (dt : ℚ) (hwf : c.WellFormed)
    (x y z : Int) (hgrid : c.inGrid x y z) (e : CoreElement) (he : c.cellAt x y z = some e) :
    (c.calculateMultiGroupNeutronFlux dt).cellAt x y z =
      some ((List.range c.numEnergyGroups).foldl (fun el g =>
        el.setNeutronFlux g (((c.newFluxes dt).getD g []).getD (c.index x y z).toNat 0)) e) := by
  obtain ⟨hi0, _⟩ := c.index_bounds x y z hgrid
  have hn := (Int.toNat_of_nonneg hi0).symm
  obtain ⟨e0, he0, hget⟩ := c.cellAt_isSome hwf x y z hgrid
  have hee : e0 = e := by
    rw [he] at he0
    exact (Option.some.inj he0).symm
  subst hee
  show readAt (c.calculateMultiGroupNeutronFlux dt).elements (c.index x y z) = _
  rw [readAt_eq_getElem? _ _ _ hn]
  unfold calculateMultiGroupNeutronFlux
  simp only
  rw [getElem?_fluxCommit (fun g i => ((c.newFluxes dt).getD g []).getD i 0), hget]
  rfl

theorem fluxAt_eq_phi (c : Core) (g : Nat) (x y z : Int) :
    fluxAt c.elements (c.index x y z) g = c.phi g x y z := rfl

/-- The value computed by the loop body is the explicit update of the specification. -/
theorem fluxUpdate_eq_fluxRule (c : Core) (dt : ℚ) (g : Nat) (x y z : Int) (e : CoreElement)
    (he : c.cellAt x y z = some e) :
    c.fluxUpdate dt g e x y z = c.fluxRule dt g x y z e := by
  have hphi : ∀ k : Nat, e.getNeutronFlux k = c.phi k x y z := by
    intro k
    unfold phi
    rw [he]
  unfold fluxUpdate fluxRule faceNeighbours
  simp only [fluxAt_eq_phi, foldl_add_eq_sum, foldl_add_filter_eq_sum, hphi, List.map_cons,
    List.map_nil, List.sum_cons, List.sum_nil]
  ring

end Core

namespace Core

theorem mem_interiorCells_iff (c : Core) (x y z : Int) (hgrid : c.inGrid x y z) :
    (x, y, z) ∈ c.interiorCells ↔ ¬ c.onBoundary x y z := by
  rw [mem_interiorCells]
  unfold inGrid at hgrid
  unfold onBoundary
  dsimp only
  omega

theorem phi_new (G ng xSize ySize zSize : Nat) (g : Nat) (x y z : Int)
    (h : (Core.new G ng xSize ySize zSize).inGrid x y z) :
    (Core.new G ng xSize ySize zSize).phi g x y z =
      (CoreElement.new G
        (if (Core.new G ng xSize ySize zSize).onBoundary x y z then MaterialType.Vessel
         else MaterialType.Fuel) 300).getNeutronFlux g := by
  unfold phi
  rw [cellAt_new G ng xSize ySize zSize x y z h]

end Core

/-- The flux solve for the groups below the group count member of the core:
`calculateMultiGroupNeutronFlux dt` on a well-formed core computes the new flux of such a
group `g` from the fluxes before the call: for an interior Fuel cell it is
`phi_g + dt * (sum over the six face neighbours of (phi_g(n) - phi_g) -
Sigma_a[g] * phi_g + sum over g' ≠ g of Sigma_s[g'][g] * phi_g' + sum over g' of
Chi[g] * Sigma_f[g'] * phi_g')`, the sums over `g'` running below the group count member
and all `phi` read from the core before the call; for every other cell (boundary cell or
interior non-Fuel cell) it is `0`. -/
theorem flux_solve_below_group_count (c : Core) (dt : ℚ) (hwf : c.WellFormed) (g : Nat)
    (hg : g < c.numEnergyGroups) (x y z : Int) (hgrid : c.inGrid x y z) (e : CoreElement)
    (he : c.cellAt x y z = some e) (hlen : g < e.neutronFlux.length) :
    ∃ e', (c.calculateMultiGroupNeutronFlux dt).cellAt x y z = some e' ∧
      ((¬ c.onBoundary x y z ∧ e.material = MaterialType.Fuel) →
        e'.getNeutronFlux g = c.fluxRule dt g x y z e) ∧
      (¬ (¬ c.onBoundary x y z ∧ e.material = MaterialType.Fuel) →
        e'.getNeutronFlux g = 0) := by
  refine ⟨_, Core.cellAt_calculateMultiGroupNeutronFlux c dt hwf x y z hgrid e he, ?_⟩
  have hval : ((List.range c.numEnergyGroups).foldl (fun el g =>
        el.setNeutronFlux g (((c.newFluxes dt).getD g []).getD (c.index x y z).toNat 0))
        e).getNeutronFlux g =
      if (x, y, z) ∈ c.interiorCells ∧ e.material = MaterialType.Fuel then
        c.fluxUpdate dt g e x y z
      else 0 := by
    unfold CoreElement.getNeutronFlux
    rw [Core.neutronFlux_foldl_set
        (fun g => ((c.newFluxes dt).getD g []).getD (c.index x y z).toNat 0),
      getD_foldl_set _ _ (List.nodup_range _) _ g (List.mem_range.2 hg) hlen]
    exact Core.newFluxes_entry c dt hwf g hg x y z hgrid e he
  have hiff := Core.mem_interiorCells_iff c x y z hgrid
  rw [hval]
  constructor
  · intro h
    rw [if_pos ⟨hiff.2 h.1, h.2⟩]
    exact Core.fluxUpdate_eq_fluxRule c dt g x y z e he
  · intro h
    rw [if_neg (fun h' => h ⟨hiff.1 h'.1, h'.2⟩)]

/-! ## Scheduler pacing, command dispatch and the coolant taps -/

namespace MainSimulation

/-- Claim C18, evaluated on the code: the sleep is computed from the clamped `deltaTime`,
not from the measured time.  For a measured time `e ≥ 0.01` the loop sleeps `0.033 - e`
when that is positive and warns otherwise (`0.010` gives `0.023`, `0.040` a warning);
but for `e = 0.005` it sleeps `0.023`, not `0.033 - 0.005 = 0.028`, and for every
`e < 0.01` it sleeps `0.023` whatever `e` is. -/
theorem pace_uses_clamped_time :
    pace (5 / 1000) = (1 / 100, Pacing.sleep (23 / 1000)) ∧
    (33 / 1000 - 5 / 1000 : ℚ) = 28 / 1000 ∧
    (∀ e : ℚ, e < 1 / 100 → (pace e).2 = Pacing.sleep (23 / 1000)) ∧
    (∀ e : ℚ, 1 / 100 ≤ e → 0 < 33 / 1000 - e → (pace e).2 = Pacing.sleep (33 / 1000 - e)) ∧
    (∀ e : ℚ, 1 / 100 ≤ e → ¬ 0 < 33 / 1000 - e → ∃ ms, (pace e).2 = Pacing.warning ms) ∧
    (pace (10 / 1000)).2 = Pacing.sleep (23 / 1000) ∧
    (∃ ms, (pace (40 / 1000)).2 = Pacing.warning ms) := by
  have hlow : ∀ e : ℚ, e < 1 / 100 → pace e = (1 / 100, Pacing.sleep (23 / 1000)) := by
    intro e he
    unfold pace
    simp only [if_pos he]
    rw [if_pos (by norm_num)]
    norm_num
  have hmid : ∀ e : ℚ, 1 / 100 ≤ e → 0 < 33 / 1000 - e →
      (pace e).2 = Pacing.sleep (33 / 1000 - e) := by
    intro e h1 h2
    have h3 : ¬ e < 1 / 100 := not_lt.2 h1
    have h4 : ¬ e > 5 / 100 := by
      intro h
      linarith
    unfold pace
    simp only [if_neg h3, if_neg h4]
    rw [if_pos (by linarith)]
  have hhigh : ∀ e : ℚ, 1 / 100 ≤ e → ¬ 0 < 33 / 1000 - e →
      ∃ ms, (pace e).2 = Pacing.warning ms := by
    intro e h1 h2
    have h3 : ¬ e < 1 / 100 := not_lt.2 h1
    unfold pace
    simp only [if_neg h3]
    by_cases h4 : e > 5 / 100
    · simp only [if_pos h4]
      rw [if_neg (by norm_num)]
      exact ⟨_, rfl⟩
    · simp only [if_neg h4]
      rw [if_neg (by intro h; apply h2; linarith)]
      exact ⟨_, rfl⟩
  refine ⟨hlow _ (by norm_num), by norm_num, fun e he => by rw [hlow e he], hmid, hhigh, ?_, ?_⟩
  · rw [hmid _ (by norm_num) (by norm_num)]
    norm_num
  · exact hhigh _ (by norm_num) (by norm_num)

/-- Claim C19, evaluated on the code: the truncated line `initiate casualty` makes
`substr(18)` throw outside any inner handler, so the outer handler clears the run flag;
the truncated line `adjust rods`, the line `initiate casualty xyz` and an unrecognised
line only produce a message and leave the whole state unchanged. -/
theorem truncated_casualty_stops_run (stod : List Char → Option ℚ) (sim : MainSimulation) :
    handleUserInput stod sim "initiate casualty".toList =
      ({ sim with running := false }, [Message.exceptionInHandleUserInput]) ∧
    handleUserInput stod sim "adjust rods".toList = (sim, [Message.invalidDepth]) ∧
    handleUserInput stod sim "initiate casualty xyz".toList = (sim, [Message.unknownCasualty]) ∧
    handleUserInput stod sim "foo".toList = (sim, [Message.unknownCommand]) := by
  refine ⟨?_, ?_, ?_, ?_⟩
  · have h : dispatch stod sim "initiate casualty".toList = none := by
      unfold dispatch
      rw [if_neg (by decide), if_neg (by decide), if_pos (by decide)]
      have : substr "initiate casualty".toList 18 = none := by decide
      rw [this]
    unfold handleUserInput
    rw [h]
  · have h : dispatch stod sim "adjust rods".toList = some (sim, [Message.invalidDepth]) := by
      unfold dispatch
      rw [if_neg (by decide), if_pos (by decide)]
      have : substr "adjust rods".toList 12 = none := by decide
      rw [this]
    unfold handleUserInput
    rw [h]
  · have h : dispatch stod sim "initiate casualty xyz".toList =
        some (sim, [Message.unknownCasualty]) := by
      unfold dispatch
      rw [if_neg (by decide), if_neg (by decide), if_pos (by decide)]
      have : substr "initiate casualty xyz".toList 18 = some "xyz".toList := by decide
      rw [this]
      simp only
      unfold initiateCasualty
      rw [if_neg (by decide), if_neg (by decide)]
    unfold handleUserInput
    rw [h]
  · have h : dispatch stod sim "foo".toList = some (sim, [Message.unknownCommand]) := by
      unfold dispatch
      rw [if_neg (by decide), if_neg (by decide), if_neg (by decide), if_neg (by decide),
        if_neg (by decide), if_neg (by decide), if_neg (by decide)]
    unfold handleUserInput
    rw [h]

end MainSimulation

namespace CoolantLoop

/-- Claim C20, evaluated on the code: draining is never refused.  A one-chunk loop with
the leak enabled is empty after one `advanceLoop`, the 100-chunk loop of `main` after
100, and on the empty loop both `getUpperChunk` (index `0 / 2 = 0`) and `getLowerChunk`
read outside the deque. -/
theorem taps_read_on_drained_loop :
    ((new 1).setLeak true).chunks ≠ [] ∧
    ((new 1).setLeak true).advanceLoop.chunks = [] ∧
    ((new 1).setLeak true).advanceLoop.getUpperChunk = none ∧
    ((new 1).setLeak true).advanceLoop.getLowerChunk = none ∧
    ((new 100).setLeak true).chunks.length = 100 ∧
    (advanceLoop^[100] ((new 100).setLeak true)).chunks = [] ∧
    (advanceLoop^[100] ((new 100).setLeak true)).getUpperChunk = none ∧
    (advanceLoop^[100] ((new 100).setLeak true)).getLowerChunk = none := by
  have h1 : ((new 1).setLeak true).advanceLoop.chunks = [] := by decide
  have h100 : (advanceLoop^[100] ((new 100).setLeak true)).chunks = [] := by
    apply List.eq_nil_of_length_eq_zero
    rw [iterate_length_of_leak _ rfl]
    simp [new, setLeak]
  refine ⟨by decide, h1, ?_, ?_, by simp [new, setLeak], h100, ?_, ?_⟩
  · unfold getUpperChunk
    rw [h1]
    rfl
  · unfold getLowerChunk
    rw [h1]
    rfl
  · unfold getUpperChunk
    rw [h100]
    rfl
  · unfold getLowerChunk
    rw [h100]
    rfl

end CoolantLoop

/-! ## Heat exchange between core and coolant -/

namespace Core

/-- Every index of the element array of a well-formed core is the index of a cell of
the grid. -/
theorem index_surjective (c : Core) (i : Int) (h0 : 0 ≤ i)
    (h1 : i < (c.xSize : Int) * c.ySize * c.zSize) :
    ∃ x y z : Int, c.inGrid x y z ∧ c.index x y z = i := by
  have hX : (0 : Int) ≤ c.xSize := Int.ofNat_nonneg _
  have hY : (0 : Int) ≤ c.ySize := Int.ofNat_nonneg _
  have hZ : (0 : Int) ≤ c.zSize := Int.ofNat_nonneg _
  have hZpos : (0 : Int) < c.zSize := by
    rcases eq_or_lt_of_le hZ with h | h
    · rw [← h] at h1
      simp at h1
      omega
    · exact h
  have hYpos : (0 : Int) < c.ySize := by
    rcases eq_or_lt_of_le hY with h | h
    · rw [← h] at h1
      simp at h1
      omega
    · exact h
  have hq0 : 0 ≤ i / c.zSize := Int.ediv_nonneg h0 hZ
  have hq1 : i / c.zSize < (c.xSize : Int) * c.ySize := Int.ediv_lt_of_lt_mul hZpos h1
  refine ⟨i / c.zSize / c.ySize, i / c.zSize % c.ySize, i % c.zSize, ?_, ?_⟩
  · unfold inGrid
    refine ⟨Int.ediv_nonneg hq0 hY, Int.ediv_lt_of_lt_mul hYpos hq1,
      Int.emod_nonneg _ (ne_of_gt hYpos), Int.emod_lt_of_pos _ hYpos,
      Int.emod_nonneg _ (ne_of_gt hZpos), Int.emod_lt_of_pos _ hZpos⟩
  · rw [index_eq]
    have e1 : i / c.zSize / c.ySize * c.ySize + i / c.zSize % c.ySize = i / c.zSize :=
      Int.ediv_add_emod' _ _
    rw [e1]
    exact Int.ediv_add_emod' _ _

/-- The full loop nest visits every index of the element array exactly once. -/
theorem perm_index_allCells (c : Core) (hwf : c.WellFormed) :
    (c.allCells.map (fun p => c.index p.1 p.2.1 p.2.2)).Perm
      ((List.range c.elements.length).map (fun (k : Nat) => (k : Int))) := by
  have hnd2 : ((List.range c.elements.length).map (fun (k : Nat) => (k : Int))).Nodup := by
    refine List.Nodup.map ?_ (List.nodup_range _)
    intro a b h
    exact Int.ofNat.inj h
  rw [List.perm_ext_iff_of_nodup c.nodup_index_allCells hnd2]
  intro i
  unfold WellFormed at hwf
  have hcast : ((c.elements.length : Nat) : Int) = (c.xSize : Int) * c.ySize * c.zSize := by
    rw [hwf]
    push_cast
    ring
  simp only [List.mem_map, List.mem_range]
  constructor
  · rintro ⟨p, hp, rfl⟩
    obtain ⟨h0, h1⟩ := c.index_bounds _ _ _ ((c.mem_allCells p).1 hp)
    exact ⟨(c.index p.1 p.2.1 p.2.2).toNat, by omega, by omega⟩
  · rintro ⟨k, hk, rfl⟩
    obtain ⟨x, y, z, hg, hidx⟩ := c.index_surjective (k : Int) (by omega) (by omega)
    exact ⟨(x, y, z), (c.mem_allCells (x, y, z)).2 hg, hidx⟩

end Core

theorem map_range_getElem? {α β : Type} (f : Option α → β) (l : List α) :
    (List.range l.length).map (fun i => f l[i]?) = l.map (fun a => f (some a)) := by
  apply List.ext_getElem?
  intro n
  rw [List.getElem?_map, List.getElem?_map]
  by_cases hn : n < l.length
  · rw [List.getElem?_range hn, List.getElem?_eq_getElem hn]
    simp [List.getElem?_eq_getElem hn]
  · have h1 : (List.range l.length)[n]? = none :=
      List.getElem?_eq_none (by rw [List.length_range]; exact not_lt.1 hn)
    rw [h1, List.getElem?_eq_none (not_lt.1 hn)]
    rfl

namespace MainSimulation

theorem fst_foldl_exchangeStep (core : Core) (dt : ℚ) (L : List (Int × Int × Int))
    (s : List CoreElement × ℚ) :
    (L.foldl (exchangeStep core dt) s).1 =
      L.foldl (fun es p => modifyAt es (core.index p.1 p.2.1 p.2.2) (coolUpdate dt)) s.1 := by
  induction L generalizing s with
  | nil => rfl
  | cons q rest ih =>
    simp only [List.foldl_cons]
    rw [ih]
    rfl

theorem heatGenerated_coolUpdate (dt : ℚ) (e : CoreElement) :
    ((coolUpdate dt e).material, (coolUpdate dt e).neutronPopulation) =
      (e.material, e.neutronPopulation) := by
  unfold coolUpdate
  split <;> rfl

/-- Heat counted at an index depends on the array only through materials and
populations. -/
theorem heatAt_congr (es es' : List CoreElement)
    (h : es.map (fun e => (e.material, e.neutronPopulation)) =
      es'.map (fun e => (e.material, e.neutronPopulation))) (i : Int) :
    (match readAt es i with
      | some element => heatGenerated element
      | none => 0) =
    (match readAt es' i with
      | some element => heatGenerated element
      | none => 0) := by
  have hr : (readAt es i).map (fun e => (e.material, e.neutronPopulation)) =
      (readAt es' i).map (fun e => (e.material, e.neutronPopulation)) := by
    rw [readAt_map, readAt_map, h]
  cases h1 : readAt es i with
  | none =>
    cases h2 : readAt es' i with
    | none => rfl
    | some b => rw [h1, h2] at hr; simp at hr
  | some a =>
    cases h2 : readAt es' i with
    | none => rw [h1, h2] at hr; simp at hr
    | some b =>
      rw [h1, h2] at hr
      simp only [Option.map_some', Option.some.injEq, Prod.mk.injEq] at hr
      simp only [heatGenerated, hr.1, hr.2]

theorem snd_foldl_exchangeStep (core : Core) (dt : ℚ) (es0 : List CoreElement)
    (L : List (Int × Int × Int)) (s : List CoreElement × ℚ)
    (hs : s.1.map (fun e => (e.material, e.neutronPopulation)) =
      es0.map (fun e => (e.material, e.neutronPopulation))) :
    (L.foldl (exchangeStep core dt) s).2 =
      s.2 + (L.map (fun p =>
        match readAt es0 (core.index p.1 p.2.1 p.2.2) with
        | some element => heatGenerated element
        | none => 0)).sum := by
  induction L generalizing s with
  | nil => simp
  | cons q rest ih =>
    simp only [List.foldl_cons, List.map_cons, List.sum_cons]
    rw [ih]
    · unfold exchangeStep
      simp only
      rw [heatAt_congr s.1 es0 hs]
      ring
    · unfold exchangeStep
      simp only
      rw [map_modifyAt_of_proj (fun e : CoreElement => (e.material, e.neutronPopulation))
        s.1 _ (coolUpdate dt) (heatGenerated_coolUpdate dt)]
      exact hs

theorem sum_heatGenerated (es : List CoreElement) :
    (es.map heatGenerated).sum =
      ((es.filter (fun e => decide (e.material = MaterialType.Fuel))).map
        (fun e => e.neutronPopulation * 1000)).sum := by
  induction es with
  | nil => rfl
  | cons a rest ih =>
    by_cases h : a.material = MaterialType.Fuel
    · simp [heatGenerated, h, ih]
    · simp [heatGenerated, h, ih]

/-- The running total of `exchangeHeat` ends as the sum over all Fuel elements of
`neutronPopulation * 1000`. -/
theorem total_exchangeHeat (core : Core) (dt : ℚ) (hwf : core.WellFormed) :
    (core.allCells.foldl (exchangeStep core dt) (core.elements, 0)).2 = totalHeat core := by
  rw [snd_foldl_exchangeStep core dt core.elements core.allCells (core.elements, 0) rfl]
  have hmap : core.allCells.map (fun p =>
        match readAt core.elements (core.index p.1 p.2.1 p.2.2) with
        | some element => heatGenerated element
        | none => 0) =
      (core.allCells.map (fun p => core.index p.1 p.2.1 p.2.2)).map (fun i =>
        match readAt core.elements i with
        | some element => heatGenerated element
        | none => 0) := by
    rw [List.map_map]
    rfl
  rw [hmap, ((core.perm_index_allCells hwf).map _).sum_eq, List.map_map]
  have hrange : (List.range core.elements.length).map
        ((fun i : Int => match readAt core.elements i with
          | some element => heatGenerated element
          | none => 0) ∘ fun (k : Nat) => (k : Int)) =
      core.elements.map heatGenerated := by
    have h1 := map_range_getElem? (fun o : Option CoreElement =>
      (o.map heatGenerated).getD 0) core.elements
    simp only [Option.map_some', Option.getD_some] at h1
    rw [← h1]
    apply List.map_congr_left
    intro k _
    simp only [Function.comp]
    rw [Core.readAt_eq_getElem? core.elements (k : Int) k rfl]
    cases core.elements[k]? <;> rfl
  rw [hrange]
  simp only [zero_add]
  exact sum_heatGenerated core.elements

end MainSimulation

namespace MainSimulation

theorem coolUpdate_of_fuel (dt : ℚ) (e : CoreElement) (h : e.material = MaterialType.Fuel) :
    coolUpdate dt e =
      { e with temperature := e.temperature - (e.neutronPopulation * 1000 / 2) * dt / 300 } := by
  unfold coolUpdate
  rw [if_pos h]
  unfold CoreElement.updateTemperature
  simp only [h]
  congr 1
  ring

theorem coolUpdate_of_not_fuel (dt : ℚ) (e : CoreElement)
    (h : e.material ≠ MaterialType.Fuel) : coolUpdate dt e = e := by
  unfold coolUpdate
  rw [if_neg h]

/-- The element of a cell after `exchangeHeat`. -/
theorem cellAt_exchangeHeat (sim : MainSimulation) (hwf : sim.core.WellFormed) (x y z : Int)
    (hg : sim.core.inGrid x y z) (e : CoreElement) (he : sim.core.cellAt x y z = some e) :
    sim.exchangeHeat.core.cellAt x y z = some (coolUpdate sim.deltaTime e) := by
  obtain ⟨h0, _⟩ := sim.core.index_bounds x y z hg
  have hn := (Int.toNat_of_nonneg h0).symm
  have hmem : (x, y, z) ∈ sim.core.allCells := (sim.core.mem_allCells (x, y, z)).2 hg
  obtain ⟨e0, he0, hget⟩ := sim.core.cellAt_isSome hwf x y z hg
  have hee : e0 = e := by
    rw [he] at he0
    exact (Option.some.inj he0).symm
  subst hee
  have key := (getElem?_foldl_modifyAt_nodup
    (fun p : Int × Int × Int => sim.core.index p.1 p.2.1 p.2.2)
    (fun (_ : List CoreElement) (_ : Int × Int × Int) => coolUpdate sim.deltaTime)
    (fun _ => ()) (fun _ _ _ => rfl) (fun _ _ _ _ => rfl)
    sim.core.elements sim.core.allCells sim.core.elements rfl sim.core.nodup_index_allCells).2
    (x, y, z) hmem (sim.core.index x y z).toNat hn
  show readAt (sim.core.allCells.foldl (exchangeStep sim.core sim.deltaTime)
    (sim.core.elements, 0)).1 (sim.core.index x y z) = _
  rw [fst_foldl_exchangeStep, Core.readAt_eq_getElem? _ _ _ hn, key, hget]
  rfl

/-- The chunks after `exchangeHeat`: the upper tap (index `size / 2`) and the lower tap
(index `0`) absorb a quarter of the total heat each. -/
theorem chunks_exchangeHeat (sim : MainSimulation) (hwf : sim.core.WellFormed) (i : Nat) :
    sim.exchangeHeat.coolantLoop.chunks[i]? =
      (sim.coolantLoop.chunks[i]?).map (fun chunk =>
        if 0 = i then
          (if sim.coolantLoop.chunks.length / 2 = i then
            (chunk.absorbHeat (totalHeat sim.core * (1 / 2) / 2)).absorbHeat
              (totalHeat sim.core * (1 / 2) / 2)
           else chunk.absorbHeat (totalHeat sim.core * (1 / 2) / 2))
        else if sim.coolantLoop.chunks.length / 2 = i then
          chunk.absorbHeat (totalHeat sim.core * (1 / 2) / 2)
        else chunk) := by
  unfold exchangeHeat CoolantLoop.heatLowerChunk CoolantLoop.heatUpperChunk
  simp only
  rw [total_exchangeHeat sim.core sim.deltaTime hwf, List.getElem?_modify,
    List.getElem?_modify]
  cases sim.coolantLoop.chunks[i]? with
  | none => rfl
  | some chunk =>
    by_cases h0 : 0 = i
    · by_cases h2 : sim.coolantLoop.chunks.length / 2 = i
      · simp [h0, h2]
      · simp [h0, h2]
    · by_cases h2 : sim.coolantLoop.chunks.length / 2 = i
      · simp [h0, h2]
      · simp [h0, h2]

end MainSimulation

/-- Claim C17: `exchangeHeat` on a well-formed core and a loop of at least two chunks,
with `H` the sum over all Fuel cells of `neutronPopulation * 1000`: every Fuel cell's
temperature drops by `(neutronPopulation * 1000 / 2) * dt / 300` and nothing else in it
changes, a non-Fuel cell is unchanged, and the chunk at the upper tap (index `size / 2`)
and the chunk at the lower tap (index `0`) each rise by `(H / 4) / 4200` while every
other chunk is unchanged (so the coolant receives `H / 2` in total). -/
theorem exchangeHeat_effect (sim : MainSimulation) (hwf : sim.core.WellFormed)
    (hchunks : 2 ≤ sim.coolantLoop.chunks.length) :
    (∀ x y z : Int, sim.core.inGrid x y z → ∀ e, sim.core.cellAt x y z = some e →
      ∃ e', sim.exchangeHeat.core.cellAt x y z = some e' ∧
        (e.material = MaterialType.Fuel →
          e' = { e with temperature :=
            e.temperature - (e.neutronPopulation * 1000 / 2) * sim.deltaTime / 300 }) ∧
        (e.material ≠ MaterialType.Fuel → e' = e)) ∧
    sim.exchangeHeat.coolantLoop.chunks.length = sim.coolantLoop.chunks.length ∧
    sim.exchangeHeat.coolantLoop.hasLeak = sim.coolantLoop.hasLeak ∧
    (∀ (i : Nat) (chunk : CoolantChunk), sim.coolantLoop.chunks[i]? = some chunk →
      sim.exchangeHeat.coolantLoop.chunks[i]? =
        some (if i = sim.coolantLoop.chunks.length / 2 ∨ i = 0 then
          { temperature := chunk.temperature + (MainSimulation.totalHeat sim.core / 4) / 4200 }
        else chunk)) := by
  refine ⟨?_, ?_, rfl, ?_⟩
  · intro x y z hg e he
    refine ⟨_, MainSimulation.cellAt_exchangeHeat sim hwf x y z hg e he, ?_, ?_⟩
    · exact MainSimulation.coolUpdate_of_fuel sim.deltaTime e
    · exact MainSimulation.coolUpdate_of_not_fuel sim.deltaTime e
  · unfold MainSimulation.exchangeHeat CoolantLoop.heatLowerChunk CoolantLoop.heatUpperChunk
    simp only [List.length_modify]
  · intro i chunk hi
    rw [MainSimulation.chunks_exchangeHeat sim hwf i, hi]
    simp only [Option.map_some', Option.some.injEq]
    have hhalf : 1 ≤ sim.coolantLoop.chunks.length / 2 := by omega
    by_cases h0 : 0 = i
    · have h2 : ¬ sim.coolantLoop.chunks.length / 2 = i := by omega
      rw [if_pos h0, if_neg h2, if_pos (Or.inr h0.symm)]
      unfold CoolantChunk.absorbHeat
      simp only
      congr 1
      ring
    · rw [if_neg h0]
      by_cases h2 : sim.coolantLoop.chunks.length / 2 = i
      · rw [if_pos h2, if_pos (Or.inl h2.symm)]
        unfold CoolantChunk.absorbHeat
        simp only
        congr 1
        ring
      · rw [if_neg h2, if_neg (by omega)]

theorem exchangeHeat_effect_witness :
    (Core.new 1 1 3 3 3).WellFormed ∧ 2 ≤ (CoolantLoop.new 4).chunks.length ∧
    (∃ e', (MainSimulation.exchangeHeat
        { core := Core.new 1 1 3 3 3, coolantLoop := CoolantLoop.new 4,
          protectiveLogic := ProtectiveActionLogic.new, deltaTime := 1 / 100,
          running := true, paused := false }).core.cellAt 1 1 1 = some e' ∧
      e'.temperature = 300 - 1 / 60) ∧
    (MainSimulation.exchangeHeat
        { core := Core.new 1 1 3 3 3, coolantLoop := CoolantLoop.new 4,
          protectiveLogic := ProtectiveActionLogic.new, deltaTime := 1 / 100,
          running := true, paused := false }).coolantLoop.chunks.map
        (fun chunk => chunk.temperature)
      = [300 + 5 / 84, 300, 300 + 5 / 84, 300] := by
  have hwf : (Core.new 1 1 3 3 3).WellFormed := Core.wellFormed_new 1 1 3 3 3
  have hlen : 2 ≤ (CoolantLoop.new 4).chunks.length := by decide
  have hg : (Core.new 1 1 3 3 3).inGrid 1 1 1 := by decide
  have hcell : (Core.new 1 1 3 3 3).cellAt 1 1 1 =
      some (CoreElement.new 1 MaterialType.Fuel 300) := by
    rw [Core.cellAt_new 1 1 3 3 3 1 1 1 hg]
    rfl
  have hel : (Core.new 1 1 3 3 3).elements.map
      (fun e => (decide (e.material = MaterialType.Fuel), e.neutronPopulation)) =
      List.replicate 13 (false, 0) ++ [(true, 1)] ++ List.replicate 13 (false, 0) := by
    decide
  have hH : MainSimulation.totalHeat (Core.new 1 1 3 3 3) = 1000 := by
    have h1 : MainSimulation.totalHeat (Core.new 1 1 3 3 3) =
        ((((Core.new 1 1 3 3 3).elements.map
          (fun e => (decide (e.material = MaterialType.Fuel), e.neutronPopulation))).filter
            (fun q => q.1)).map (fun q => q.2 * 1000)).sum := by
      unfold MainSimulation.totalHeat
      rw [List.filter_map, List.map_map]
      rfl
    rw [h1, hel]
    simp [List.replicate]
  obtain ⟨hcore, _, _, hchunk⟩ := exchangeHeat_effect
    { core := Core.new 1 1 3 3 3, coolantLoop := CoolantLoop.new 4,
      protectiveLogic := ProtectiveActionLogic.new, deltaTime := 1 / 100,
      running := true, paused := false } hwf hlen
  refine ⟨hwf, hlen, ?_, ?_⟩
  · obtain ⟨e', he', hfuel, _⟩ := hcore 1 1 1 hg _ hcell
    refine ⟨e', he', ?_⟩
    rw [hfuel (Core.material_new 1 MaterialType.Fuel 300)]
    simp only [CoreElement.new, if_true]
    norm_num
  · apply List.ext_getElem?
    intro i
    rw [List.getElem?_map]
    by_cases hi : i < 4
    · have hc : (CoolantLoop.new 4).chunks[i]? = some { temperature := 300 } := by
        interval_cases i <;> rfl
      rw [hchunk i _ hc]
      simp only [hH]
      interval_cases i <;> simp [CoolantLoop.new] <;> norm_num
    · have hc : (CoolantLoop.new 4).chunks[i]? = none :=
        List.getElem?_eq_none (by simp [CoolantLoop.new]; omega)
      have hl : (MainSimulation.exchangeHeat
          { core := Core.new 1 1 3 3 3, coolantLoop := CoolantLoop.new 4,
            protectiveLogic := ProtectiveActionLogic.new, deltaTime := 1 / 100,
            running := true, paused := false }).coolantLoop.chunks.length = 4 := by
        unfold MainSimulation.exchangeHeat CoolantLoop.heatLowerChunk CoolantLoop.heatUpperChunk
        simp [CoolantLoop.new]
      rw [List.getElem?_eq_none (by omega)]
      rw [List.getElem?_eq_none (by simp; omega)]
      rfl

/-! ## The row-major index -/

/-- Claim C22: the row-major `index` is a bijection from the in-bounds coordinates
`0 ≤ x < xSize`, `0 ≤ y < ySize`, `0 ≤ z < zSize` onto `[0, xSize * ySize * zSize)`: it
maps every in-bounds triple into that range, distinct in-bounds triples get distinct
indices, and every value of the range is the index of an in-bounds triple; in a core
with one element per cell every in-bounds triple therefore addresses an element of the
array. -/
theorem index_bijection (c : Core) :
    Set.BijOn (fun p : Int × Int × Int => c.index p.1 p.2.1 p.2.2)
      {p | c.inGrid p.1 p.2.1 p.2.2}
      (Set.Ico 0 ((c.xSize : Int) * c.ySize * c.zSize)) ∧
    (c.WellFormed → ∀ x y z : Int, c.inGrid x y z →
      ∃ n : Nat, (n : Int) = c.index x y z ∧ n < c.elements.length ∧
        c.cellAt x y z = c.elements[n]?) := by
  refine ⟨⟨?_, ?_, ?_⟩, ?_⟩
  · intro p hp
    exact c.index_bounds p.1 p.2.1 p.2.2 hp
  · intro p hp q hq heq
    obtain ⟨h1, h2, h3⟩ := c.index_injective p.1 p.2.1 p.2.2 q.1 q.2.1 q.2.2 hp hq heq
    exact Prod.ext h1 (Prod.ext h2 h3)
  · intro i hi
    obtain ⟨x, y, z, hg, hidx⟩ := c.index_surjective i hi.1 hi.2
    exact ⟨(x, y, z), hg, hidx⟩
  · intro hwf x y z hg
    obtain ⟨h0, h1⟩ := c.index_bounds x y z hg
    unfold Core.WellFormed at hwf
    refine ⟨(c.index x y z).toNat, Int.toNat_of_nonneg h0, ?_, ?_⟩
    · rw [hwf]
      have : ((c.xSize * c.ySize * c.zSize : Nat) : Int) =
          (c.xSize : Int) * c.ySize * c.zSize := by push_cast; ring
      omega
    · exact Core.readAt_eq_getElem? _ _ _ (Int.toNat_of_nonneg h0).symm

/-! ## The protective evaluation of the scheduler -/

namespace MainSimulation

/-- The running maximum reaches `t` exactly when its start value or some element does. -/
theorem le_foldl_max_iff (es : List CoreElement) (m0 t : ℚ) :
    t ≤ es.foldl (fun maxTemperature element =>
      if element.temperature > maxTemperature then element.temperature
      else maxTemperature) m0 ↔
    t ≤ m0 ∨ ∃ e ∈ es, t ≤ e.temperature := by
  induction es generalizing m0 with
  | nil => simp
  | cons a rest ih =>
    simp only [List.foldl_cons, List.mem_cons, exists_eq_or_imp]
    rw [ih]
    by_cases h : a.temperature > m0
    · rw [if_pos h]
      constructor
      · rintro (h1 | h1)
        · exact Or.inr (Or.inl h1)
        · exact Or.inr (Or.inr h1)
      · rintro (h1 | h1 | h1)
        · exact Or.inl (le_trans h1 (le_of_lt h))
        · exact Or.inl h1
        · exact Or.inr h1
    · rw [if_neg h]
      constructor
      · rintro (h1 | h1)
        · exact Or.inl h1
        · exact Or.inr (Or.inr h1)
      · rintro (h1 | h1 | h1)
        · exact Or.inl h1
        · exact Or.inl (le_trans h1 (not_lt.1 h))
        · exact Or.inr h1

theorem getMaxCoreTemperature_ge_iff (sim : MainSimulation) :
    2000 ≤ sim.getMaxCoreTemperature ↔ ∃ e ∈ sim.core.elements, 2000 ≤ e.temperature := by
  unfold getMaxCoreTemperature
  rw [le_foldl_max_iff]
  constructor
  · rintro (h | h)
    · norm_num at h
    · exact h
  · exact Or.inr

theorem scram_evaluateConditions_one (p : ProtectiveActionLogic) (t : ℚ) :
    (p.evaluateConditions t 1).isScramInitiated = true ↔
      p.isScramInitiated = true ∨ 2000 ≤ t := by
  unfold ProtectiveActionLogic.evaluateConditions ProtectiveActionLogic.isScramInitiated
    ProtectiveActionLogic.temperatureThreshold ProtectiveActionLogic.flowRateThreshold
  have hflow : ¬ ((1 : ℚ) ≤ 1 / 2) := by norm_num
  by_cases ht : (2000 : ℚ) ≤ t
  · rw [if_pos (Or.inl ht)]
    simp [ht]
  · rw [if_neg (by
      rintro (h | h)
      · exact ht h
      · exact hflow h)]
    simp [ht]

end MainSimulation

/-- Claim C27: after `evaluateProtection` the protective logic is scrammed exactly when
it was scrammed before or some element of the core has temperature at least 2000 (the
maximum element temperature is at least 2000), whatever the coolant loop `loop` is; the
outcome for the logic and the core is the one obtained with any other coolant loop, the
coolant loop itself is left as it was; when scrammed the core afterwards is
`insertControlRods` of the core before, and otherwise the core is unchanged. -/
theorem scram_decision_independent_of_coolant (G : Nat) (sim : MainSimulation)
    (loop : CoolantLoop) :
    (((MainSimulation.evaluateProtection G
        { sim with coolantLoop := loop }).1.protectiveLogic.isScramInitiated = true ↔
      sim.protectiveLogic.isScramInitiated = true ∨
        ∃ e ∈ sim.core.elements, 2000 ≤ e.temperature) ∧
    ((2000 ≤ MainSimulation.getMaxCoreTemperature { sim with coolantLoop := loop }) ↔
        ∃ e ∈ sim.core.elements, 2000 ≤ e.temperature) ∧
    ((MainSimulation.evaluateProtection G
        { sim with coolantLoop := loop }).1.protectiveLogic.isScramInitiated = true →
      (MainSimulation.evaluateProtection G { sim with coolantLoop := loop }).1.core =
        sim.core.insertControlRods G) ∧
    ((MainSimulation.evaluateProtection G
        { sim with coolantLoop := loop }).1.protectiveLogic.isScramInitiated = false →
      (MainSimulation.evaluateProtection G { sim with coolantLoop := loop }).1.core =
        sim.core) ∧
    (MainSimulation.evaluateProtection G { sim with coolantLoop := loop }).1.coolantLoop =
      loop ∧
    (MainSimulation.evaluateProtection G { sim with coolantLoop := loop }).1.protectiveLogic =
      (MainSimulation.evaluateProtection G sim).1.protectiveLogic ∧
    (MainSimulation.evaluateProtection G { sim with coolantLoop := loop }).1.core =
      (MainSimulation.evaluateProtection G sim).1.core) := by
  have hmax : MainSimulation.getMaxCoreTemperature { sim with coolantLoop := loop } =
      sim.getMaxCoreTemperature := rfl
  have hiff := MainSimulation.scram_evaluateConditions_one sim.protectiveLogic
    sim.getMaxCoreTemperature
  have hge := MainSimulation.getMaxCoreTemperature_ge_iff sim
  by_cases hs : (sim.protectiveLogic.evaluateConditions sim.getMaxCoreTemperature
      1).isScramInitiated = true
  · have e1 : MainSimulation.evaluateProtection G { sim with coolantLoop := loop } =
        ({ sim with coolantLoop := loop,
                    protectiveLogic :=
                      sim.protectiveLogic.evaluateConditions sim.getMaxCoreTemperature 1,
                    core := sim.core.insertControlRods G }, [Message.scramInitiated]) := by
      unfold MainSimulation.evaluateProtection
      simp only [hmax]
      rw [if_pos hs]
    have e2 : MainSimulation.evaluateProtection G sim =
        ({ sim with protectiveLogic :=
                      sim.protectiveLogic.evaluateConditions sim.getMaxCoreTemperature 1,
                    core := sim.core.insertControlRods G }, [Message.scramInitiated]) := by
      unfold MainSimulation.evaluateProtection
      simp only
      rw [if_pos hs]
    rw [e1, e2, hmax]
    refine ⟨?_, hge, fun _ => rfl, ?_, rfl, rfl, rfl⟩
    · simp only
      rw [hiff, hge]
    · intro h
      simp only at h
      rw [hs] at h
      exact Bool.noConfusion h
  · have e1 : MainSimulation.evaluateProtection G { sim with coolantLoop := loop } =
        ({ sim with coolantLoop := loop,
                    protectiveLogic :=
                      sim.protectiveLogic.evaluateConditions sim.getMaxCoreTemperature 1 },
          []) := by
      unfold MainSimulation.evaluateProtection
      simp only [hmax]
      rw [if_neg hs]
    have e2 : MainSimulation.evaluateProtection G sim =
        ({ sim with protectiveLogic :=
                      sim.protectiveLogic.evaluateConditions sim.getMaxCoreTemperature 1 },
          []) := by
      unfold MainSimulation.evaluateProtection
      simp only
      rw [if_neg hs]
    rw [e1, e2, hmax]
    refine ⟨?_, hge, ?_, fun _ => rfl, rfl, rfl, rfl⟩
    · simp only
      rw [hiff, hge]
    · intro h
      simp only at h
      exact absurd h hs

/-! ## Comparing cores cell by cell -/

namespace Core

theorem eq_of_fields (a b : Core) (hx : a.xSize = b.xSize) (hy : a.ySize = b.ySize)
    (hz : a.zSize = b.zSize) (hn : a.numEnergyGroups = b.numEnergyGroups)
    (he : a.elements = b.elements) (hc : a.controlRodInsertion = b.controlRodInsertion) :
    a = b := by
  cases a
  cases b
  simp only at hx hy hz hn he hc
  subst hx hy hz hn he hc
  rfl

/-- Two element arrays of the size of a well-formed core are equal when they agree at
the index of every cell of the grid. -/
theorem elements_ext (c : Core) (hwf : c.WellFormed) (s t : List CoreElement)
    (hs : s.length = c.elements.length) (ht : t.length = c.elements.length)
    (h : ∀ x y z : Int, c.inGrid x y z →
      readAt s (c.index x y z) = readAt t (c.index x y z)) : s = t := by
  apply List.ext_getElem?
  intro n
  by_cases hn : n < c.elements.length
  · unfold WellFormed at hwf
    have hcast : ((c.elements.length : Nat) : Int) = (c.xSize : Int) * c.ySize * c.zSize := by
      rw [hwf]
      push_cast
      ring
    obtain ⟨x, y, z, hg, hidx⟩ := c.index_surjective (n : Int) (by omega) (by omega)
    have := h x y z hg
    rw [readAt_eq_getElem? s _ n hidx, readAt_eq_getElem? t _ n hidx] at this
    exact this
  · rw [List.getElem?_eq_none (by omega), List.getElem?_eq_none (by omega)]

theorem mem_of_readAt {α : Type} (v : List α) (i : Int) (a : α) (h : readAt v i = some a) :
    a ∈ v := by
  unfold readAt at h
  split at h
  · exact List.getElem?_mem h
  · exact Option.noConfusion h

/-- The thermal pass leaves unchanged every projection of the elements that neither
`calculateReactivity` nor the population and temperature update changes. -/
theorem map_calculateCoreThermals_of_proj {β : Type} (proj : CoreElement → β)
    (h1 : ∀ (e : CoreElement) (nb : List CoreElement), proj (e.calculateReactivity nb) = proj e)
    (h2 : ∀ (dt : ℚ) (e : CoreElement), proj (thermalUpdate dt e) = proj e)
    (c : Core) (dt : ℚ) :
    (c.calculateCoreThermals dt).elements.map proj = c.elements.map proj := by
  unfold calculateCoreThermals
  simp only
  rw [map_foldl_modifyAt_of_proj proj
      (fun p : Int × Int × Int => c.index p.1 p.2.1 p.2.2) (fun _ _ => thermalUpdate dt)
      (fun _ _ a => h2 dt a),
    reactivityStep_eq,
    map_foldl_modifyAt_of_proj proj
      (fun p : Int × Int × Int => c.index p.1 p.2.1 p.2.2)
      (fun es p element =>
        if element.material ≠ MaterialType.Vessel then
          element.calculateReactivity (c.getNeighbors es p.1 p.2.1 p.2.2)
        else element)
      (fun _ _ a => by
        simp only
        split
        · exact h1 a _
        · rfl)]

theorem length_calculateCoreThermals (c : Core) (dt : ℚ) :
    (c.calculateCoreThermals dt).elements.length = c.elements.length := by
  have h := congrArg List.length
    (map_calculateCoreThermals_of_proj (fun _ => ()) (fun _ _ => rfl) (fun _ _ => rfl) c dt)
  simpa using h

theorem materials_calculateCoreThermals (c : Core) (dt : ℚ) :
    (c.calculateCoreThermals dt).elements.map (fun e => e.material) =
      c.elements.map (fun e => e.material) :=
  map_calculateCoreThermals_of_proj (fun e => e.material) (fun _ _ => rfl)
    (fun dt e => material_thermalUpdate dt e) c dt

theorem neutronics_thermalUpdate (dt : ℚ) (e : CoreElement) :
    (thermalUpdate dt e).neutronics = e.neutronics := by
  unfold thermalUpdate
  split <;> rfl

theorem neutronics_calculateCoreThermals (c : Core) (dt : ℚ) :
    (c.calculateCoreThermals dt).elements.map CoreElement.neutronics =
      c.elements.map CoreElement.neutronics :=
  map_calculateCoreThermals_of_proj CoreElement.neutronics (fun _ _ => rfl)
    neutronics_thermalUpdate c dt

theorem length_calculateMultiGroupNeutronFlux (c : Core) (dt : ℚ) :
    (c.calculateMultiGroupNeutronFlux dt).elements.length = c.elements.length := by
  unfold calculateMultiGroupNeutronFlux
  simp only
  have h := congrArg List.length
    (map_fluxCommit_of_proj (fun _ => ()) (fun _ _ _ => rfl) (c.newFluxes dt)
      (List.range c.numEnergyGroups) c.elements)
  simpa using h

theorem materials_calculateMultiGroupNeutronFlux (c : Core) (dt : ℚ) :
    (c.calculateMultiGroupNeutronFlux dt).elements.map (fun e => e.material) =
      c.elements.map (fun e => e.material) := by
  unfold calculateMultiGroupNeutronFlux
  simp only
  exact map_fluxCommit_of_proj (fun e : CoreElement => e.material) (fun _ _ _ => rfl) _ _ _

theorem materials_updateFuelBurnup (c : Core) (dt : ℚ) :
    (c.updateFuelBurnup dt).elements.map (fun e => e.material) =
      c.elements.map (fun e => e.material) := by
  unfold updateFuelBurnup
  simp only [List.map_map]
  apply List.map_congr_left
  intro e _
  simp only [Function.comp]
  split <;> rfl

theorem materials_increaseReactivity (c : Core) (delta : ℚ) :
    (c.increaseReactivity delta).elements.map (fun e => e.material) =
      c.elements.map (fun e => e.material) := by
  unfold increaseReactivity
  simp only [List.map_map]
  apply List.map_congr_left
  intro e _
  simp only [Function.comp]
  split <;> rfl

theorem wellFormed_calculateCoreThermals (c : Core) (dt : ℚ) (hwf : c.WellFormed) :
    (c.calculateCoreThermals dt).WellFormed := by
  unfold WellFormed at *
  rw [length_calculateCoreThermals]
  exact hwf

theorem wellFormed_calculateMultiGroupNeutronFlux (c : Core) (dt : ℚ) (hwf : c.WellFormed) :
    (c.calculateMultiGroupNeutronFlux dt).WellFormed := by
  unfold WellFormed at *
  rw [length_calculateMultiGroupNeutronFlux]
  exact hwf

theorem wellFormed_updateFuelBurnup (c : Core) (dt : ℚ) (hwf : c.WellFormed) :
    (c.updateFuelBurnup dt).WellFormed := by
  unfold WellFormed at *
  unfold updateFuelBurnup
  simp only [List.length_map]
  exact hwf

theorem wellFormed_increaseReactivity (c : Core) (delta : ℚ) (hwf : c.WellFormed) :
    (c.increaseReactivity delta).WellFormed := by
  unfold WellFormed at *
  unfold increaseReactivity
  simp only [List.length_map]
  exact hwf

/-- The reactivity update of a cell, as a function of the element, is the same in two
cores of the same sizes whose arrays hold the same materials. -/
theorem reactivityUpdate_core_congr (c c' : Core) (hy : c'.ySize = c.ySize)
    (hx : c'.xSize = c.xSize) (hz : c'.zSize = c.zSize)
    (h : c'.elements.map (fun e => e.material) = c.elements.map (fun e => e.material))
    (x y z : Int) (a : CoreElement) :
    (if a.material ≠ MaterialType.Vessel then
        a.calculateReactivity (c'.getNeighbors c'.elements x y z) else a) =
    (if a.material ≠ MaterialType.Vessel then
        a.calculateReactivity (c.getNeighbors c.elements x y z) else a) := by
  have hnb : c'.getNeighbors c'.elements x y z = c.getNeighbors c'.elements x y z := by
    unfold getNeighbors index
    simp only [hx, hy, hz]
  rw [hnb]
  exact congrFun (reactivityUpdate_congr c c'.elements c.elements (x, y, z) h) a

end Core

/-! ## The thermal pass overwrites the stored reactivity -/

namespace Core

/-- The thermal update of one element does not depend on the reactivity it holds. -/
theorem thermal_of_bumped (dt delta : ℚ) (nb : List CoreElement) (e : CoreElement) :
    thermalUpdate dt
      (if (if e.material = MaterialType.Fuel then e.setReactivity (e.reactivity + delta)
            else e).material ≠ MaterialType.Vessel then
        (if e.material = MaterialType.Fuel then e.setReactivity (e.reactivity + delta)
          else e).calculateReactivity nb
       else (if e.material = MaterialType.Fuel then e.setReactivity (e.reactivity + delta)
          else e)) =
    thermalUpdate dt
      (if e.material ≠ MaterialType.Vessel then e.calculateReactivity nb else e) := by
  by_cases hf : e.material = MaterialType.Fuel
  · simp only [if_pos hf]
    have hv : e.material ≠ MaterialType.Vessel := by
      rw [hf]
      decide
    have hv' : (e.setReactivity (e.reactivity + delta)).material ≠ MaterialType.Vessel := hv
    rw [if_pos hv, if_pos hv']
    rfl
  · simp only [if_neg hf]

end Core

/-- Claim C26: on a core with one element per cell, `calculateCoreThermals dt` applied
after `increaseReactivity delta` gives the same core state as `calculateCoreThermals dt`
applied directly: the stored reactivity of every Fuel cell is overwritten before it is
used, so the bump of a power surge influences no population and no temperature. -/
theorem thermals_forget_reactivity_bump (c : Core) (delta dt : ℚ) (hwf : c.WellFormed) :
    (c.increaseReactivity delta).calculateCoreThermals dt = c.calculateCoreThermals dt := by
  have hwf' := c.wellFormed_increaseReactivity delta hwf
  refine Core.eq_of_fields ((c.increaseReactivity delta).calculateCoreThermals dt)
    (c.calculateCoreThermals dt) rfl rfl rfl rfl ?_ rfl
  apply c.elements_ext hwf
  · rw [Core.length_calculateCoreThermals]
    unfold Core.increaseReactivity
    simp only [List.length_map]
  · exact Core.length_calculateCoreThermals c dt
  · intro x y z hg
    obtain ⟨e, he, _⟩ := c.cellAt_isSome hwf x y z hg
    have he' : (c.increaseReactivity delta).cellAt x y z =
        some (if e.material = MaterialType.Fuel then e.setReactivity (e.reactivity + delta)
              else e) := by
      unfold Core.cellAt at he ⊢
      show readAt (c.elements.map _) (c.index x y z) = _
      rw [← readAt_map, he]
      rfl
    have h1 := Core.cellAt_calculateCoreThermals (c.increaseReactivity delta) dt hwf' x y z hg
      _ he'
    have h2 := Core.cellAt_calculateCoreThermals c dt hwf x y z hg e he
    have hcongr := Core.reactivityUpdate_core_congr c (c.increaseReactivity delta) rfl rfl rfl
      (c.materials_increaseReactivity delta) x y z
      (if e.material = MaterialType.Fuel then e.setReactivity (e.reactivity + delta) else e)
    rw [hcongr, Core.thermal_of_bumped] at h1
    unfold Core.cellAt at h1 h2
    exact h1.trans h2.symm

theorem thermals_forget_reactivity_bump_witness :
    (Core.new 1 1 3 3 3).WellFormed ∧
    ((Core.new 1 1 3 3 3).increaseReactivity (1 / 10)).calculateCoreThermals 1 =
      (Core.new 1 1 3 3 3).calculateCoreThermals 1 :=
  ⟨by decide, thermals_forget_reactivity_bump (Core.new 1 1 3 3 3) (1 / 10) 1 (by decide)⟩

/-! ## The two tick orders -/

namespace Core

theorem foldl_setNeutronFlux_eq (w : Nat → ℚ) (groups : List Nat) (e : CoreElement) :
    groups.foldl (fun el g => el.setNeutronFlux g (w g)) e =
      { e with neutronFlux := groups.foldl (fun fl g => fl.set g (w g)) e.neutronFlux } := by
  induction groups generalizing e with
  | nil => rfl
  | cons g rest ih =>
    simp only [List.foldl_cons]
    rw [ih]
    rfl

/-- On one element, the thermal update commutes with a rewrite of the flux vector
followed by the burnup update: the former reads and writes temperature, reactivity and
population, the latter flux, `Sigma_f` and the concentrations. -/
theorem thermal_commutes_element (dt : ℚ) (nb : List CoreElement) (Φ : List ℚ → List ℚ)
    (e : CoreElement) :
    thermalUpdate dt
      (if (if ({ e with neutronFlux := Φ e.neutronFlux } : CoreElement).material =
              MaterialType.Fuel
            then ({ e with neutronFlux := Φ e.neutronFlux } : CoreElement).updateBurnup dt
            else { e with neutronFlux := Φ e.neutronFlux }).material ≠ MaterialType.Vessel
       then
        (if ({ e with neutronFlux := Φ e.neutronFlux } : CoreElement).material =
              MaterialType.Fuel
          then ({ e with neutronFlux := Φ e.neutronFlux } : CoreElement).updateBurnup dt
          else { e with neutronFlux := Φ e.neutronFlux }).calculateReactivity nb
       else
        (if ({ e with neutronFlux := Φ e.neutronFlux } : CoreElement).material =
              MaterialType.Fuel
          then ({ e with neutronFlux := Φ e.neutronFlux } : CoreElement).updateBurnup dt
          else { e with neutronFlux := Φ e.neutronFlux })) =
    (if ({ thermalUpdate dt
            (if e.material ≠ MaterialType.Vessel then e.calculateReactivity nb else e) with
          neutronFlux := Φ (thermalUpdate dt
            (if e.material ≠ MaterialType.Vessel then e.calculateReactivity nb
              else e)).neutronFlux } : CoreElement).material = MaterialType.Fuel
     then ({ thermalUpdate dt
            (if e.material ≠ MaterialType.Vessel then e.calculateReactivity nb else e) with
          neutronFlux := Φ (thermalUpdate dt
            (if e.material ≠ MaterialType.Vessel then e.calculateReactivity nb
              else e)).neutronFlux } : CoreElement).updateBurnup dt
     else { thermalUpdate dt
            (if e.material ≠ MaterialType.Vessel then e.calculateReactivity nb else e) with
          neutronFlux := Φ (thermalUpdate dt
            (if e.material ≠ MaterialType.Vessel then e.calculateReactivity nb
              else e)).neutronFlux }) := by
  obtain ⟨m, T, r, N, s0, u, xe, fl, sa, sf, chi, ss⟩ := e
  cases m <;>
    simp [thermalUpdate, CoreElement.calculateReactivity, CoreElement.updateBurnup,
      CoreElement.setNeutronPopulation, CoreElement.updateTemperature,
      CoreElement.getNeutronFlux, CoreElement.getSigmaF]

end Core

/-! ## Bounded growth of the total population -/

namespace Core

/-- A sum over the cells of the grid of a quantity read at the index of the cell is the
sum of that quantity over the array. -/
theorem sum_allCells_eq_sum_elements (c : Core) (hwf : c.WellFormed) (es : List CoreElement)
    (hlen : es.length = c.elements.length) (f : Option CoreElement → ℚ) :
    (c.allCells.map (fun p => f (readAt es (c.index p.1 p.2.1 p.2.2)))).sum =
      (es.map (fun a => f (some a))).sum := by
  have hmap : c.allCells.map (fun p => f (readAt es (c.index p.1 p.2.1 p.2.2))) =
      (c.allCells.map (fun p => c.index p.1 p.2.1 p.2.2)).map (fun i => f (readAt es i)) := by
    rw [List.map_map]
    rfl
  rw [hmap, ((c.perm_index_allCells hwf).map _).sum_eq, List.map_map, ← hlen,
    ← map_range_getElem? f es]
  congr 1

theorem totalFuelPopulation_eq_sum (es : List CoreElement) :
    ((es.filter (fun e => decide (e.material = MaterialType.Fuel))).map
      (fun e => e.neutronPopulation)).sum =
    (es.map (fun a => ((some a).map (fun e : CoreElement =>
      if e.material = MaterialType.Fuel then e.neutronPopulation else 0)).getD 0)).sum := by
  induction es with
  | nil => rfl
  | cons a rest ih =>
    by_cases h : a.material = MaterialType.Fuel
    · simp [h, ih]
    · simp [h, ih]

theorem fuelNeighbours_le (c : Core) (x y z : Int) : c.fuelNeighbours x y z ≤ 6 := by
  unfold fuelNeighbours
  exact List.count_le_length _ _

theorem controlRodNeighbours_eq_zero (c : Core)
    (hrod : ∀ e ∈ c.elements, e.material ≠ MaterialType.ControlRod) (x y z : Int) :
    c.controlRodNeighbours x y z = 0 := by
  unfold controlRodNeighbours
  rw [List.count_eq_zero]
  have key : ∀ a b d : Int, c.materialAt a b d ≠ some MaterialType.ControlRod := by
    intro a b d h
    unfold materialAt at h
    split at h
    · cases hc : c.cellAt a b d with
      | none => rw [hc] at h; exact Option.noConfusion h
      | some e =>
        rw [hc] at h
        simp only [Option.map_some', Option.some.injEq] at h
        exact hrod e (mem_of_readAt _ _ _ hc) h
    · exact Option.noConfusion h
  intro hmem
  unfold faceNeighbourMaterials at hmem
  simp only [List.mem_cons, List.mem_singleton, List.not_mem_nil, or_false] at hmem
  rcases hmem with h | h | h | h | h | h <;> exact key _ _ _ h.symm

/-- The reactivity rule never exceeds `0.06` at a temperature of at least 300. -/
theorem reactivityRule_le (c : Core) (x y z : Int) (T : ℚ) (hT : 300 ≤ T) :
    c.reactivityRule x y z T ≤ 6 / 100 := by
  unfold reactivityRule
  have h1 : (c.fuelNeighbours x y z : ℚ) ≤ 6 := by
    exact_mod_cast c.fuelNeighbours_le x y z
  have h2 : (0 : ℚ) ≤ (c.controlRodNeighbours x y z : ℚ) := Nat.cast_nonneg _
  linarith

/-- Without ControlRod cells the reactivity rule is non-negative at 300. -/
theorem reactivityRule_nonneg (c : Core)
    (hrod : ∀ e ∈ c.elements, e.material ≠ MaterialType.ControlRod) (x y z : Int) :
    0 ≤ c.reactivityRule x y z 300 := by
  unfold reactivityRule
  rw [c.controlRodNeighbours_eq_zero hrod]
  have h1 : (0 : ℚ) ≤ (c.fuelNeighbours x y z : ℚ) := Nat.cast_nonneg _
  simp only [Nat.cast_zero, mul_zero, sub_zero, sub_self]
  linarith

/-- After the thermal pass the total population over the Fuel elements is the sum over
the Fuel cells of `N * (1 + r)`. -/
theorem totalFuelPopulation_calculateCoreThermals (c : Core) (dt : ℚ) (hwf : c.WellFormed) :
    (c.calculateCoreThermals dt).totalFuelPopulation = c.predictedFuelPopulation := by
  unfold totalFuelPopulation predictedFuelPopulation
  rw [totalFuelPopulation_eq_sum,
    ← c.sum_allCells_eq_sum_elements hwf _ (c.length_calculateCoreThermals dt)
      (fun o => (o.map (fun e : CoreElement =>
        if e.material = MaterialType.Fuel then e.neutronPopulation else 0)).getD 0)]
  congr 1
  apply List.map_congr_left
  intro p hp
  have hg := (c.mem_allCells p).1 hp
  obtain ⟨e, he, _⟩ := c.cellAt_isSome hwf p.1 p.2.1 p.2.2 hg
  have h := c.cellAt_calculateCoreThermals dt hwf p.1 p.2.1 p.2.2 hg e he
  have h' : readAt (c.calculateCoreThermals dt).elements (c.index p.1 p.2.1 p.2.2) = _ := h
  rw [h', he]
  simp only [Option.map_some', Option.getD_some, material_thermalUpdate]
  by_cases hf : e.material = MaterialType.Fuel
  · have hv : e.material ≠ MaterialType.Vessel := by
      rw [hf]
      decide
    rw [if_pos hv]
    have hm : (e.calculateReactivity (c.getNeighbors c.elements p.1 p.2.1 p.2.2)).material =
        MaterialType.Fuel := hf
    rw [if_pos hm, if_pos hf, (thermalUpdate_of_fuel dt _ hm).1,
      reactivity_calculateReactivity]
    rfl
  · have hm : (if e.material ≠ MaterialType.Vessel then
        e.calculateReactivity (c.getNeighbors c.elements p.1 p.2.1 p.2.2) else e).material ≠
        MaterialType.Fuel := by
      split
      · exact hf
      · exact hf
    rw [if_neg hm, if_neg hf]

theorem totalFuelPopulation_eq_sum_cells (c : Core) (hwf : c.WellFormed) :
    c.totalFuelPopulation =
      (c.allCells.map (fun p =>
        match c.cellAt p.1 p.2.1 p.2.2 with
        | some e => if e.material = MaterialType.Fuel then e.neutronPopulation else 0
        | none => 0)).sum := by
  unfold totalFuelPopulation
  rw [totalFuelPopulation_eq_sum,
    ← c.sum_allCells_eq_sum_elements hwf _ rfl
      (fun o => (o.map (fun e : CoreElement =>
        if e.material = MaterialType.Fuel then e.neutronPopulation else 0)).getD 0)]
  congr 1
  apply List.map_congr_left
  intro p _
  unfold cellAt
  cases readAt c.elements (c.index p.1 p.2.1 p.2.2) <;> rfl

end Core

/-- Claim C23: on a core with one element per cell, without ControlRod cells, with every
Fuel population non-negative and every Fuel temperature at least 300, one
`calculateCoreThermals` call leaves a total Fuel population equal to the sum over the
Fuel cells of `N * (1 + r)`, which is at most `1.06` times the total before; and if every
Fuel temperature is exactly 300 it is also at least the total before. -/
theorem thermals_population_bounded (c : Core) (dt : ℚ) (hwf : c.WellFormed)
    (hrod : ∀ e ∈ c.elements, e.material ≠ MaterialType.ControlRod)
    (hpop : ∀ e ∈ c.elements, e.material = MaterialType.Fuel → 0 ≤ e.neutronPopulation)
    (htemp : ∀ e ∈ c.elements, e.material = MaterialType.Fuel → 300 ≤ e.temperature) :
    (c.calculateCoreThermals dt).totalFuelPopulation = c.predictedFuelPopulation ∧
    (c.calculateCoreThermals dt).totalFuelPopulation ≤ 106 / 100 * c.totalFuelPopulation ∧
    ((∀ e ∈ c.elements, e.material = MaterialType.Fuel → e.temperature = 300) →
      c.totalFuelPopulation ≤ (c.calculateCoreThermals dt).totalFuelPopulation) := by
  rw [c.totalFuelPopulation_calculateCoreThermals dt hwf, c.totalFuelPopulation_eq_sum_cells hwf]
  unfold Core.predictedFuelPopulation
  refine ⟨rfl, ?_, ?_⟩
  · rw [← List.sum_map_mul_left]
    apply List.sum_le_sum
    intro p _
    cases hc : c.cellAt p.1 p.2.1 p.2.2 with
    | none => simp
    | some e =>
      simp only
      have hmem : e ∈ c.elements := Core.mem_of_readAt _ _ _ hc
      by_cases hf : e.material = MaterialType.Fuel
      · simp only [if_pos hf]
        have h1 := c.reactivityRule_le p.1 p.2.1 p.2.2 e.temperature (htemp e hmem hf)
        have h2 := hpop e hmem hf
        have h3 : e.neutronPopulation * (1 + c.reactivityRule p.1 p.2.1 p.2.2 e.temperature) ≤
            106 / 100 * e.neutronPopulation := by
          nlinarith [mul_nonneg h2 (sub_nonneg.2 h1)]
        exact h3
      · simp only [if_neg hf]
        norm_num
  · intro h300
    apply List.sum_le_sum
    intro p _
    cases hc : c.cellAt p.1 p.2.1 p.2.2 with
    | none => simp
    | some e =>
      simp only
      have hmem : e ∈ c.elements := Core.mem_of_readAt _ _ _ hc
      by_cases hf : e.material = MaterialType.Fuel
      · simp only [if_pos hf, h300 e hmem hf]
        have h1 := c.reactivityRule_nonneg hrod p.1 p.2.1 p.2.2
        have h2 := hpop e hmem hf
        have h3 : e.neutronPopulation ≤
            e.neutronPopulation * (1 + c.reactivityRule p.1 p.2.1 p.2.2 300) := by
          nlinarith [mul_nonneg h2 h1]
        exact h3
      · simp only [if_neg hf]
        exact le_refl _

theorem thermals_population_bounded_witness :
    (Core.new 1 1 4 3 3).WellFormed ∧
    ((Core.new 1 1 4 3 3).calculateCoreThermals 1).totalFuelPopulation =
      (Core.new 1 1 4 3 3).predictedFuelPopulation ∧
    ((Core.new 1 1 4 3 3).calculateCoreThermals 1).totalFuelPopulation ≤
      106 / 100 * (Core.new 1 1 4 3 3).totalFuelPopulation ∧
    (Core.new 1 1 4 3 3).totalFuelPopulation ≤
      ((Core.new 1 1 4 3 3).calculateCoreThermals 1).totalFuelPopulation := by
  have hel : (Core.new 1 1 4 3 3).elements.map
      (fun e => (e.material, decide (0 ≤ e.neutronPopulation), decide (e.temperature = 300))) =
      List.replicate 13 (MaterialType.Vessel, true, true) ++ [(MaterialType.Fuel, true, true)] ++
        List.replicate 8 (MaterialType.Vessel, true, true) ++ [(MaterialType.Fuel, true, true)] ++
        List.replicate 13 (MaterialType.Vessel, true, true) := by
    decide
  have hall : ∀ e ∈ (Core.new 1 1 4 3 3).elements,
      e.material ≠ MaterialType.ControlRod ∧ 0 ≤ e.neutronPopulation ∧ e.temperature = 300 := by
    intro e he
    have hm := List.mem_map_of_mem
      (fun e : CoreElement =>
        (e.material, decide (0 ≤ e.neutronPopulation), decide (e.temperature = 300))) he
    rw [hel] at hm
    simp only [List.mem_append, List.mem_replicate, List.mem_singleton, Prod.mk.injEq,
      decide_eq_true_eq] at hm
    have hcases : (e.material = MaterialType.Vessel ∨ e.material = MaterialType.Fuel) ∧
        0 ≤ e.neutronPopulation ∧ e.temperature = 300 := by tauto
    refine ⟨?_, hcases.2.1, hcases.2.2⟩
    rcases hcases.1 with h | h <;> rw [h] <;> decide
  obtain ⟨h1, h2, h3⟩ := thermals_population_bounded (Core.new 1 1 4 3 3) 1
    (Core.wellFormed_new 1 1 4 3 3) (fun e he => (hall e he).1)
    (fun e he _ => (hall e he).2.1) (fun e he _ => le_of_eq (hall e he).2.2.symm)
  exact ⟨Core.wellFormed_new 1 1 4 3 3, h1, h2, h3 (fun e he _ => (hall e he).2.2)⟩

/-! ## Degenerate grids -/

namespace Core

theorem onBoundary_of_degenerate (c : Core)
    (hdeg : c.xSize < 3 ∨ c.ySize < 3 ∨ c.zSize < 3) (x y z : Int) (hg : c.inGrid x y z) :
    c.onBoundary x y z := by
  unfold inGrid at hg
  unfold onBoundary
  omega

theorem interiorCells_of_degenerate (c : Core)
    (hdeg : c.xSize < 3 ∨ c.ySize < 3 ∨ c.zSize < 3) : c.interiorCells = [] := by
  rw [List.eq_nil_iff_forall_not_mem]
  intro p hp
  rw [mem_interiorCells] at hp
  omega

theorem scramCells_of_degenerate (c : Core)
    (hdeg : c.xSize < 3 ∨ c.ySize < 3 ∨ c.zSize < 3) : c.scramCells = [] := by
  rw [List.eq_nil_iff_forall_not_mem]
  intro p hp
  rw [mem_scramCells] at hp
  unfold inAlternatingColumn at hp
  omega

/-- Every element of a freshly constructed degenerate core is the Vessel element of the
constructor. -/
theorem elements_new_of_degenerate (G ng xSize ySize zSize : Nat)
    (hdeg : xSize < 3 ∨ ySize < 3 ∨ zSize < 3) :
    ∀ e ∈ (Core.new G ng xSize ySize zSize).elements,
      e = CoreElement.new G MaterialType.Vessel 300 := by
  intro e he
  obtain ⟨n, hn⟩ := List.getElem?_of_mem he
  have hlt : n < (Core.new G ng xSize ySize zSize).elements.length := by
    by_contra hcon
    rw [List.getElem?_eq_none (not_lt.1 hcon)] at hn
    exact Option.noConfusion hn
  have hwf := wellFormed_new G ng xSize ySize zSize
  unfold WellFormed at hwf
  have hcast : (((Core.new G ng xSize ySize zSize).elements.length : Nat) : Int) =
      ((Core.new G ng xSize ySize zSize).xSize : Int) * (Core.new G ng xSize ySize zSize).ySize *
        (Core.new G ng xSize ySize zSize).zSize := by
    rw [hwf]
    push_cast
    ring
  obtain ⟨x, y, z, hg, hidx⟩ :=
    (Core.new G ng xSize ySize zSize).index_surjective (n : Int) (by omega) (by omega)
  have hcell := cellAt_new G ng xSize ySize zSize x y z hg
  rw [if_pos (onBoundary_of_degenerate _ hdeg x y z hg)] at hcell
  unfold cellAt at hcell
  rw [readAt_eq_getElem? _ _ n hidx, hn] at hcell
  exact Option.some.inj hcell

theorem setNeutronFlux_zero_of_zero (e : CoreElement) (g : Nat)
    (h : ∀ v ∈ e.neutronFlux, v = 0) : e.setNeutronFlux g 0 = e := by
  have hset : e.neutronFlux.set g 0 = e.neutronFlux := by
    apply List.ext_getElem?
    intro n
    rw [List.getElem?_set]
    split
    · rename_i hgn
      subst hgn
      split
      · rename_i hlt
        rw [List.getElem?_eq_getElem hlt, h _ (List.getElem_mem hlt)]
      · rename_i hlt
        rw [List.getElem?_eq_none (not_lt.1 hlt)]
    · rfl
  unfold CoreElement.setNeutronFlux
  rw [hset]

/-- On a core without Fuel whose flux vectors are zero, the flux solve writes back what
is already stored. -/
theorem flux_noop_of_no_fuel (c : Core) (dt : ℚ)
    (hv : ∀ e ∈ c.elements, e.material ≠ MaterialType.Fuel ∧ ∀ v ∈ e.neutronFlux, v = 0) :
    (c.calculateMultiGroupNeutronFlux dt).elements = c.elements := by
  apply List.ext_getElem?
  intro n
  unfold calculateMultiGroupNeutronFlux
  simp only
  rw [getElem?_fluxCommit (fun g i => ((c.newFluxes dt).getD g []).getD i 0)]
  cases hc : c.elements[n]? with
  | none => rfl
  | some e =>
    simp only [Option.map_some', Option.some.injEq]
    obtain ⟨hm, hz⟩ := hv e (List.getElem?_mem hc)
    have hfun : (fun (el : CoreElement) (g : Nat) =>
        el.setNeutronFlux g (((c.newFluxes dt).getD g []).getD n 0)) =
        fun el g => el.setNeutronFlux g 0 := by
      funext el g
      rw [newFluxes_zero_of_not_fuel c dt g n e hc hm]
    rw [hfun]
    apply foldl_invariant (fun el : CoreElement => el = e)
    · rfl
    · intro t g _ ht
      rw [ht]
      exact setNeutronFlux_zero_of_zero e g hz

/-- On a core whose elements are all Vessel, `setControlRodInsertion` changes no
element. -/
theorem setControlRodInsertion_noop_of_vessel (c : Core) (d : ℚ)
    (hv : ∀ e ∈ c.elements, e.material = MaterialType.Vessel) :
    (c.setControlRodInsertion d).elements = c.elements := by
  apply List.ext_getElem?
  intro n
  rw [getElem?_setControlRodInsertion]
  have hin : (c.elements[n]?).map rodIn = c.elements[n]? := by
    cases hc : c.elements[n]? with
    | none => rfl
    | some e => rw [Option.map_some', rodIn_of_vessel e (hv e (List.getElem?_mem hc))]
  have hout : (c.elements[n]?).map rodOut = c.elements[n]? := by
    cases hc : c.elements[n]? with
    | none => rfl
    | some e => rw [Option.map_some', rodOut_of_vessel e (hv e (List.getElem?_mem hc))]
  split <;> split <;> simp only [hin, hout]

end Core

/-! ## Lock discipline of the command side -/

/-- Claim C24 (evaluation of the code): the mutations made by the operator commands are
not made under the guard of their resource.  `adjustControlRods 0.5` calls
`core.setControlRodInsertion` and `initiateCasualty "power surge"` calls
`core.increaseReactivity` while the core mutex is not held, `initiateCasualty "leak"`
calls `coolantLoop.setLeak` while the coolant mutex is not held, and none of these calls
constructs a lock at all; the two opening blocks of `iterate` do hold the guard of the
resource they mutate. -/
theorem command_mutations_unguarded :
    guardedFrom [] (MainSimulation.adjustControlRodsEvents (1 / 2)) = false ∧
    guardedFrom [] (MainSimulation.initiateCasualtyEvents "power surge".toList) = false ∧
    guardedFrom [] (MainSimulation.initiateCasualtyEvents "leak".toList) = false ∧
    (∀ g : Guard, ∀ d : ℚ, Event.acquire g ∉ MainSimulation.adjustControlRodsEvents d) ∧
    (∀ g : Guard, ∀ t : List Char, Event.acquire g ∉ MainSimulation.initiateCasualtyEvents t) ∧
    guardedFrom [] MainSimulation.iterateBlocksEvents = true := by
  refine ⟨?_, by decide, by decide, ?_, ?_, by decide⟩
  · have h : ¬ ((1 / 2 : ℚ) < 0 ∨ (1 / 2 : ℚ) > 1) := by norm_num
    unfold MainSimulation.adjustControlRodsEvents
    rw [if_neg h]
    decide
  · intro g d
    unfold MainSimulation.adjustControlRodsEvents
    split <;> simp
  · intro g t
    unfold MainSimulation.initiateCasualtyEvents
    split
    · simp
    · split <;> simp

/-! ## The two tick orders, entry by entry -/

namespace Core

/-- Array entry of a visited cell after `calculateCoreThermals`: the reactivity computed
on the array as it was before the call, then the population and temperature update. -/
theorem getElem?_calculateCoreThermals_visited (c : Core) (dt : ℚ) (p : Int × Int × Int)
    (hp : p ∈ c.allCells) (n : Nat) (hn : c.index p.1 p.2.1 p.2.2 = (n : Int)) :
    (c.calculateCoreThermals dt).elements[n]? =
      (c.elements[n]?).map (fun e => thermalUpdate dt
        (if e.material ≠ MaterialType.Vessel then
          e.calculateReactivity (c.getNeighbors c.elements p.1 p.2.1 p.2.2) else e)) := by
  have step1 := (getElem?_foldl_modifyAt_nodup
    (fun p : Int × Int × Int => c.index p.1 p.2.1 p.2.2)
    (fun es p element =>
      if element.material ≠ MaterialType.Vessel then
        element.calculateReactivity (c.getNeighbors es p.1 p.2.1 p.2.2)
      else element)
    (fun e : CoreElement => e.material)
    (fun _ _ a => material_reactivityUpdate a _)
    (fun s t p h => reactivityUpdate_congr c s t p h)
    c.elements c.allCells c.elements rfl c.nodup_index_allCells).2 p hp n hn
  have step2 := (getElem?_foldl_modifyAt_nodup
    (fun p : Int × Int × Int => c.index p.1 p.2.1 p.2.2)
    (fun (_ : List CoreElement) (_ : Int × Int × Int) => thermalUpdate dt)
    (fun _ => ()) (fun _ _ _ => rfl) (fun _ _ _ _ => rfl)
    (c.allCells.foldl (reactivityStep c) c.elements) c.allCells
    (c.allCells.foldl (reactivityStep c) c.elements) rfl c.nodup_index_allCells).2
    p hp n hn
  rw [reactivityStep_eq] at step2
  rw [step1, Option.map_map] at step2
  unfold calculateCoreThermals
  simp only
  rw [reactivityStep_eq]
  exact step2

/-- Array entry that no cell of the grid addresses: `calculateCoreThermals` leaves it. -/
theorem getElem?_calculateCoreThermals_unvisited (c : Core) (dt : ℚ) (n : Nat)
    (hn : ∀ p ∈ c.allCells, c.index p.1 p.2.1 p.2.2 ≠ (n : Int)) :
    (c.calculateCoreThermals dt).elements[n]? = c.elements[n]? := by
  have step1 := (getElem?_foldl_modifyAt_nodup
    (fun p : Int × Int × Int => c.index p.1 p.2.1 p.2.2)
    (fun es p element =>
      if element.material ≠ MaterialType.Vessel then
        element.calculateReactivity (c.getNeighbors es p.1 p.2.1 p.2.2)
      else element)
    (fun e : CoreElement => e.material)
    (fun _ _ a => material_reactivityUpdate a _)
    (fun s t p h => reactivityUpdate_congr c s t p h)
    c.elements c.allCells c.elements rfl c.nodup_index_allCells).1 n hn
  have step2 := (getElem?_foldl_modifyAt_nodup
    (fun p : Int × Int × Int => c.index p.1 p.2.1 p.2.2)
    (fun (_ : List CoreElement) (_ : Int × Int × Int) => thermalUpdate dt)
    (fun _ => ()) (fun _ _ _ => rfl) (fun _ _ _ _ => rfl)
    (c.allCells.foldl (reactivityStep c) c.elements) c.allCells
    (c.allCells.foldl (reactivityStep c) c.elements) rfl c.nodup_index_allCells).1 n hn
  rw [reactivityStep_eq] at step2
  rw [step1] at step2
  unfold calculateCoreThermals
  simp only
  rw [reactivityStep_eq]
  exact step2

/-- Array entry after the flux solve followed by the burnup pass. -/
theorem getElem?_flux_burnup (c : Core) (dt : ℚ) (n : Nat) :
    ((c.calculateMultiGroupNeutronFlux dt).updateFuelBurnup dt).elements[n]? =
      (c.elements[n]?).map (fun e =>
        if ({ e with neutronFlux := (List.range c.numEnergyGroups).foldl (fun fl g =>
              fl.set g (((c.newFluxes dt).getD g []).getD n 0)) e.neutronFlux } :
            CoreElement).material = MaterialType.Fuel
        then ({ e with neutronFlux := (List.range c.numEnergyGroups).foldl (fun fl g =>
              fl.set g (((c.newFluxes dt).getD g []).getD n 0)) e.neutronFlux } :
            CoreElement).updateBurnup dt
        else { e with neutronFlux := (List.range c.numEnergyGroups).foldl (fun fl g =>
              fl.set g (((c.newFluxes dt).getD g []).getD n 0)) e.neutronFlux }) := by
  unfold updateFuelBurnup calculateMultiGroupNeutronFlux
  simp only
  rw [List.getElem?_map,
    getElem?_fluxCommit (fun g i => ((c.newFluxes dt).getD g []).getD i 0), Option.map_map]
  cases c.elements[n]? with
  | none => rfl
  | some e =>
    simp only [Option.map_some', Function.comp]
    rw [foldl_setNeutronFlux_eq (fun g => ((c.newFluxes dt).getD g []).getD n 0)]

end Core

/-- Claim C25: for every core state and every `dt`, running the thermal pass first
(`calculateCoreThermals`, then `calculateMultiGroupNeutronFlux`, then `updateFuelBurnup`)
yields exactly the same core state as the order implemented by `iterate`
(`calculateMultiGroupNeutronFlux`, then `updateFuelBurnup`, then
`calculateCoreThermals`). -/
theorem tick_orders_agree (c : Core) (dt : ℚ) :
    MainSimulation.thermalFirstOrder c dt = MainSimulation.coreBlock c dt := by
  refine Core.eq_of_fields (MainSimulation.thermalFirstOrder c dt)
    (MainSimulation.coreBlock c dt) rfl rfl rfl rfl ?_ rfl
  apply List.ext_getElem?
  intro n
  have hL : (MainSimulation.thermalFirstOrder c dt).elements[n]? = _ :=
    Core.getElem?_flux_burnup (c.calculateCoreThermals dt) dt n
  have hnf : (c.calculateCoreThermals dt).newFluxes dt = c.newFluxes dt :=
    (Core.newFluxes_congr c (c.calculateCoreThermals dt) rfl rfl rfl rfl
      (c.neutronics_calculateCoreThermals dt).symm dt).symm
  have hng : (c.calculateCoreThermals dt).numEnergyGroups = c.numEnergyGroups := rfl
  rw [hnf, hng] at hL
  have hmat : ((c.calculateMultiGroupNeutronFlux dt).updateFuelBurnup dt).elements.map
      (fun e => e.material) = c.elements.map (fun e => e.material) := by
    rw [Core.materials_updateFuelBurnup, Core.materials_calculateMultiGroupNeutronFlux]
  by_cases hv : ∃ p ∈ c.allCells, c.index p.1 p.2.1 p.2.2 = (n : Int)
  · obtain ⟨p, hp, hn⟩ := hv
    have hR : (MainSimulation.coreBlock c dt).elements[n]? = _ :=
      Core.getElem?_calculateCoreThermals_visited
        ((c.calculateMultiGroupNeutronFlux dt).updateFuelBurnup dt) dt p hp n hn
    rw [Core.getElem?_flux_burnup] at hR
    rw [Core.getElem?_calculateCoreThermals_visited c dt p hp n hn] at hL
    rw [hL, hR]
    cases c.elements[n]? with
    | none => rfl
    | some e =>
      simp only [Option.map_some', Option.some.injEq]
      have hcomm := Core.thermal_commutes_element dt
        (c.getNeighbors c.elements p.1 p.2.1 p.2.2)
        (fun fl => (List.range c.numEnergyGroups).foldl (fun fl g =>
          fl.set g (((c.newFluxes dt).getD g []).getD n 0)) fl) e
      have hcongr := fun a => Core.reactivityUpdate_core_congr c
        ((c.calculateMultiGroupNeutronFlux dt).updateFuelBurnup dt) rfl rfl rfl hmat
        p.1 p.2.1 p.2.2 a
      rw [hcongr]
      exact hcomm.symm
  · have hn : ∀ p ∈ c.allCells, c.index p.1 p.2.1 p.2.2 ≠ (n : Int) := by
      intro p hp h
      exact hv ⟨p, hp, h⟩
    have hR : (MainSimulation.coreBlock c dt).elements[n]? = _ :=
      Core.getElem?_calculateCoreThermals_unvisited
        ((c.calculateMultiGroupNeutronFlux dt).updateFuelBurnup dt) dt n hn
    rw [Core.getElem?_flux_burnup] at hR
    rw [Core.getElem?_calculateCoreThermals_unvisited c dt n hn] at hL
    rw [hL, hR]

/-! ## The layers of `setControlRodInsertion` -/

/-- Counterexample to claim C14: the insertion level of the code is not `⌊d * zSize⌋`.
With `d` the `double` nearest to `0.3` and `zSize = 10`, `⌊d * zSize⌋ = 2` but the code
inserts 3 layers: the Fuel cell `(1, 1, 7)` becomes ControlRod although `7 < 10 - 2`.
With `d = 0.58` (converted to the nearest `double`) and `zSize = 50`, `⌊d * zSize⌋ = 29`
but the code inserts 28 layers: the Fuel cell `(1, 1, 21)` stays Fuel although
`21 ≥ 50 - 29`. -/
theorem insertion_level_is_not_floor :
    (toDouble (5404319552844595 / 18014398509481984) = 5404319552844595 / 18014398509481984 ∧
      toDouble (3 / 10) = 5404319552844595 / 18014398509481984 ∧
      ⌊(5404319552844595 / 18014398509481984 : ℚ) * ((Core.new 1 1 3 3 10).zSize : ℚ)⌋ = 2 ∧
      (Core.new 1 1 3 3 10).maxInsertionLevel (5404319552844595 / 18014398509481984) = 3 ∧
      ((Core.new 1 1 3 3 10).cellAt 1 1 7).map (fun e => e.material) =
        some MaterialType.Fuel ∧
      (((Core.new 1 1 3 3 10).setControlRodInsertion
          (5404319552844595 / 18014398509481984)).cellAt 1 1 7).map (fun e => e.material) =
        some MaterialType.ControlRod) ∧
    (⌊(58 / 100 : ℚ) * ((Core.new 1 1 3 3 50).zSize : ℚ)⌋ = 29 ∧
      (Core.new 1 1 3 3 50).maxInsertionLevel (58 / 100) = 28 ∧
      ((Core.new 1 1 3 3 50).cellAt 1 1 21).map (fun e => e.material) =
        some MaterialType.Fuel ∧
      (((Core.new 1 1 3 3 50).setControlRodInsertion (58 / 100)).cellAt 1 1 21).map
        (fun e => e.material) = some MaterialType.Fuel) := by
  refine ⟨⟨?_, ?_, ?_, ?_, ?_, ?_⟩, ?_, ?_, ?_, ?_⟩ <;> decide!

/-- Claim C14, amended: for a depth `d` in `[0, 1]` and `zSize` in the range of `int`,
let `m` be the level the code computes, `static_cast<int>(d * zSize)`: the truncation
of the `double` product, which lies in `[0, zSize]` and is `⌊d * zSize⌋` whenever `d` and
the product are `double`s.  After `setControlRodInsertion d` on a well-formed core
`controlRodInsertion = d`, a cell that was Fuel in the top `m` layers (`z ≥ zSize - m`)
is ControlRod, a cell that was ControlRod below them (`z < zSize - m`) is Fuel, a Vessel
cell is untouched, and so a non-Vessel cell is ControlRod exactly when `z ≥ zSize - m`
(and Fuel otherwise). -/
theorem setControlRodInsertion_layers (c : Core) (d : ℚ) (hwf : c.WellFormed)
    (h0 : 0 ≤ d) (h1 : d ≤ 1) (hz : c.zSize < 2 ^ 31) (x y z : Int) (hg : c.inGrid x y z)
    (e : CoreElement) (he : c.cellAt x y z = some e) :
    c.maxInsertionLevel d = ⌊toDouble (toDouble d * (c.zSize : ℚ))⌋ ∧
    0 ≤ c.maxInsertionLevel d ∧ c.maxInsertionLevel d ≤ c.zSize ∧
    (toDouble d = d → toDouble (d * (c.zSize : ℚ)) = d * (c.zSize : ℚ) →
      c.maxInsertionLevel d = ⌊d * (c.zSize : ℚ)⌋) ∧
    (c.setControlRodInsertion d).controlRodInsertion = d ∧
    ∃ e', (c.setControlRodInsertion d).cellAt x y z = some e' ∧
      (e.material = MaterialType.Fuel → (c.zSize : Int) - c.maxInsertionLevel d ≤ z →
        e'.material = MaterialType.ControlRod) ∧
      (e.material = MaterialType.ControlRod → z < (c.zSize : Int) - c.maxInsertionLevel d →
        e'.material = MaterialType.Fuel) ∧
      (e.material = MaterialType.Vessel → e' = e) ∧
      (e.material ≠ MaterialType.Vessel →
        (e'.material = MaterialType.ControlRod ↔ (c.zSize : Int) - c.maxInsertionLevel d ≤ z) ∧
        (e'.material = MaterialType.Fuel ↔ z < (c.zSize : Int) - c.maxInsertionLevel d)) := by
  have hz53 : c.zSize < 2 ^ 53 := lt_trans hz (by norm_num)
  obtain ⟨hm, hm0, hm1⟩ := c.maxInsertionLevel_bounds d h0 h1 hz53
  refine ⟨hm, hm0, hm1, ?_, rfl, _,
    Core.cellAt_setControlRodInsertion c d hwf h0 h1 hz53 x y z hg e he, ?_⟩
  · intro hd hp
    rw [hm, hd, hp]
  by_cases hzz : (c.zSize : Int) - c.maxInsertionLevel d ≤ z
  · rw [if_pos hzz]
    have hz' : ¬ z < (c.zSize : Int) - c.maxInsertionLevel d := not_lt.2 hzz
    refine ⟨?_, ?_, ?_, ?_⟩
    · intro hf _
      rw [Core.material_rodIn, if_pos hf]
    · intro _ hlt
      exact absurd hlt hz'
    · intro hv
      exact Core.rodIn_of_vessel e hv
    · intro hnv
      rw [Core.material_rodIn]
      cases hmat : e.material with
      | Vessel => exact absurd hmat hnv
      | Fuel => simp [hzz]
      | ControlRod => simp [hzz]
  · rw [if_neg hzz]
    have hz' : z < (c.zSize : Int) - c.maxInsertionLevel d := not_le.1 hzz
    refine ⟨?_, ?_, ?_, ?_⟩
    · intro _ hle
      exact absurd hle hzz
    · intro hc _
      rw [Core.material_rodOut, if_pos hc]
    · intro hv
      exact Core.rodOut_of_vessel e hv
    · intro hnv
      rw [Core.material_rodOut]
      cases hmat : e.material with
      | Vessel => exact absurd hmat hnv
      | Fuel => simp [hzz, hz']
      | ControlRod => simp [hzz, hz']

theorem setControlRodInsertion_layers_witness :
    (Core.new 1 1 3 3 10).WellFormed ∧
    (0 : ℚ) ≤ 5404319552844595 / 18014398509481984 ∧
    (5404319552844595 / 18014398509481984 : ℚ) ≤ 1 ∧
    (Core.new 1 1 3 3 10).zSize < 2 ^ 31 ∧
    (Core.new 1 1 3 3 10).inGrid 1 1 7 ∧
    (Core.new 1 1 3 3 10).cellAt 1 1 7 = some (CoreElement.new 1 MaterialType.Fuel 300) ∧
    (Core.new 1 1 3 3 10).maxInsertionLevel (5404319552844595 / 18014398509481984) = 3 ∧
    ((Core.new 1 1 3 3 10).setControlRodInsertion
      (5404319552844595 / 18014398509481984)).controlRodInsertion =
        5404319552844595 / 18014398509481984 ∧
    ∃ e', ((Core.new 1 1 3 3 10).setControlRodInsertion
        (5404319552844595 / 18014398509481984)).cellAt 1 1 7 = some e' ∧
      e'.material = MaterialType.ControlRod := by
  have hwf : (Core.new 1 1 3 3 10).WellFormed := Core.wellFormed_new 1 1 3 3 10
  have hd0 : (0 : ℚ) ≤ 5404319552844595 / 18014398509481984 := by norm_num
  have hd1 : (5404319552844595 / 18014398509481984 : ℚ) ≤ 1 := by norm_num
  have hz : (Core.new 1 1 3 3 10).zSize < 2 ^ 31 := by decide
  have hg : (Core.new 1 1 3 3 10).inGrid 1 1 7 := by decide
  have hcell : (Core.new 1 1 3 3 10).cellAt 1 1 7 =
      some (CoreElement.new 1 MaterialType.Fuel 300) := by
    rw [Core.cellAt_new 1 1 3 3 10 1 1 7 hg]
    rfl
  have hlev : (Core.new 1 1 3 3 10).maxInsertionLevel
      (5404319552844595 / 18014398509481984) = 3 := by decide!
  obtain ⟨_, _, _, _, hins, e', he', hfuel, _, _, _⟩ :=
    setControlRodInsertion_layers (Core.new 1 1 3 3 10)
      (5404319552844595 / 18014398509481984) hwf hd0 hd1 hz 1 1 7 hg _ hcell
  refine ⟨hwf, hd0, hd1, hz, hg, hcell, hlev, hins, e', he', ?_⟩
  apply hfuel
  · exact Core.material_new 1 MaterialType.Fuel 300
  · rw [hlev]
    decide

/-! ## SCRAM followed by a depth command -/

/-- Counterexample to claim C16: in the 3 x 3 x 3 core the centre cell is Fuel,
`insertControlRods` converts it to ControlRod, and `setControlRodInsertion 0` right
after turns it back into Fuel. -/
theorem scram_reverted_by_depth :
    ((Core.new 1 1 3 3 3).cellAt 1 1 1).map (fun e => e.material) = some MaterialType.Fuel ∧
    (((Core.new 1 1 3 3 3).insertControlRods 1).cellAt 1 1 1).map (fun e => e.material)
      = some MaterialType.ControlRod ∧
    ((((Core.new 1 1 3 3 3).insertControlRods 1).setControlRodInsertion 0).cellAt 1 1 1).map
      (fun e => e.material) = some MaterialType.Fuel := by
  refine ⟨?_, ?_, ?_⟩ <;> decide!

/-- Claim C16, amended: on a well-formed core with `zSize` in the range of `int` and for a
depth `d` in `[0, 1]`, let `m` be the level the code computes,
`static_cast<int>(d * zSize)` (the truncation of the `double` product).  After
`insertControlRods` followed by `setControlRodInsertion d` a cell that
`insertControlRods` converted to ControlRod is still ControlRod if it lies in the top
`m` layers (`z ≥ zSize - m`), and is Fuel again if it lies below them. -/
theorem scram_then_insertion (G : Nat) (c : Core) (d : ℚ) (hwf : c.WellFormed)
    (h0 : 0 ≤ d) (h1 : d ≤ 1) (hz : c.zSize < 2 ^ 31) (x y z : Int) (hg : c.inGrid x y z)
    (e : CoreElement) (he : c.cellAt x y z = some e) (hcol : c.inAlternatingColumn x y z)
    (hfuel : e.material = MaterialType.Fuel) :
    c.maxInsertionLevel d = ⌊toDouble (toDouble d * (c.zSize : ℚ))⌋ ∧
    (∃ e1, (c.insertControlRods G).cellAt x y z = some e1 ∧
      e1.material = MaterialType.ControlRod) ∧
    ∃ e', ((c.insertControlRods G).setControlRodInsertion d).cellAt x y z = some e' ∧
      ((c.zSize : Int) - c.maxInsertionLevel d ≤ z → e'.material = MaterialType.ControlRod) ∧
      (z < (c.zSize : Int) - c.maxInsertionLevel d → e'.material = MaterialType.Fuel) := by
  have hz53 : c.zSize < 2 ^ 53 := lt_trans hz (by norm_num)
  have hscram := Core.cellAt_insertControlRods G c hwf x y z hg e he
  rw [if_pos hcol, Core.scramUpdate_of_fuel G e hfuel] at hscram
  have hwf' := Core.wellFormed_insertControlRods G c hwf
  have hset := Core.cellAt_setControlRodInsertion (c.insertControlRods G) d hwf' h0 h1 hz53
    x y z hg _ hscram
  have hlev : (c.insertControlRods G).maxInsertionLevel d = c.maxInsertionLevel d := rfl
  have hzs : (c.insertControlRods G).zSize = c.zSize := rfl
  rw [hlev, hzs] at hset
  refine ⟨(c.maxInsertionLevel_bounds d h0 h1 hz53).1,
    ⟨_, hscram, Core.material_new _ _ _⟩, _, hset, ?_, ?_⟩
  · intro hle
    rw [if_pos hle, Core.material_rodIn, Core.material_new]
    rfl
  · intro hlt
    rw [if_neg (not_le.2 hlt), Core.material_rodOut, Core.material_new]
    rfl

theorem scram_then_insertion_witness :
    (Core.new 1 1 3 3 6).WellFormed ∧
    (0 : ℚ) ≤ 6004799503160661 / 18014398509481984 ∧
    (6004799503160661 / 18014398509481984 : ℚ) ≤ 1 ∧
    toDouble (1 / 3) = 6004799503160661 / 18014398509481984 ∧
    (Core.new 1 1 3 3 6).maxInsertionLevel (6004799503160661 / 18014398509481984) = 2 ∧
    ⌊(6004799503160661 / 18014398509481984 : ℚ) * ((Core.new 1 1 3 3 6).zSize : ℚ)⌋ = 1 ∧
    (Core.new 1 1 3 3 6).inAlternatingColumn 1 1 4 ∧
    (Core.new 1 1 3 3 6).inAlternatingColumn 1 1 3 ∧
    (∃ e', (((Core.new 1 1 3 3 6).insertControlRods 1).setControlRodInsertion
        (6004799503160661 / 18014398509481984)).cellAt 1 1 4 = some e' ∧
      e'.material = MaterialType.ControlRod) ∧
    ∃ e', (((Core.new 1 1 3 3 6).insertControlRods 1).setControlRodInsertion
        (6004799503160661 / 18014398509481984)).cellAt 1 1 3 = some e' ∧
      e'.material = MaterialType.Fuel := by
  have hwf : (Core.new 1 1 3 3 6).WellFormed := Core.wellFormed_new 1 1 3 3 6
  have hd0 : (0 : ℚ) ≤ 6004799503160661 / 18014398509481984 := by norm_num
  have hd1 : (6004799503160661 / 18014398509481984 : ℚ) ≤ 1 := by norm_num
  have hz : (Core.new 1 1 3 3 6).zSize < 2 ^ 31 := by decide
  have hlev : (Core.new 1 1 3 3 6).maxInsertionLevel
      (6004799503160661 / 18014398509481984) = 2 := by decide!
  have hfuel := Core.material_new 1 MaterialType.Fuel 300
  have hg4 : (Core.new 1 1 3 3 6).inGrid 1 1 4 := by decide
  have hcell4 : (Core.new 1 1 3 3 6).cellAt 1 1 4 =
      some (CoreElement.new 1 MaterialType.Fuel 300) := by
    rw [Core.cellAt_new 1 1 3 3 6 1 1 4 hg4]
    rfl
  have hcol4 : (Core.new 1 1 3 3 6).inAlternatingColumn 1 1 4 := by decide
  have hg3 : (Core.new 1 1 3 3 6).inGrid 1 1 3 := by decide
  have hcell3 : (Core.new 1 1 3 3 6).cellAt 1 1 3 =
      some (CoreElement.new 1 MaterialType.Fuel 300) := by
    rw [Core.cellAt_new 1 1 3 3 6 1 1 3 hg3]
    rfl
  have hcol3 : (Core.new 1 1 3 3 6).inAlternatingColumn 1 1 3 := by decide
  obtain ⟨_, _, e4, he4, hin4, _⟩ := scram_then_insertion 1 (Core.new 1 1 3 3 6)
    (6004799503160661 / 18014398509481984) hwf hd0 hd1 hz 1 1 4 hg4 _ hcell4 hcol4 hfuel
  obtain ⟨_, _, e3, he3, _, hout3⟩ := scram_then_insertion 1 (Core.new 1 1 3 3 6)
    (6004799503160661 / 18014398509481984) hwf hd0 hd1 hz 1 1 3 hg3 _ hcell3 hcol3 hfuel
  refine ⟨hwf, hd0, hd1, by decide!, hlev, by decide!, hcol4, hcol3,
    ⟨e4, he4, hin4 ?_⟩, e3, he3, hout3 ?_⟩
  · rw [hlev]
    decide
  · rw [hlev]
    decide

/-! ## The checked commit of the flux solve -/

namespace Core

theorem commitRowChecked_eq_some_iff (g : Nat) (w : Nat → ℚ) (es es1 : List CoreElement) :
    commitRowChecked g w es = some es1 ↔
      (∀ e ∈ es, g < e.neutronFlux.length) ∧
      es1 = es.mapIdx (fun i element => element.setNeutronFlux g (w i)) := by
  induction es generalizing w es1 with
  | nil =>
    simp [commitRowChecked, eq_comm]
  | cons a rest ih =>
    unfold commitRowChecked
    rw [List.mapIdx_cons]
    by_cases ha : g < a.neutronFlux.length
    · have hset : a.setNeutronFluxChecked g (w 0) = some (a.setNeutronFlux g (w 0)) := by
        unfold CoreElement.setNeutronFluxChecked
        rw [if_pos ha]
      rw [hset]
      cases hr : commitRowChecked g (fun i => w (i + 1)) rest with
      | none =>
        constructor
        · intro h
          exact Option.noConfusion h
        · rintro ⟨hall, _⟩
          have h := (ih (fun i => w (i + 1))
            (rest.mapIdx (fun i element => element.setNeutronFlux g (w (i + 1))))).2
            ⟨fun e he => hall e (List.mem_cons_of_mem _ he), rfl⟩
          rw [hr] at h
          exact Option.noConfusion h
      | some rest1 =>
        obtain ⟨hall, hrest⟩ := (ih (fun i => w (i + 1)) rest1).1 hr
        simp only [Option.some.injEq, List.mem_cons, forall_eq_or_imp]
        constructor
        · intro h
          refine ⟨⟨ha, hall⟩, ?_⟩
          rw [← h, hrest]
        · intro h
          rw [h.2, hrest]
    · have hset : a.setNeutronFluxChecked g (w 0) = none := by
        unfold CoreElement.setNeutronFluxChecked
        rw [if_neg ha]
      rw [hset]
      constructor
      · intro h
        exact Option.noConfusion h
      · rintro ⟨hall, _⟩
        exact absurd (hall a (List.mem_cons_self _ _)) ha

theorem foldlM_commitRowChecked_eq_some_iff (v : Nat → Nat → ℚ) (groups : List Nat)
    (es es1 : List CoreElement) :
    groups.foldlM (fun es g => commitRowChecked g (fun i => v g i) es) es = some es1 ↔
      (∀ g ∈ groups, ∀ e ∈ es, g < e.neutronFlux.length) ∧
      es1 = groups.foldl (fun es g =>
        es.mapIdx (fun i element => element.setNeutronFlux g (v g i))) es := by
  induction groups generalizing es es1 with
  | nil =>
    simp [eq_comm]
  | cons g rest ih =>
    simp only [List.foldlM_cons, List.foldl_cons, List.mem_cons, forall_eq_or_imp]
    have hlen : (es.mapIdx (fun i element => element.setNeutronFlux g (v g i))).map
        (fun e => e.neutronFlux.length) = es.map (fun e => e.neutronFlux.length) :=
      map_mapIdx_of_proj (fun e : CoreElement => e.neutronFlux.length) _ es
        (fun i a => by
          unfold CoreElement.setNeutronFlux
          simp only [List.length_set])
    have hall : ∀ L : List CoreElement, (∀ g' ∈ rest, ∀ e ∈ L, g' < e.neutronFlux.length) ↔
        ∀ g' ∈ rest, ∀ n ∈ L.map (fun e => e.neutronFlux.length), g' < n := by
      intro L
      simp only [List.mem_map, forall_exists_index, and_imp, forall_apply_eq_imp_iff₂]
    cases hr : commitRowChecked g (fun i => v g i) es with
    | none =>
      simp only [Option.bind_eq_bind, Option.none_bind]
      constructor
      · intro h
        exact Option.noConfusion h
      · rintro ⟨⟨h1, _⟩, _⟩
        have h := (commitRowChecked_eq_some_iff g (fun i => v g i) es _).2 ⟨h1, rfl⟩
        rw [hr] at h
        exact Option.noConfusion h
    | some es2 =>
      obtain ⟨h1, h2⟩ := (commitRowChecked_eq_some_iff g (fun i => v g i) es es2).1 hr
      simp only [Option.bind_eq_bind, Option.some_bind]
      rw [ih, h2, hall, hlen, ← hall]
      constructor
      · intro h
        exact ⟨⟨h1, h.1⟩, h.2⟩
      · intro h
        exact ⟨h.1.2, h.2⟩

/-- The checked flux solve returns a core exactly when every flux vector has an entry
for every group below the group count member, and then it is the core that
`calculateMultiGroupNeutronFlux` returns. -/
theorem calculateMultiGroupNeutronFluxChecked_eq_some_iff (c c1 : Core) (dt : ℚ) :
    c.calculateMultiGroupNeutronFluxChecked dt = some c1 ↔
      (∀ e ∈ c.elements, c.numEnergyGroups ≤ e.neutronFlux.length) ∧
      c1 = c.calculateMultiGroupNeutronFlux dt := by
  unfold calculateMultiGroupNeutronFluxChecked calculateMultiGroupNeutronFlux
  simp only [Option.map_eq_some']
  constructor
  · rintro ⟨es, hes, rfl⟩
    obtain ⟨h1, h2⟩ := (foldlM_commitRowChecked_eq_some_iff
      (fun g i => ((c.newFluxes dt).getD g []).getD i 0) _ c.elements es).1 hes
    refine ⟨?_, by rw [h2]⟩
    intro e he
    by_contra hcon
    have hlt := not_le.1 hcon
    exact absurd (h1 _ (List.mem_range.2 hlt) e he) (lt_irrefl _)
  · rintro ⟨h1, rfl⟩
    refine ⟨_, (foldlM_commitRowChecked_eq_some_iff
      (fun g i => ((c.newFluxes dt).getD g []).getD i 0) _ c.elements _).2 ⟨?_, rfl⟩, rfl⟩
    intro g hg e he
    exact lt_of_lt_of_le (List.mem_range.1 hg) (h1 e he)

end Core

/-- The part of the degenerate-grid behaviour that does not depend on the group count:
if one of `xSize`, `ySize`, `zSize` is below 3, the constructed core has no interior
cell (every cell of the grid is on the boundary and every element is Vessel), the loops
of `calculateMultiGroupNeutronFlux` and `insertControlRods` visit no cell, every index
formed by the loops of `setControlRodInsertion` with a depth in `[0, 1]` lies inside the
element array, and the three operations leave every element as it was; the group
indices of the flux solve stay inside the flux vectors when the member
`numEnergyGroups` does not exceed their size. -/
theorem degenerate_grid_cells_unchanged (G ng xSize ySize zSize : Nat) (dt d : ℚ)
    (hdeg : xSize < 3 ∨ ySize < 3 ∨ zSize < 3) (h0 : 0 ≤ d) (h1 : d ≤ 1)
    (hz : zSize < 2 ^ 31) :
    (∀ x y z : Int, (Core.new G ng xSize ySize zSize).inGrid x y z →
      (Core.new G ng xSize ySize zSize).onBoundary x y z) ∧
    (∀ e ∈ (Core.new G ng xSize ySize zSize).elements, e.material = MaterialType.Vessel) ∧
    (Core.new G ng xSize ySize zSize).interiorCells = [] ∧
    (Core.new G ng xSize ySize zSize).scramCells = [] ∧
    (∀ p ∈ (Core.new G ng xSize ySize zSize).insertedCells
          ((Core.new G ng xSize ySize zSize).maxInsertionLevel d) ++
        (Core.new G ng xSize ySize zSize).withdrawnCells
          ((Core.new G ng xSize ySize zSize).maxInsertionLevel d),
      0 ≤ (Core.new G ng xSize ySize zSize).index p.1 p.2.1 p.2.2 ∧
      (Core.new G ng xSize ySize zSize).index p.1 p.2.1 p.2.2 <
        (Core.new G ng xSize ySize zSize).elements.length) ∧
    (ng ≤ G → ∀ e ∈ (Core.new G ng xSize ySize zSize).elements,
      (Core.new G ng xSize ySize zSize).numEnergyGroups ≤ e.neutronFlux.length) ∧
    ((Core.new G ng xSize ySize zSize).calculateMultiGroupNeutronFlux dt).elements =
      (Core.new G ng xSize ySize zSize).elements ∧
    ((Core.new G ng xSize ySize zSize).insertControlRods G).elements =
      (Core.new G ng xSize ySize zSize).elements ∧
    ((Core.new G ng xSize ySize zSize).setControlRodInsertion d).elements =
      (Core.new G ng xSize ySize zSize).elements := by
  have hel := Core.elements_new_of_degenerate G ng xSize ySize zSize hdeg
  have hdeg' : (Core.new G ng xSize ySize zSize).xSize < 3 ∨
      (Core.new G ng xSize ySize zSize).ySize < 3 ∨
      (Core.new G ng xSize ySize zSize).zSize < 3 := hdeg
  have hves : ∀ e ∈ (Core.new G ng xSize ySize zSize).elements,
      e.material = MaterialType.Vessel := by
    intro e he
    rw [hel e he]
    exact Core.material_new G _ _
  have hscram := Core.scramCells_of_degenerate _ hdeg'
  refine ⟨Core.onBoundary_of_degenerate _ hdeg', hves, Core.interiorCells_of_degenerate _ hdeg',
    hscram, ?_, ?_, ?_, ?_, ?_⟩
  · intro p hp
    obtain ⟨_, hl0, hl1⟩ := Core.maxInsertionLevel_bounds (Core.new G ng xSize ySize zSize) d h0 h1
      (lt_trans hz (by norm_num))
    have hg : (Core.new G ng xSize ySize zSize).inGrid p.1 p.2.1 p.2.2 := by
      unfold Core.inGrid
      rcases List.mem_append.1 hp with h | h
      · rw [Core.mem_insertedCells] at h
        omega
      · rw [Core.mem_withdrawnCells] at h
        omega
    obtain ⟨hi0, hi1⟩ := Core.index_bounds _ _ _ _ hg
    have hwf := Core.wellFormed_new G ng xSize ySize zSize
    unfold Core.WellFormed at hwf
    refine ⟨hi0, ?_⟩
    rw [hwf]
    push_cast
    linarith
  · intro hng e he
    rw [hel e he]
    show ng ≤ (CoreElement.new G MaterialType.Vessel 300).neutronFlux.length
    unfold CoreElement.new
    simp only [if_neg (by decide : ¬ MaterialType.Vessel = MaterialType.Fuel),
      List.length_replicate]
    exact hng
  · apply Core.flux_noop_of_no_fuel
    intro e he
    refine ⟨?_, ?_⟩
    · rw [hves e he]
      decide
    · rw [hel e he]
      unfold CoreElement.new
      simp only [if_neg (by decide : ¬ MaterialType.Vessel = MaterialType.Fuel)]
      intro v hv
      exact (List.mem_replicate.1 hv).2
  · unfold Core.insertControlRods
    simp only [hscram, List.foldl_nil]
  · exact Core.setControlRodInsertion_noop_of_vessel _ d hves

/-- Claim C21, evaluated on the code: on a degenerate grid the flux solve does form an
out-of-bounds index when the member `numEnergyGroups` of `Core`, which the constructor
never assigns, exceeds the size of the flux vectors.  The cell loop visits no cell, but
the final loop nest calls `elements[i].setNeutronFlux(g, ...)` for every `g` below the
member: on the 1 x 1 x 1 core whose vectors have one entry and whose member holds 2 it
writes `neutronFlux[1]`, while with the member holding 1 every write is in range and the
core is unchanged.  For every constructed degenerate core with at least one cell the
writes stay in range exactly when the member does not exceed the vector size. -/
theorem degenerate_flux_commit_out_of_range :
    (Core.new 1 2 1 1 1).interiorCells = [] ∧
    (Core.new 1 2 1 1 1).elements.map (fun e => (e.material, e.neutronFlux)) =
      [(MaterialType.Vessel, [0])] ∧
    (Core.new 1 2 1 1 1).numEnergyGroups = 2 ∧
    (∀ dt : ℚ, (Core.new 1 2 1 1 1).calculateMultiGroupNeutronFluxChecked dt = none) ∧
    (∀ dt : ℚ, (Core.new 1 1 1 1 1).calculateMultiGroupNeutronFluxChecked dt =
      some (Core.new 1 1 1 1 1)) ∧
    (∀ (G ng xSize ySize zSize : Nat) (dt : ℚ), xSize < 3 ∨ ySize < 3 ∨ zSize < 3 →
      0 < xSize * ySize * zSize →
      ((Core.new G ng xSize ySize zSize).calculateMultiGroupNeutronFluxChecked dt = none ↔
        G < ng)) := by
  refine ⟨by decide!, by decide!, rfl, fun _ => rfl, fun _ => rfl, ?_⟩
  intro G ng xSize ySize zSize dt hdeg hpos
  have hel := Core.elements_new_of_degenerate G ng xSize ySize zSize hdeg
  have hlen : ∀ e ∈ (Core.new G ng xSize ySize zSize).elements, e.neutronFlux.length = G := by
    intro e he
    rw [hel e he]
    unfold CoreElement.new
    simp only [if_neg (by decide : ¬ MaterialType.Vessel = MaterialType.Fuel),
      List.length_replicate]
  have hne : ∃ e, e ∈ (Core.new G ng xSize ySize zSize).elements := by
    have hwf := Core.wellFormed_new G ng xSize ySize zSize
    unfold Core.WellFormed at hwf
    have hl : 0 < (Core.new G ng xSize ySize zSize).elements.length := by
      rw [hwf]
      exact hpos
    exact ⟨_, List.getElem_mem hl⟩
  have hng : (Core.new G ng xSize ySize zSize).numEnergyGroups = ng := rfl
  constructor
  · intro hnone
    by_contra hcon
    have hle : ng ≤ G := not_lt.1 hcon
    have hsome := (Core.calculateMultiGroupNeutronFluxChecked_eq_some_iff
      (Core.new G ng xSize ySize zSize) _ dt).2
      ⟨fun e he => by rw [hng, hlen e he]; exact hle, rfl⟩
    rw [hnone] at hsome
    exact Option.noConfusion hsome
  · intro hlt
    cases hres : (Core.new G ng xSize ySize zSize).calculateMultiGroupNeutronFluxChecked dt with
    | none => rfl
    | some c1 =>
      obtain ⟨hall, _⟩ := (Core.calculateMultiGroupNeutronFluxChecked_eq_some_iff
        (Core.new G ng xSize ySize zSize) c1 dt).1 hres
      obtain ⟨e, he⟩ := hne
      have := hall e he
      rw [hng, hlen e he] at this
      omega

/-! ## The group count of the flux solve -/

/-- Claim C12, evaluated on the code: the flux solve does not run over every group of the
elements but over the groups below the member `numEnergyGroups` of `Core`, which the
constructor never assigns.  In the 3 x 3 x 3 core whose elements have two groups and
`dt = 0.01`: the formula of the claim gives `0.94002` for both groups of the interior
Fuel cell, which is what the solve stores when the member holds 2; when the member holds
1 it stores `0.93995` in group 0 (the sums over `g'` stop below the member) and leaves
group 1 at its old value `1`, and a ControlRod cell keeps its old flux `1` in group 1
instead of getting `0`; when the member holds 0 the solve changes nothing at all; when
it holds 3 the final loop nest writes `neutronFlux[2]` outside the flux vectors. -/
theorem flux_solve_group_count_unassigned :
    ((Core.new 2 1 3 3 3).cellAt 1 1 1).map (fun e => (e.material, e.neutronFlux)) =
      some (MaterialType.Fuel, [1, 1]) ∧
    (((Core.new 2 2 3 3 3).calculateMultiGroupNeutronFlux (1 / 100)).cellAt 1 1 1).map
      (fun e => e.neutronFlux) = some [47001 / 50000, 47001 / 50000] ∧
    (((Core.new 2 1 3 3 3).calculateMultiGroupNeutronFlux (1 / 100)).cellAt 1 1 1).map
      (fun e => e.neutronFlux) = some [18799 / 20000, 1] ∧
    (((Core.new 2 1 3 3 3).setControlRodInsertion 1).cellAt 1 1 1).map
      (fun e => (e.material, e.neutronFlux)) = some (MaterialType.ControlRod, [1, 1]) ∧
    ((((Core.new 2 1 3 3 3).setControlRodInsertion 1).calculateMultiGroupNeutronFlux
      (1 / 100)).cellAt 1 1 1).map (fun e => (e.material, e.neutronFlux)) =
      some (MaterialType.ControlRod, [0, 1]) ∧
    (∀ dt : ℚ, (Core.new 2 0 3 3 3).calculateMultiGroupNeutronFlux dt = Core.new 2 0 3 3 3) ∧
    (∀ dt : ℚ, (Core.new 2 3 3 3 3).calculateMultiGroupNeutronFluxChecked dt = none) := by
  refine ⟨by decide!, by decide!, by decide!, by decide!, by decide!, fun _ => rfl, ?_⟩
  intro dt
  cases hres : (Core.new 2 3 3 3 3).calculateMultiGroupNeutronFluxChecked dt with
  | none => rfl
  | some c1 =>
    obtain ⟨hall, _⟩ := (Core.calculateMultiGroupNeutronFluxChecked_eq_some_iff
      (Core.new 2 3 3 3 3) c1 dt).1 hres
    have h := hall (CoreElement.new 2 MaterialType.Vessel 300) (by decide!)
    exact absurd h (by decide)

end RxTrainer
